import Mathlib

/-!
# I2C driver: transaction manager and interrupt state machine

A shallow embedding of `Project/i2c_old.c` (the task-facing transaction
manager), `Project/i2cISR_old.c` (the interrupt-context protocol state
machine) and `Project/Include/i2c_old.h` (opcodes, phase symbols and the
transaction descriptor).

Modelling conventions.

* `unsigned portCHAR` values are natural numbers; every place where the C
  code can leave the range of a byte (the address shift, the counter
  increments, the register reads that are narrowed to a byte) carries an
  explicit `% 256`.
* Descriptors live in a memory `mem : Nat → xI2C_struct` indexed by their
  address; a descriptor pointer is a `Nat`, the static `pxI2C` of the
  interrupt routine is an `Option Nat` whose `none` is the null pointer it
  holds before the first dequeue.
* Dereferencing the null pointer and indexing the two-byte payload array
  outside `0..1` are undefined behaviour in C; the model stops with a
  `Fault` there.
* Everything the code does to the outside world is appended, in program
  order, to `trace`: register writes, FreeRTOS calls, and the payload
  accesses of the interrupt routine.
* The byte arguments of the transaction operations are naturals; a caller
  passes values below 256.
* FreeRTOS is an external library.  The request queue is a bounded list;
  the results of the blocking calls of the task side (what the interrupt
  routine did while the task was blocked, and whether the completion wait
  returned an item) are parameters of the model.
-/

namespace I2C

/-! ## `i2c_old.h` -/

def I2C_Quick : Nat := 0x00
def I2C_SendByte : Nat := 0x01
def I2C_ReceiveByte : Nat := 0x02
def I2C_WriteByte : Nat := 0x03
def I2C_ReadByte : Nat := 0x04
def I2C_WriteWord : Nat := 0x05
def I2C_ReadWord : Nat := 0x06

def I2C_STOP : Nat := 0x00
def I2C_START : Nat := 0x01
def I2C_RSTART : Nat := 0x02
def I2C_WR_ADDR : Nat := 0x10
def I2C_WR_DATA : Nat := 0x12
def I2C_WR_COUNT : Nat := 0x18
def I2C_COMMAND : Nat := 0x20
def I2C_RD_ADDR : Nat := 0x40
def I2C_RD_ADDR_ACK : Nat := 0x41
def I2C_RD_DATA_ACK : Nat := 0x42
def I2C_RD_DATA_NAK : Nat := 0x44
def I2C_RD_COUNT : Nat := 0x48
def I2C_LOST_ARB : Nat := 0x80
def I2C_ERROR_STOP : Nat := 0xF0
def I2C_ERROR : Nat := 0xFF

/-- The transaction descriptor `xI2C_struct`; `data0` and `data1` are the two
cells of `data[0x02]`. -/
structure xI2C_struct where
  reqID : Nat
  pxHandle : Nat
  status : Nat
  opcode : Nat
  addr : Nat
  comm : Nat
  rd_len : Nat
  data0 : Nat
  data1 : Nat
deriving DecidableEq, Repr

/-- Undefined behaviour the interrupt routine can run into. -/
inductive Fault where
  | nullPointer
  | payloadIndex (i : Nat)
deriving DecidableEq, Repr

/-- The read `d.data[i]`. -/
def xI2C_struct.getData (d : xI2C_struct) (i : Nat) : Except Fault Nat :=
  if i = 0 then .ok d.data0
  else if i = 1 then .ok d.data1
  else .error (.payloadIndex i)

/-- The store `d.data[i] = v`. -/
def xI2C_struct.setData (d : xI2C_struct) (i v : Nat) : Except Fault xI2C_struct :=
  if i = 0 then .ok { d with data0 := v }
  else if i = 1 then .ok { d with data1 := v }
  else .error (.payloadIndex i)

/-! ## Hardware registers and the observable trace -/

/-- The LPC2103 registers the driver writes. -/
inductive Reg where
  | PINSEL0
  | I2C0CONSET
  | I2C0CONCLR
  | I2C0DAT
  | I2C0SCLH
  | I2C0SCLL
  | VICVectAddr
  | VICVectAddr1
  | VICVectCntl1
  | VICIntEnable
  | VICIntEnClear
  | FIOSET
  | FIOCLR
deriving DecidableEq, Repr

/-- One observable action of the driver. -/
inductive Event where
  /-- `WRITE(r, v)` -/
  | write (r : Reg) (v : Nat)
  /-- The interrupt routine reads `data[i]` of descriptor `p` for transmission. -/
  | payloadRead (p i : Nat)
  /-- The interrupt routine stores `v` into `data[i]` of descriptor `p`. -/
  | payloadWrite (p i v : Nat)
  /-- `xQueueSend(pxI2C_RQ, &pxI2C, 0)` for descriptor `p`, with its result. -/
  | xQueueSend (p : Nat) (ok : Bool)
  /-- `xQueueReceiveFromISR(pxI2C_RQ, &pxI2C, ..)`, with the handle received. -/
  | xQueueReceiveFromISR (r : Option Nat)
  /-- `xQueueSendFromISR(pxI2C->pxHandle, NULL, ..)` for descriptor `p` with
  completion queue `h`. -/
  | xQueueSendFromISR (p h : Nat)
  /-- `xQueueReceive(pxI2C->pxHandle, NULL, ticks)` with its result. -/
  | xQueueReceive (h ticks : Nat) (ok : Bool)
  /-- `vTaskDelay(ticks)` -/
  | vTaskDelay (ticks : Nat)
  | portYIELD_FROM_ISR
  | portENTER_CRITICAL
  | portEXIT_CRITICAL
  /-- `xSemaphoreGiveFromISR(xI2CSemaphore, ..)` of the deferred front-end. -/
  | xSemaphoreGiveFromISR
deriving DecidableEq, Repr

/-- The driver state: the globals of `i2c_old.c` and `i2cISR_old.c`, the
statics of `vI2C_ISR`, the descriptor memory and the trace. -/
structure I2CState where
  /-- `volatile unsigned portCHAR ucI2C_busy` -/
  ucI2C_busy : Bool
  /-- The contents of the request queue `pxI2C_RQ`, oldest first. -/
  pxI2C_RQ : List Nat
  /-- The capacity the request queue was created with. -/
  uxQueueLength : Nat
  pxI2C : Option Nat
  ucI2C_status : Nat
  ucI2C_saddr : Nat
  ucI2C_lstate : Nat
  ucI2C_cstate : Nat
  ucI2C_wr_count : Nat
  ucI2C_rd_count : Nat
  ucI2C_lostarb : Nat
  ucI2C_pending : Bool
  xRequestWokeTask : Bool
  xResponseWokeTask : Bool
  xNewRequestWokeTask : Bool
  mem : Nat → xI2C_struct
  trace : List Event

/-- Append one event to the trace. -/
def I2CState.emit (s : I2CState) (e : Event) : I2CState :=
  { s with trace := s.trace ++ [e] }

/-- Replace descriptor `p` in memory. -/
def I2CState.store (s : I2CState) (p : Nat) (d : xI2C_struct) : I2CState :=
  { s with mem := Function.update s.mem p d }

/-- What the hardware and the kernel hand to one invocation of `vI2C_ISR`:
the values the three register reads return and the "task woken" results of
the three queue calls. -/
structure IsrIn where
  I2C0CONSET : Nat
  I2C0STAT : Nat
  I2C0DAT : Nat
  requestWoke : Bool
  responseWoke : Bool
  newRequestWoke : Bool
deriving DecidableEq, Repr

/-- An interrupt with the interrupt flag asserted, phase-status code `code`
and `dat` in the data register; no task is woken by the queue calls. -/
def irq (code dat : Nat) : IsrIn :=
  { I2C0CONSET := 0x48, I2C0STAT := code, I2C0DAT := dat,
    requestWoke := false, responseWoke := false, newRequestWoke := false }

/-! ## `i2cISR_old.c` -/

/-- `vI2C_ISRCreateQueue` : create the request queue with the given capacity. -/
def vI2C_ISRCreateQueue (s : I2CState) (uxQueueLength : Nat) : I2CState :=
  { s with pxI2C_RQ := [], uxQueueLength := uxQueueLength }

/-- The call `xQueueReceiveFromISR(pxI2C_RQ, &(pxI2C), ..)`: when the queue is
not empty its oldest handle is copied into `pxI2C`; the result is `pdTRUE`
exactly then. -/
def xQueueReceiveFromISR (s : I2CState) : I2CState × Bool :=
  match s.pxI2C_RQ with
  | [] => (s.emit (.xQueueReceiveFromISR none), false)
  | q :: rest =>
    ({ s with pxI2C_RQ := rest, pxI2C := some q }.emit (.xQueueReceiveFromISR (some q)), true)

/-- `case 0x00` : bus error. -/
def case_0x00 (s : I2CState) : Except Fault I2CState :=
  let s : I2CState := { s with ucI2C_cstate := I2C_ERROR_STOP }
  .ok (s.emit (.write .I2C0CONSET 0x10))

/-- `case 0x08` : START transmitted. -/
def case_0x08 (s : I2CState) (i : IsrIn) : Except Fault I2CState :=
  let s : I2CState := { s with ucI2C_lstate := I2C_START, ucI2C_cstate := I2C_WR_ADDR }
  let s : I2CState := { s with ucI2C_lostarb := 0 }
  let s : I2CState := { s with ucI2C_wr_count := 0, ucI2C_rd_count := 0 }
  let s : I2CState := s.emit (.write .I2C0CONCLR 0x20)
  let s : I2CState :=
    if s.ucI2C_pending = false then
      let r := xQueueReceiveFromISR s
      { r.1 with xRequestWokeTask := r.1.xRequestWokeTask || (r.2 && i.requestWoke) }
    else s
  match s.pxI2C with
  | none => .error .nullPointer
  | some p =>
    let s : I2CState := { s with ucI2C_saddr := ((s.mem p).addr <<< 1) % 256 }
    let s : I2CState :=
      if (s.mem p).opcode = 2 then
        { s with ucI2C_saddr := s.ucI2C_saddr ||| 0x01, ucI2C_cstate := I2C_RD_ADDR }
      else s
    .ok (s.emit (.write .I2C0DAT s.ucI2C_saddr))

/-- `case 0x10` : repeated START transmitted. -/
def case_0x10 (s : I2CState) : Except Fault I2CState :=
  if s.ucI2C_lostarb ≠ 0 then
    match s.pxI2C with
    | none => .error .nullPointer
    | some p =>
      let s : I2CState :=
        if (s.mem p).opcode = 2 then { s with ucI2C_cstate := I2C_RD_ADDR }
        else { s with ucI2C_cstate := I2C_WR_ADDR }
      let s : I2CState := { s with ucI2C_lostarb := 0 }
      let s : I2CState := s.emit (.write .I2C0CONCLR 0x20)
      .ok (s.emit (.write .I2C0DAT s.ucI2C_saddr))
  else
    let s : I2CState := { s with ucI2C_cstate := I2C_RD_ADDR }
    let s : I2CState := { s with ucI2C_saddr := s.ucI2C_saddr ||| 0x01 }
    let s : I2CState := s.emit (.write .I2C0CONCLR 0x20)
    .ok (s.emit (.write .I2C0DAT s.ucI2C_saddr))

/-- The statement pair `WRITE(I2C0DAT, pxI2C->data[ucI2C_wr_count]);
ucI2C_wr_count++;` for the active descriptor `p`. -/
def transmitData (s : I2CState) (p : Nat) : Except Fault I2CState :=
  match (s.mem p).getData s.ucI2C_wr_count with
  | .error f => .error f
  | .ok v =>
    let s : I2CState := s.emit (.payloadRead p s.ucI2C_wr_count)
    let s : I2CState := s.emit (.write .I2C0DAT v)
    .ok { s with ucI2C_wr_count := (s.ucI2C_wr_count + 1) % 256 }

/-- The statement pair `pxI2C->data[ucI2C_rd_count] = READ(I2C0DAT);
ucI2C_rd_count++;` for the active descriptor `p`. -/
def receiveData (s : I2CState) (i : IsrIn) (p : Nat) : Except Fault I2CState :=
  match (s.mem p).setData s.ucI2C_rd_count (i.I2C0DAT % 256) with
  | .error f => .error f
  | .ok d =>
    let s : I2CState := (s.store p d).emit (.payloadWrite p s.ucI2C_rd_count (i.I2C0DAT % 256))
    .ok { s with ucI2C_rd_count := (s.ucI2C_rd_count + 1) % 256 }

/-- `case 0x18` : slave address + write transmitted, ACK received. -/
def case_0x18 (s : I2CState) : Except Fault I2CState :=
  match s.pxI2C with
  | none => .error .nullPointer
  | some p =>
    if (s.mem p).opcode = 0 then
      .ok { s with ucI2C_cstate := I2C_STOP }
    else if (s.mem p).opcode = 1 then
      transmitData { s with ucI2C_cstate := I2C_WR_DATA } p
    else if (s.mem p).opcode = 3 ∨ (s.mem p).opcode = 4 ∨ (s.mem p).opcode = 5
        ∨ (s.mem p).opcode = 6 then
      let s : I2CState := { s with ucI2C_cstate := I2C_COMMAND }
      .ok (s.emit (.write .I2C0DAT (s.mem p).comm))
    else
      .ok { s with ucI2C_cstate := I2C_ERROR_STOP }

/-- `case 0x20` : slave address + write transmitted, NACK received. -/
def case_0x20 (s : I2CState) : Except Fault I2CState :=
  .ok { s with ucI2C_cstate := I2C_ERROR_STOP }

/-- `case 0x28` : data transmitted, ACK received. -/
def case_0x28 (s : I2CState) : Except Fault I2CState :=
  match s.pxI2C with
  | none => .error .nullPointer
  | some p =>
    if (s.mem p).opcode = 1 then
      .ok { s with ucI2C_cstate := I2C_STOP }
    else if (s.mem p).opcode = 3 then
      if s.ucI2C_wr_count = 0 then
        transmitData { s with ucI2C_cstate := I2C_WR_DATA } p
      else
        .ok { s with ucI2C_cstate := I2C_STOP }
    else if (s.mem p).opcode = 5 then
      if s.ucI2C_wr_count ≤ 1 then
        transmitData { s with ucI2C_cstate := I2C_WR_DATA } p
      else
        .ok { s with ucI2C_cstate := I2C_STOP }
    else if (s.mem p).opcode = 4 ∨ (s.mem p).opcode = 6 then
      let s : I2CState := { s with ucI2C_cstate := I2C_RSTART }
      .ok (s.emit (.write .I2C0CONSET 0x20))
    else
      .ok { s with ucI2C_cstate := I2C_ERROR_STOP }

/-- `case 0x30` : data transmitted, NACK received. -/
def case_0x30 (s : I2CState) : Except Fault I2CState :=
  .ok { s with ucI2C_cstate := I2C_ERROR_STOP }

/-- `case 0x38` : arbitration lost. -/
def case_0x38 (s : I2CState) : Except Fault I2CState :=
  let s : I2CState := { s with ucI2C_cstate := I2C_LOST_ARB }
  let s : I2CState := s.emit (.write .I2C0CONSET 0x20)
  .ok { s with ucI2C_lostarb := 0x01 }

/-- `case 0x40` : slave address + read transmitted, ACK received. -/
def case_0x40 (s : I2CState) : Except Fault I2CState :=
  match s.pxI2C with
  | none => .error .nullPointer
  | some p =>
    if (s.mem p).opcode = 2 ∨ (s.mem p).opcode = 4 ∨ (s.mem p).opcode = 6 then
      let s : I2CState := { s with ucI2C_cstate := I2C_RD_ADDR_ACK }
      if (s.mem p).opcode = 2 ∨ (s.mem p).opcode = 4 then
        .ok (s.emit (.write .I2C0CONCLR 0x04))
      else
        .ok (s.emit (.write .I2C0CONSET 0x04))
    else
      .ok { s with ucI2C_cstate := I2C_ERROR_STOP }

/-- `case 0x48` : slave address + read transmitted, NACK received. -/
def case_0x48 (s : I2CState) : Except Fault I2CState :=
  .ok { s with ucI2C_cstate := I2C_ERROR_STOP }

/-- `case 0x50` : data byte received, ACK transmitted. -/
def case_0x50 (s : I2CState) (i : IsrIn) : Except Fault I2CState :=
  match s.pxI2C with
  | none => .error .nullPointer
  | some p =>
    if (s.mem p).opcode = 6 then
      let s : I2CState := { s with ucI2C_cstate := I2C_RD_DATA_NAK }
      let s : I2CState := s.emit (.write .I2C0CONCLR 0x04)
      receiveData s i p
    else
      .ok { s with ucI2C_cstate := I2C_ERROR_STOP }

/-- `case 0x58` : data byte received, NACK transmitted. -/
def case_0x58 (s : I2CState) (i : IsrIn) : Except Fault I2CState :=
  let s : I2CState := { s with ucI2C_cstate := I2C_STOP }
  match s.pxI2C with
  | none => .error .nullPointer
  | some p => receiveData s i p

/-- The `default` label of the outer switch. -/
def case_default (s : I2CState) : Except Fault I2CState :=
  .ok { s with ucI2C_cstate := I2C_ERROR_STOP }

/-- The statement `switch(ucI2C_status)`. -/
def switch_status (s : I2CState) (i : IsrIn) : Except Fault I2CState :=
  if s.ucI2C_status = 0x00 then case_0x00 s
  else if s.ucI2C_status = 0x08 then case_0x08 s i
  else if s.ucI2C_status = 0x10 then case_0x10 s
  else if s.ucI2C_status = 0x18 then case_0x18 s
  else if s.ucI2C_status = 0x20 then case_0x20 s
  else if s.ucI2C_status = 0x28 then case_0x28 s
  else if s.ucI2C_status = 0x30 then case_0x30 s
  else if s.ucI2C_status = 0x38 then case_0x38 s
  else if s.ucI2C_status = 0x40 then case_0x40 s
  else if s.ucI2C_status = 0x48 then case_0x48 s
  else if s.ucI2C_status = 0x50 then case_0x50 s i
  else if s.ucI2C_status = 0x58 then case_0x58 s i
  else case_default s

/-- The body of `if( (ucI2C_cstate == I2C_STOP) || (ucI2C_cstate ==
I2C_ERROR_STOP) )`: stop, status, completion, and the look for a pending
request. -/
def terminal_handling (s : I2CState) (i : IsrIn) : Except Fault I2CState :=
  let s : I2CState := s.emit (.write .I2C0CONSET 0x10)
  match s.pxI2C with
  | none => .error .nullPointer
  | some p =>
    let s : I2CState := s.store p { s.mem p with status := s.ucI2C_cstate }
    let s : I2CState := s.emit (.xQueueSendFromISR p (s.mem p).pxHandle)
    let s : I2CState := { s with xResponseWokeTask := s.xResponseWokeTask || i.responseWoke }
    let r := xQueueReceiveFromISR s
    let s : I2CState :=
      { r.1 with
        ucI2C_pending := r.2
        xNewRequestWokeTask := r.1.xNewRequestWokeTask || (r.2 && i.newRequestWoke) }
    if s.ucI2C_pending = true then
      .ok (s.emit (.write .I2C0CONSET 0x20))
    else
      .ok { s with ucI2C_busy := false }

/-- The epilogue of `vI2C_ISR`: the yield request, the end-of-interrupt write
and the debug pin. -/
def isr_epilogue (s : I2CState) : I2CState :=
  let s : I2CState :=
    if (s.xResponseWokeTask || s.xResponseWokeTask || s.xNewRequestWokeTask) = true then
      s.emit .portYIELD_FROM_ISR
    else s
  let s : I2CState := s.emit (.write .VICVectAddr 0x0)
  s.emit (.write .FIOCLR 0x04000000)

/-- `vI2C_ISR` : one invocation of the interrupt service routine. -/
def vI2C_ISR (s : I2CState) (i : IsrIn) : Except Fault I2CState :=
  let s : I2CState := s.emit (.write .FIOSET 0x04000000)
  let s : I2CState :=
    { s with xRequestWokeTask := false, xResponseWokeTask := false, xNewRequestWokeTask := false }
  if i.I2C0CONSET &&& 0x08 ≠ 0 then
    let s : I2CState := { s with ucI2C_status := i.I2C0STAT % 256 }
    let s : I2CState := { s with ucI2C_lstate := s.ucI2C_cstate }
    match switch_status s i with
    | .error f => .error f
    | .ok s =>
      if s.ucI2C_cstate = I2C_STOP ∨ s.ucI2C_cstate = I2C_ERROR_STOP then
        match terminal_handling s i with
        | .error f => .error f
        | .ok s => .ok (isr_epilogue (s.emit (.write .I2C0CONCLR 0x08)))
      else
        .ok (isr_epilogue (s.emit (.write .I2C0CONCLR 0x08)))
  else
    .ok (isr_epilogue s)

/-- Service a sequence of interrupts, stopping at the first fault. -/
def runISR (s : I2CState) : List IsrIn → Except Fault I2CState
  | [] => .ok s
  | i :: is =>
    match vI2C_ISR s i with
    | .error f => .error f
    | .ok s => runISR s is

/-! ## `i2c_old.c` -/

/-- The values `vI2C_Init` reads from the hardware and the address of the
interrupt wrapper it installs. -/
structure InitIn where
  PINSEL0 : Nat
  VICIntEnable : Nat
  vI2C_ISR_Wrapper : Nat
deriving DecidableEq, Repr

/-- The machine before `vI2C_Init`: zero-initialised globals and statics, no
request queue yet, descriptor memory `mem`. -/
def reset (mem : Nat → xI2C_struct) : I2CState :=
  { ucI2C_busy := false, pxI2C_RQ := [], uxQueueLength := 0, pxI2C := none,
    ucI2C_status := 0, ucI2C_saddr := 0, ucI2C_lstate := 0, ucI2C_cstate := 0,
    ucI2C_wr_count := 0, ucI2C_rd_count := 0, ucI2C_lostarb := 0, ucI2C_pending := false,
    xRequestWokeTask := false, xResponseWokeTask := false, xNewRequestWokeTask := false,
    mem := mem, trace := [] }

/-- `vI2C_Init` : pin, clock and interrupt controller set-up, busy flag idle,
request queue created. -/
def vI2C_Init (s : I2CState) (hw : InitIn) (uxQueueLength : Nat) : I2CState :=
  let s : I2CState := s.emit .portENTER_CRITICAL
  let s : I2CState := s.emit (.write .PINSEL0 (hw.PINSEL0 ||| 0x50))
  let s : I2CState := s.emit (.write .I2C0CONCLR 0x7C)
  let s : I2CState := s.emit (.write .I2C0SCLH 295)
  let s : I2CState := s.emit (.write .I2C0SCLL 295)
  let s : I2CState := s.emit (.write .I2C0CONSET 0x40)
  let s : I2CState := s.emit (.write .I2C0CONCLR 0x8)
  let s : I2CState := s.emit (.write .VICVectAddr1 hw.vI2C_ISR_Wrapper)
  let s : I2CState := s.emit (.write .VICVectCntl1 0x29)
  let s : I2CState := s.emit (.write .VICIntEnable (hw.VICIntEnable ||| 0x00000200))
  let s : I2CState := { s with ucI2C_busy := false }
  let s : I2CState := s.emit .portEXIT_CRITICAL
  vI2C_ISRCreateQueue s uxQueueLength

/-- The start of `prvI2C_Transaction`: the sentinel status and the
non-blocking `xQueueSend(pxI2C_RQ, &pxI2C, 0)`, which appends the handle when
the queue has room.  The flag returned is `q_status == pdTRUE`. -/
def prvI2C_Transaction_send (s : I2CState) (p : Nat) : I2CState × Bool :=
  let s : I2CState := s.store p { s.mem p with status := 0xFF }
  if s.pxI2C_RQ.length < s.uxQueueLength then
    let s : I2CState := { s with pxI2C_RQ := s.pxI2C_RQ ++ [p] }
    (s.emit (.xQueueSend p true), true)
  else
    (s.emit (.xQueueSend p false), false)

/-- The critical section of `prvI2C_Transaction`: start the controller and
set the busy flag if the flag is clear. -/
def prvI2C_Transaction_critical (s : I2CState) : I2CState :=
  let s : I2CState := s.emit .portENTER_CRITICAL
  let s : I2CState :=
    if s.ucI2C_busy = false then
      { s.emit (.write .I2C0CONSET 0x20) with ucI2C_busy := true }
    else s
  s.emit .portEXIT_CRITICAL

/-- The first half of `prvI2C_Transaction`, up to `portEXIT_CRITICAL()`, with
no interrupt serviced in between: the send and, when it succeeded, the
critical section. -/
def prvI2C_Transaction_submit (s : I2CState) (p : Nat) : I2CState × Bool :=
  let r := prvI2C_Transaction_send s p
  if r.2 = true then (prvI2C_Transaction_critical r.1, true) else (r.1, false)

/-- What the rest of the system does while the calling task is blocked inside
`prvI2C_Transaction`: the interrupts serviced during the completion wait, the
result of `xQueueReceive`, and the interrupts serviced during the recovery
delay. -/
structure WaitEnv where
  duringWait : List IsrIn
  received : Bool
  duringDelay : List IsrIn
deriving DecidableEq, Repr

/-- The second half of `prvI2C_Transaction`, entered when the request was
queued: the 35-tick completion wait and the 35-tick recovery delay. -/
def prvI2C_Transaction_wait (s : I2CState) (p : Nat) (env : WaitEnv) :
    Except Fault I2CState :=
  match runISR s env.duringWait with
  | .error f => .error f
  | .ok s =>
    let s : I2CState := s.emit (.xQueueReceive (s.mem p).pxHandle 35 env.received)
    if env.received ≠ true ∨ (s.mem p).status ≠ 0 then
      let s : I2CState := s.emit (.vTaskDelay 35)
      runISR s env.duringDelay
    else
      .ok s

/-- `prvI2C_Transaction` : submit-and-wait. -/
def prvI2C_Transaction (s : I2CState) (p : Nat) (env : WaitEnv) : Except Fault I2CState :=
  let r := prvI2C_Transaction_submit s p
  if r.2 = true then prvI2C_Transaction_wait r.1 p env else .ok r.1

/-- The tail shared by the seven operations: run `prvI2C_Transaction` and
return `pxI2C->status`. -/
def transact (s : I2CState) (p : Nat) (env : WaitEnv) : Except Fault (I2CState × Nat) :=
  match prvI2C_Transaction s p env with
  | .error f => .error f
  | .ok s => .ok (s, (s.mem p).status)

/-- `ucI2C_Quick` -/
def ucI2C_Quick (s : I2CState) (p addr data : Nat) (env : WaitEnv) :
    Except Fault (I2CState × Nat) :=
  let s : I2CState := s.store p { s.mem p with opcode := I2C_Quick, addr := addr, data0 := data }
  transact s p env

/-- `ucI2C_SendByte` -/
def ucI2C_SendByte (s : I2CState) (p addr data : Nat) (env : WaitEnv) :
    Except Fault (I2CState × Nat) :=
  let s : I2CState := s.store p { s.mem p with opcode := I2C_SendByte, addr := addr, data0 := data }
  transact s p env

/-- `ucI2C_ReceiveByte` -/
def ucI2C_ReceiveByte (s : I2CState) (p addr : Nat) (env : WaitEnv) :
    Except Fault (I2CState × Nat) :=
  let s : I2CState := s.store p { s.mem p with opcode := I2C_ReceiveByte, addr := addr }
  transact s p env

/-- `ucI2C_WriteByte` -/
def ucI2C_WriteByte (s : I2CState) (p addr cmd data : Nat) (env : WaitEnv) :
    Except Fault (I2CState × Nat) :=
  let s : I2CState :=
    s.store p { s.mem p with opcode := I2C_WriteByte, addr := addr, comm := cmd, data0 := data }
  transact s p env

/-- `ucI2C_ReadByte` -/
def ucI2C_ReadByte (s : I2CState) (p addr cmd : Nat) (env : WaitEnv) :
    Except Fault (I2CState × Nat) :=
  let s : I2CState := s.store p { s.mem p with opcode := I2C_ReadByte, addr := addr, comm := cmd }
  transact s p env

/-- `ucI2C_WriteWord` ; `data` is an `unsigned portBASE_TYPE`. -/
def ucI2C_WriteWord (s : I2CState) (p addr cmd data : Nat) (env : WaitEnv) :
    Except Fault (I2CState × Nat) :=
  let s : I2CState :=
    s.store p { s.mem p with
      opcode := I2C_WriteWord, addr := addr, comm := cmd
      data0 := (data &&& 0x00FF) % 256
      data1 := ((data &&& 0xFF00) >>> 8) % 256 }
  transact s p env

/-- `ucI2C_ReadWord` -/
def ucI2C_ReadWord (s : I2CState) (p addr cmd : Nat) (env : WaitEnv) :
    Except Fault (I2CState × Nat) :=
  let s : I2CState := s.store p { s.mem p with opcode := I2C_ReadWord, addr := addr, comm := cmd }
  transact s p env

/-! ## `i2cISR.c` : the deferred front-end -/

/-- What the hardware and the kernel hand to one invocation of the deferred
`vI2C_ISR`: the value read from `VICIRQStatus` and whether the semaphore give
woke a task. -/
structure DeferredIn where
  VICIRQStatus : Nat
  semaphoreWoke : Bool
deriving DecidableEq, Repr

/-- `vI2C_ISR` of `i2cISR.c`.  The second component of the result is the
static `xI2CSemaphoreWokeTask` as the routine leaves it. -/
def Deferred.vI2C_ISR (s : I2CState) (i : DeferredIn) : I2CState × Bool :=
  let xI2CSemaphoreWokeTask : Bool := false
  let r : I2CState × Bool :=
    if i.VICIRQStatus &&& 0x00000200 ≠ 0 then
      let s : I2CState := s.emit .xSemaphoreGiveFromISR
      let xI2CSemaphoreWokeTask : Bool := xI2CSemaphoreWokeTask || i.semaphoreWoke
      let s : I2CState := s.emit (.write .VICIntEnClear 0x00000200)
      let s : I2CState :=
        if xI2CSemaphoreWokeTask = true then s.emit .portYIELD_FROM_ISR else s
      (s, xI2CSemaphoreWokeTask)
    else (s, xI2CSemaphoreWokeTask)
  (r.1.emit (.write .VICVectAddr 0x0), r.2)

/-! ## Reading the trace -/

/-- What the bus sees of a register write. -/
inductive BusOp where
  | start
  | stop
  | data (v : Nat)
deriving DecidableEq, Repr

/-- The bus-level meaning of one event: a write to `I2C0DAT` is a byte to
transmit, a write to `I2C0CONSET` with bit 5 is the start command, with bit 4
the stop command. -/
def Event.busOps : Event → List BusOp
  | .write .I2C0DAT v => [.data v]
  | .write .I2C0CONSET v =>
    (if v &&& 0x20 ≠ 0 then [BusOp.start] else []) ++ (if v &&& 0x10 ≠ 0 then [BusOp.stop] else [])
  | _ => []

/-- The bus-level reading of a trace. -/
def busOps (t : List Event) : List BusOp := t.flatMap Event.busOps

/-- The bytes written to the bus data register, in order. -/
def dataWrites (t : List Event) : List Nat :=
  t.filterMap fun e => match e with
    | .write .I2C0DAT v => some v
    | _ => none

/-- The hardware register writes of a trace, in order. -/
def regWrites (t : List Event) : List (Reg × Nat) :=
  t.filterMap fun e => match e with
    | .write r v => some (r, v)
    | _ => none

/-- The number of start commands in a trace. -/
def startCount (t : List Event) : Nat := (busOps t).count .start

/-- The events a run added to the trace of the state it started from. -/
def newEvents (s s' : I2CState) : List Event := s'.trace.drop s.trace.length

/-- The indices of the payload bytes read for transmission, in order. -/
def payloadReads (t : List Event) : List Nat :=
  t.filterMap fun e => match e with
    | .payloadRead _ i => some i
    | _ => none

/-- The payload stores `(descriptor, index, value)`, in order. -/
def payloadWrites (t : List Event) : List (Nat × Nat × Nat) :=
  t.filterMap fun e => match e with
    | .payloadWrite p i v => some (p, i, v)
    | _ => none

/-- The completion signals `(descriptor, completion queue)`, in order. -/
def completionSignals (t : List Event) : List (Nat × Nat) :=
  t.filterMap fun e => match e with
    | .xQueueSendFromISR p h => some (p, h)
    | _ => none

/-- The test `(ucI2C_cstate == I2C_STOP) || (ucI2C_cstate == I2C_ERROR_STOP)`
of an invocation with input `i` that ended in state `s'`: the invocation was
a terminal step. -/
def terminalStep (i : IsrIn) (s' : I2CState) : Bool :=
  decide (i.I2C0CONSET &&& 0x08 ≠ 0) &&
    (decide (s'.ucI2C_cstate = I2C_STOP) || decide (s'.ucI2C_cstate = I2C_ERROR_STOP))

/-- An invocation on the phase-status code 0x08 (start condition sent). -/
def startSent (i : IsrIn) : Bool :=
  decide (i.I2C0CONSET &&& 0x08 ≠ 0) && decide (i.I2C0STAT % 256 = 0x08)

/-- Service interrupts up to and including the first terminal step; the
interrupts not consumed are returned with the state. -/
def runToTerminal (s : I2CState) : List IsrIn → Except Fault (I2CState × List IsrIn)
  | [] => .ok (s, [])
  | i :: is =>
    match vI2C_ISR s i with
    | .error f => .error f
    | .ok s' => if terminalStep i s' = true then .ok (s', is) else runToTerminal s' is

/-- A descriptor used in the concrete scenarios. -/
def blank : xI2C_struct :=
  { reqID := 1, pxHandle := 7, status := 0, opcode := 0, addr := 0, comm := 0, rd_len := 0,
    data0 := 0x11, data1 := 0x22 }

/-- The driver after `vI2C_Init` with a one-slot request queue, as `main`
creates it. -/
def idle : I2CState :=
  vI2C_Init (reset fun _ => blank) { PINSEL0 := 0, VICIntEnable := 0, vI2C_ISR_Wrapper := 0 } 1

/-! ## Definitions used by the statements and proofs -/

/-- The request-queue and completion events of a trace. -/
inductive QEv where
  | sent (p : Nat)
  | got (q : Option Nat)
  | done (p : Nat)
deriving DecidableEq, Repr

/-- The queue events of a trace, in order: successful submissions, dequeue
attempts of the interrupt routine and completion signals. -/
def qEvents (t : List Event) : List QEv :=
  t.filterMap fun e => match e with
    | .xQueueSend p true => some (.sent p)
    | .xQueueReceiveFromISR q => some (.got q)
    | .xQueueSendFromISR p _ => some (.done p)
    | _ => none

/-- The current phase is success-stop or error-stop. -/
def terminalPhase (s : I2CState) : Prop :=
  s.ucI2C_cstate = I2C_STOP ∨ s.ucI2C_cstate = I2C_ERROR_STOP

/-- What `switch(ucI2C_status)` does to the request queue, the active
descriptor and the flags: nothing, except that the 0x08 case may try to
dequeue; a case that ends in a terminal phase issues no start command. -/
def SwitchEffect (s s1 : I2CState) : Prop :=
  s1.trace = s.trace ++ newEvents s s1 ∧ s1.ucI2C_busy = s.ucI2C_busy
    ∧ s1.ucI2C_pending = s.ucI2C_pending
    ∧ ((s1.pxI2C_RQ = s.pxI2C_RQ ∧ s1.pxI2C = s.pxI2C ∧ qEvents (newEvents s s1) = []
          ∧ (terminalPhase s1 → startCount (newEvents s s1) = 0))
      ∨ (¬ terminalPhase s1 ∧ s.ucI2C_status = 0x08 ∧ s.ucI2C_pending = false
          ∧ s.pxI2C_RQ = [] ∧ s1.pxI2C_RQ = [] ∧ s1.pxI2C = s.pxI2C
          ∧ qEvents (newEvents s s1) = [.got none])
      ∨ (¬ terminalPhase s1 ∧ s.ucI2C_status = 0x08 ∧ s.ucI2C_pending = false
          ∧ ∃ q, s.pxI2C_RQ = q :: s1.pxI2C_RQ ∧ s1.pxI2C = some q
            ∧ qEvents (newEvents s s1) = [.got (some q)]))

/-- The prologue of `vI2C_ISR`: the debug pin and the three "task woken"
flags. -/
def isr_prologue (s : I2CState) : I2CState :=
  { s.emit (.write .FIOSET 0x04000000) with
    xRequestWokeTask := false, xResponseWokeTask := false, xNewRequestWokeTask := false }

/-- The two assignments before the switch: the status register is latched and
the current phase becomes the last phase. -/
def isr_latch (s : I2CState) (i : IsrIn) : I2CState :=
  { s with ucI2C_status := i.I2C0STAT % 256, ucI2C_lstate := s.ucI2C_cstate }

/-- The events of the epilogue of `vI2C_ISR`. -/
def epilogueEvents (s : I2CState) : List Event :=
  (if (s.xResponseWokeTask || s.xResponseWokeTask || s.xNewRequestWokeTask) = true then
      [Event.portYIELD_FROM_ISR] else [])
    ++ [.write .VICVectAddr 0x0, .write .FIOCLR 0x04000000]

/-- What the terminal handling does: it signals the active descriptor `p` and
either finds the queue empty and clears the busy flag, or takes the head of
the queue and issues a start command. -/
def TerminalEffect (s1 s2 : I2CState) : Prop :=
  s2.trace = s1.trace ++ newEvents s1 s2 ∧ s2.ucI2C_cstate = s1.ucI2C_cstate
    ∧ ∃ p, s1.pxI2C = some p
      ∧ ((s1.pxI2C_RQ = [] ∧ s2.pxI2C_RQ = [] ∧ s2.pxI2C = some p ∧ s2.ucI2C_busy = false
            ∧ s2.ucI2C_pending = false ∧ qEvents (newEvents s1 s2) = [.done p, .got none]
            ∧ startCount (newEvents s1 s2) = 0)
        ∨ (∃ q, s1.pxI2C_RQ = q :: s2.pxI2C_RQ ∧ s2.pxI2C = some q
            ∧ s2.ucI2C_busy = s1.ucI2C_busy ∧ s2.ucI2C_pending = true
            ∧ qEvents (newEvents s1 s2) = [.done p, .got (some q)]
            ∧ startCount (newEvents s1 s2) = 1))

/-- What one invocation of `vI2C_ISR` does to the request queue, the active
descriptor, the busy and pending flags and the queue events of the trace. -/
def StepEffect (s : I2CState) (i : IsrIn) (s' : I2CState) : Prop :=
  s'.trace = s.trace ++ newEvents s s' ∧
  ((terminalStep i s' = false ∧ s'.ucI2C_busy = s.ucI2C_busy
      ∧ s'.ucI2C_pending = s.ucI2C_pending
      ∧ ((s'.pxI2C_RQ = s.pxI2C_RQ ∧ s'.pxI2C = s.pxI2C ∧ qEvents (newEvents s s') = [])
        ∨ (startSent i = true ∧ s.ucI2C_pending = false ∧ s.pxI2C_RQ = [] ∧ s'.pxI2C_RQ = []
            ∧ s'.pxI2C = s.pxI2C ∧ qEvents (newEvents s s') = [.got none])
        ∨ (startSent i = true ∧ s.ucI2C_pending = false
            ∧ ∃ q, s.pxI2C_RQ = q :: s'.pxI2C_RQ ∧ s'.pxI2C = some q
              ∧ qEvents (newEvents s s') = [.got (some q)])))
  ∨ (terminalStep i s' = true ∧ ∃ p, s.pxI2C = some p
      ∧ ((s.pxI2C_RQ = [] ∧ s'.pxI2C_RQ = [] ∧ s'.pxI2C = some p ∧ s'.ucI2C_busy = false
            ∧ s'.ucI2C_pending = false ∧ qEvents (newEvents s s') = [.done p, .got none]
            ∧ startCount (newEvents s s') = 0)
        ∨ (∃ q, s.pxI2C_RQ = q :: s'.pxI2C_RQ ∧ s'.pxI2C = some q
            ∧ s'.ucI2C_busy = s.ucI2C_busy ∧ s'.ucI2C_pending = true
            ∧ qEvents (newEvents s s') = [.done p, .got (some q)]
            ∧ startCount (newEvents s s') = 1))))

/-- The value an outcome carries, or `d` when the outcome is a fault. -/
def okOr {α : Type} (d : α) (r : Except Fault α) : α :=
  match r with
  | .ok a => a
  | .error _ => d

/-- Descriptor 5 in flight and descriptor 6 waiting in the request queue. -/
def busyWithBacklog : I2CState :=
  { idle with pxI2C := some 5, pxI2C_RQ := [6], ucI2C_busy := true }

/-- One step of the whole system: the owning task rewrites descriptor `p`; a
task inside `prvI2C_Transaction` sets the sentinel status of descriptor `p`
and tries to queue it; a task inside `prvI2C_Transaction` runs the critical
section; or the interrupt routine is invoked.  Interrupts may fall between
the send and the critical section of a submission. -/
inductive Action where
  | fill (p : Nat) (d : xI2C_struct)
  | send (p : Nat)
  | kick
  | isr (i : IsrIn)

/-- Execute one system step. -/
def step (s : I2CState) : Action → Except Fault I2CState
  | .fill p d => .ok (s.store p d)
  | .send p => .ok (prvI2C_Transaction_send s p).1
  | .kick => .ok (prvI2C_Transaction_critical s)
  | .isr i => vI2C_ISR s i

/-- Execute a sequence of system steps, stopping at the first fault. -/
def run (s : I2CState) : List Action → Except Fault I2CState
  | [] => .ok s
  | a :: as =>
    match step s a with
    | .error f => .error f
    | .ok s' => run s' as

/-- The number of completion signals sent for descriptor `p`. -/
def completions (p : Nat) (t : List Event) : Nat := (qEvents t).count (.done p)

/-- The number of times descriptor `p` was put on the request queue. -/
def submissions (p : Nat) (t : List Event) : Nat := (qEvents t).count (.sent p)

/-- Whether a transaction is in flight after a queue event: a successful
dequeue starts one, a completion signal ends it. -/
def flightStep (b : Bool) : QEv → Bool
  | .got (some _) => true
  | .done _ => false
  | _ => b

/-- Whether, at the end of a trace, a dequeued descriptor is still waiting
for its completion signal. -/
def inFlight (t : List Event) : Bool := (qEvents t).foldl flightStep false

/-- Every terminal step of the run is taken while a transaction is in
flight. -/
def terminalsInFlight (s : I2CState) : List Action → Bool
  | [] => true
  | a :: as =>
    match step s a with
    | .error _ => true
    | .ok s' =>
      (match a with
        | .isr i => !terminalStep i s' || inFlight s.trace
        | _ => true) && terminalsInFlight s' as

/-- The accounting invariant of the request queue: for every descriptor, the
completions sent, the copies still queued and the one possibly in flight do
not exceed the submissions. -/
def Accounted (s : I2CState) : Prop :=
  ∀ p, completions p s.trace + s.pxI2C_RQ.count p
      + (if inFlight s.trace = true ∧ s.pxI2C = some p then 1 else 0)
    ≤ submissions p s.trace

/-- The invariant of a WriteWord transaction between its start and its
terminal step: `p` is the active descriptor, its opcode is WriteWord, `k`
payload bytes have been transmitted and nothing has been received. -/
def WordInv (p k : Nat) (s : I2CState) : Prop :=
  s.pxI2C = some p ∧ (s.mem p).opcode = I2C_WriteWord ∧ s.ucI2C_wr_count = k
    ∧ s.ucI2C_rd_count = 0

/-- The driver after `write_word(0x20, 0x99, 0x88)` on descriptor 5 has been
submitted on the idle driver (the call of the camera task). -/
def wordSubmitted : I2CState :=
  (prvI2C_Transaction_submit
    (idle.store 5 { blank with opcode := I2C_WriteWord, addr := 0x20, comm := 0x99,
                               data0 := 0x88, data1 := 0x00 }) 5).1


/-- What a non-start step does during a WriteWord transaction that has sent
`k` payload bytes: it ends the transaction, or keeps the invariant without
reading the payload, or reads exactly `payload[k]`. -/
def WordEffect (p k : Nat) (s s1 : I2CState) : Prop :=
  s1.trace = s.trace ++ newEvents s s1 ∧ s1.pxI2C = some p
    ∧ ((terminalPhase s1 ∧ payloadReads (newEvents s s1) = [])
      ∨ (¬ terminalPhase s1 ∧ payloadReads (newEvents s s1) = [] ∧ WordInv p k s1)
      ∨ (¬ terminalPhase s1 ∧ k < 2 ∧ payloadReads (newEvents s s1) = [k]
          ∧ WordInv p (k + 1) s1))

/-- A second descriptor: a SendByte request of another task. -/
def second : xI2C_struct :=
  { reqID := 2, pxHandle := 8, status := 0, opcode := I2C_SendByte, addr := 0x02, comm := 0,
    rd_len := 0, data0 := 0xDD, data1 := 0 }

/-- Descriptor 5 is submitted on the idle driver and activated by the first
start-sent interrupt; descriptor 6 (a SendByte request) is then submitted by
another task while the controller is busy. -/
def activeAndQueued : I2CState :=
  okOr idle (run idle [.fill 6 second, .send 5, .kick, .isr (irq 0x08 0), .send 6, .kick])

/-- The outcome of a transaction operation on descriptor `p` that was rejected
because the request queue was full: status 0xFF returned, the failed
`xQueueSend` the only event (no register write, no wait, no delay), busy flag
and queue untouched. -/
def Rejected (s : I2CState) (p : Nat) (r : I2CState × Nat) : Prop :=
  r.2 = 0xFF ∧ newEvents s r.1 = [.xQueueSend p false] ∧ regWrites (newEvents s r.1) = []
    ∧ startCount (newEvents s r.1) = 0
    ∧ r.1.ucI2C_busy = s.ucI2C_busy ∧ r.1.pxI2C_RQ = s.pxI2C_RQ

/-- Descriptor `d'` agrees with `d` on everything but the status and the
payload: requester, completion queue, opcode, address, command and read
length. -/
def sameRequest (d d' : xI2C_struct) : Prop :=
  d'.reqID = d.reqID ∧ d'.pxHandle = d.pxHandle ∧ d'.opcode = d.opcode ∧ d'.addr = d.addr
    ∧ d'.comm = d.comm ∧ d'.rd_len = d.rd_len

/-- What `switch(ucI2C_status)` does to the descriptor memory: it writes at
most the payload of the active descriptor. -/
def SwitchMem (s s1 : I2CState) : Prop :=
  (∀ x, sameRequest (s.mem x) (s1.mem x) ∧ (s1.mem x).status = (s.mem x).status)
    ∧ (∀ x, s.pxI2C ≠ some x → s1.mem x = s.mem x)

/-- What one invocation of `vI2C_ISR` does to the descriptor memory: only the
descriptor that is active when the routine is entered can change, and only in
its payload and status; the status is written in terminal steps only, and is
then the terminal phase. -/
def StepMem (s : I2CState) (i : IsrIn) (s' : I2CState) : Prop :=
  (∀ x, sameRequest (s.mem x) (s'.mem x))
    ∧ (∀ x, s.pxI2C ≠ some x → s'.mem x = s.mem x)
    ∧ (terminalStep i s' = false → ∀ x, (s'.mem x).status = (s.mem x).status)
    ∧ (terminalStep i s' = true →
        ∃ p, s.pxI2C = some p ∧ (s'.mem p).status = s'.ucI2C_cstate)

/-- Whether, while the interrupts `is` are serviced from state `s`, the
interrupt routine takes a terminal step in the success-stop phase with
descriptor `p` active: it ends a transaction of `p` in success-stop. -/
def successStopIn (p : Nat) (s : I2CState) : List IsrIn → Bool
  | [] => false
  | i :: is =>
    match vI2C_ISR s i with
    | .error _ => false
    | .ok s' =>
      (terminalStep i s' && decide (s.pxI2C = some p) && decide (s'.ucI2C_cstate = I2C_STOP))
        || successStopIn p s' is

/-- Whether the interrupt routine ends a transaction of `p` in success-stop
while the caller of `prvI2C_Transaction s p env` is blocked: during the
completion wait, or during the recovery delay when there is one. -/
def successStopDuring (p : Nat) (s : I2CState) (env : WaitEnv) : Bool :=
  let r := prvI2C_Transaction_submit s p
  r.2 && (successStopIn p r.1 env.duringWait ||
    match runISR r.1 env.duringWait with
    | .error _ => false
    | .ok s1 =>
      let s1 : I2CState := s1.emit (.xQueueReceive (s1.mem p).pxHandle 35 env.received)
      decide (env.received ≠ true ∨ (s1.mem p).status ≠ 0)
        && successStopIn p (s1.emit (.vTaskDelay 35)) env.duringDelay)

/-- The initialised driver after descriptor 5 (a Quick request) has been
submitted and its start condition has been sent. -/
def quickStarted : I2CState :=
  okOr idle (runISR (prvI2C_Transaction_submit idle 5).1 [irq 0x08 0])

/-- The state `quickStarted` after the address has been acknowledged: the Quick
transaction of descriptor 5 has ended. -/
def quickDone : I2CState :=
  okOr idle (vI2C_ISR quickStarted (irq 0x18 0))

/-- The call `res` of a transaction operation on descriptor `p` hands the
descriptor contents `d` to submit-and-wait: it stores `d` at `p`, with the
requester id and the completion queue that were there, runs
`prvI2C_Transaction` and returns the status field of `p` as it stands when
`prvI2C_Transaction` returns. -/
def HandsOver (s : I2CState) (p : Nat) (env : WaitEnv) (d : xI2C_struct)
    (res : Except Fault (I2CState × Nat)) : Prop :=
  d.reqID = (s.mem p).reqID ∧ d.pxHandle = (s.mem p).pxHandle
    ∧ res = (match prvI2C_Transaction (s.store p d) p env with
        | .error f => .error f
        | .ok s' => .ok (s', (s'.mem p).status))

/-- The driver after `receive_byte(0x40)` on descriptor 5 has been submitted on
the idle driver. -/
def receiveSubmitted : I2CState :=
  (prvI2C_Transaction_submit
    (idle.store 5 { blank with opcode := I2C_ReceiveByte, addr := 0x40 }) 5).1

/-- The driver after `write_word(0x20, 0x99, 0xBEEF)` on descriptor 5 has been
submitted on the idle driver, its address, command and `payload[0]` have been
transmitted (0x08, 0x18, 0x28) and arbitration has then been lost (0x38). -/
def wordLostArbitration : I2CState :=
  okOr idle (runISR
    (prvI2C_Transaction_submit
      (idle.store 5 { blank with opcode := I2C_WriteWord, addr := 0x20, comm := 0x99,
                                 data0 := 0xEF, data1 := 0xBE }) 5).1
    [irq 0x08 0, irq 0x18 0, irq 0x28 0, irq 0x38 0])

/-- The handles put on the request queue, in order. -/
def enqueuedOf (evs : List QEv) : List Nat :=
  evs.filterMap fun e => match e with
    | .sent p => some p
    | _ => none

/-- The handles taken from the request queue, in order. -/
def dequeuedOf (evs : List QEv) : List Nat :=
  evs.filterMap fun e => match e with
    | .got (some q) => some q
    | _ => none

/-- The descriptors named by completion signals, in order. -/
def completedOf (evs : List QEv) : List Nat :=
  evs.filterMap fun e => match e with
    | .done p => some p
    | _ => none

/-- The handles put on the request queue during a trace, in order. -/
def enqueued (t : List Event) : List Nat := enqueuedOf (qEvents t)

/-- The handles the interrupt routine took from the request queue during a
trace, in order. -/
def dequeued (t : List Event) : List Nat := dequeuedOf (qEvents t)

/-- The descriptors whose completion queue was signalled during a trace, in
order. -/
def completed (t : List Event) : List Nat := completedOf (qEvents t)

/-- One queue event replayed on a first-in first-out queue `q` with the
descriptor in service `cur`: a submission appends at the tail; a dequeue
that finds nothing needs the queue empty; a dequeue returns the head, which
goes into service; a completion names the descriptor in service.  Anything
else is a deviation (`none`). -/
def fifoStep (st : Option (List Nat × Option Nat)) (e : QEv) :
    Option (List Nat × Option Nat) :=
  match st, e with
  | none, _ => none
  | some (q, cur), .sent p => some (q ++ [p], cur)
  | some (q, cur), .got none => if q = [] then some (q, cur) else none
  | some (y :: q, _), .got (some x) => if x = y then some (q, some x) else none
  | some ([], _), .got (some _) => none
  | some (q, cur), .done p => if cur = some p then some (q, cur) else none

/-- Replay queue events on an empty first-in first-out queue with nothing in
service; the result is the final queue and descriptor in service, or `none`
when an event deviates. -/
def fifoReplay (evs : List QEv) : Option (List Nat × Option Nat) :=
  evs.foldl fifoStep (some ([], none))

/-- The list `c` runs through the list `d` in order: its elements can be found
in `d` at positions that never go back (a position may be used again). -/
inductive InOrder : List Nat → List Nat → Prop
  | nil (d : List Nat) : InOrder [] d
  | skip {c ds : List Nat} (d : Nat) : InOrder c ds → InOrder c (d :: ds)
  | take {c ds : List Nat} (d : Nat) : InOrder c (d :: ds) → InOrder (d :: c) (d :: ds)

/-- The queue events of the trace replay on a first-in first-out queue without
deviation and end in the contents of the request queue and the active
descriptor. -/
def Fifo (s : I2CState) : Prop :=
  fifoReplay (qEvents s.trace) = some (s.pxI2C_RQ, s.pxI2C)

/-- The completions so far are a subsequence of the dequeues that precede the
transaction in flight, if there is one, and of all dequeues otherwise. -/
def Served (s : I2CState) : Prop :=
  (completed s.trace).Sublist
    (if inFlight s.trace = true then (dequeued s.trace).dropLast else dequeued s.trace)

/-- Two requests served one after the other on the initialised driver:
descriptor 5 (Quick) is submitted and started, descriptor 6 (SendByte) is
submitted while 5 is in flight, and both transactions run to their end. -/
def twoServed : List Action :=
  [.fill 6 second, .send 5, .kick, .isr (irq 0x08 0), .send 6, .kick, .isr (irq 0x18 0),
    .isr (irq 0x08 0), .isr (irq 0x18 0), .isr (irq 0x28 0)]

/-- The events of a trace that task code produced: everything outside the
invocations of `vI2C_ISR`, each of which starts by setting the debug pin
(`WRITE(FIOSET, 0x04000000)`) and ends by clearing it (`WRITE(FIOCLR,
0x04000000)`).  The flag says whether the reading starts inside an
invocation. -/
def taskEvents : Bool → List Event → List Event
  | _, [] => []
  | false, e :: t =>
    if e = .write .FIOSET 0x04000000 then taskEvents true t else e :: taskEvents false t
  | true, e :: t =>
    if e = .write .FIOCLR 0x04000000 then taskEvents false t else taskEvents true t

/-- The driver initialised with a two-slot request queue, with descriptor 5 (a
Quick request) submitted and started; descriptor 7 is the SendByte request
`second`, every other descriptor is `blank`. -/
def threeRequests : I2CState :=
  okOr idle
    (run (vI2C_Init (reset fun x => if x = 7 then second else blank)
        { PINSEL0 := 0, VICIntEnable := 0, vI2C_ISR_Wrapper := 0 } 2)
      [.send 5, .kick, .isr (irq 0x08 0)])

/-- The state `threeRequests` after descriptor 6 (Quick) and then descriptor 7
(SendByte) have been submitted. -/
def threeQueued : I2CState :=
  (prvI2C_Transaction_submit (prvI2C_Transaction_submit threeRequests 6).1 7).1

/-- The state `threeQueued` after the terminal step (code 0x18) of the Quick
transaction of descriptor 5. -/
def threeFirstDone : I2CState :=
  okOr idle (vI2C_ISR threeQueued (irq 0x18 0))

/-- The initialised driver after a submit-and-wait of descriptor 5 whose
transaction is ended by an address NAK during the completion wait. -/
def nakReturned : I2CState :=
  okOr idle (prvI2C_Transaction idle 5 ⟨[irq 0x08 0, irq 0x20 0], true, []⟩)

/-- The opcode of the active descriptor (0 when `pxI2C` is still the null
pointer). -/
def activeOpcode (s : I2CState) : Nat :=
  match s.pxI2C with
  | some p => (s.mem p).opcode
  | none => 0

/-- Whether `switch(ucI2C_status)` ends in a terminal phase, read off the
branches of the switch: it is decided by the phase-status code, the opcode
of the active descriptor and the write counter. -/
def terminalCode (code opcode wr : Nat) : Bool :=
  if code = 0x08 ∨ code = 0x10 ∨ code = 0x38 then false
  else if code = 0x18 then
    !decide (opcode = 1 ∨ opcode = 3 ∨ opcode = 4 ∨ opcode = 5 ∨ opcode = 6)
  else if code = 0x28 then
    !decide ((opcode = 3 ∧ wr = 0) ∨ (opcode = 5 ∧ wr ≤ 1) ∨ opcode = 4 ∨ opcode = 6)
  else if code = 0x40 then !decide (opcode = 2 ∨ opcode = 4 ∨ opcode = 6)
  else if code = 0x50 then !decide (opcode = 6)
  else true

/-- The phase is arbitration-lost only with the arbitration-lost flag set. -/
def LostFlagged (s : I2CState) : Prop :=
  s.ucI2C_cstate = I2C_LOST_ARB → s.ucI2C_lostarb ≠ 0

/-- The driver after `read_byte(0x40, 0x77)` on descriptor 5 has been submitted
on the idle driver, address and command have been transmitted (0x08, 0x18,
0x28), the repeated start has turned the transfer to read (0x10), and
arbitration has then been lost (0x38). -/
def readByteLostArbitration : I2CState :=
  okOr idle (runISR
    (prvI2C_Transaction_submit
      (idle.store 5 { blank with opcode := I2C_ReadByte, addr := 0x40, comm := 0x77 }) 5).1
    [irq 0x08 0, irq 0x18 0, irq 0x28 0, irq 0x10 0, irq 0x38 0])

/-- The driver after `write_byte(0x08, 0xCC, 0xBB)` on descriptor 5 has been
submitted on the idle driver and the codes 0x08, 0x38 (arbitration lost) and
0x18 have been processed. -/
def writeByteLostThenAck : I2CState :=
  okOr idle (runISR
    (prvI2C_Transaction_submit
      (idle.store 5 { blank with opcode := I2C_WriteByte, addr := 0x08, comm := 0xCC,
                                 data0 := 0xBB }) 5).1
    [irq 0x08 0, irq 0x38 0, irq 0x18 0])

/-- The initialised driver after descriptor 5, filled with the SendByte request
`second`, has been submitted and its start condition has been sent. -/
def sendByteStarted : I2CState :=
  okOr idle (runISR (prvI2C_Transaction_submit (idle.store 5 second) 5).1 [irq 0x08 0])

/-- The state `wordSubmitted` after the start condition has been sent. -/
def wordStarted : I2CState :=
  okOr idle (vI2C_ISR wordSubmitted (irq 0x08 0))

/-- The state `receiveSubmitted` after the start condition has been sent. -/
def receiveStarted : I2CState :=
  okOr idle (vI2C_ISR receiveSubmitted (irq 0x08 0))

/-- The driver after `read_word(0x40, 0x77)` on descriptor 5 has been submitted
on the idle driver, address and command have been transmitted (0x08, 0x18,
0x28) and the repeated start has turned the transfer to read (0x10). -/
def readWordTurned : I2CState :=
  okOr idle (runISR
    (prvI2C_Transaction_submit
      (idle.store 5 { blank with opcode := I2C_ReadWord, addr := 0x40, comm := 0x77 }) 5).1
    [irq 0x08 0, irq 0x18 0, irq 0x28 0, irq 0x10 0])

/-- The state `readWordTurned` after the address has been acknowledged (0x40). -/
def readWordAcked : I2CState :=
  okOr idle (vI2C_ISR readWordTurned (irq 0x40 0))


/-- An invocation of the interrupt routine while the controller does not
assert its interrupt flag (bit 3 of `I2C0CONSET` reads 0): a spurious
interrupt. -/
def spurious : IsrIn :=
  { I2C0CONSET := 0x40, I2C0STAT := 0xF8, I2C0DAT := 0,
    requestWoke := false, responseWoke := false, newRequestWoke := false }

/-- The state `s` with `data[0]` of descriptor `p` replaced by `v`. -/
def I2CState.withData0 (s : I2CState) (p v : Nat) : I2CState :=
  s.store p { s.mem p with data0 := v }

/-- The outcome `b` is the outcome `a` with `data[0]` of descriptor `p`
replaced by `v`: the same fault, or the same state up to that byte. -/
def BlindTo (p v : Nat) (a b : Except Fault I2CState) : Prop :=
  match a with
  | .error f => b = .error f
  | .ok s1 => b = .ok (s1.withData0 p v)

/-- From `s` to `s'` the trace only grew, and by no read of a payload byte of
descriptor `p` for transmission. -/
def NoPayloadRead (p : Nat) (s s' : I2CState) : Prop :=
  ∃ N, s'.trace = s.trace ++ N ∧ ∀ k, Event.payloadRead p k ∉ N

/-! ## Theorems -/

/-- A computation whose outcome satisfies `P` returns a value satisfying `P`. -/
theorem exists_ok_of_match {α : Type} {r : Except Fault α} {P : α → Prop}
    (h : match r with | .ok x => P x | .error _ => False) : ∃ x, r = .ok x ∧ P x := by
  cases r with
  | error f => exact h.elim
  | ok x => exact ⟨x, rfl, h⟩

/-! ### Effect of one interrupt on the queue, the flags and the trace -/

/-- The 0x08 case leaves a non-terminal phase and touches the queue only through
its one guarded dequeue. -/
theorem case_0x08_effect (s s1 : I2CState) (i : IsrIn) (hs : s.ucI2C_status = 0x08)
    (h : case_0x08 s i = .ok s1) : SwitchEffect s s1 := by
  cases hpend : s.ucI2C_pending <;> cases hq : s.pxI2C_RQ <;>
    simp only [case_0x08, xQueueReceiveFromISR, I2CState.emit, hpend, hq, ↓reduceIte,
      Bool.false_eq_true, Bool.true_eq_false, reduceCtorEq] at h <;>
    (repeat' split at h) <;> (try cases h) <;>
    simp +decide [SwitchEffect, terminalPhase, qEvents, startCount, busOps, Event.busOps,
      I2C_STOP, I2C_ERROR_STOP, I2C_WR_ADDR, I2C_RD_ADDR, newEvents, hs, hpend, hq]

/-- Every case other than 0x08 leaves the queue, the active descriptor and the
flags alone, and issues no start command when it ends in a terminal phase. -/
theorem case_other_effect (s s1 : I2CState) (i : IsrIn)
    (h : case_0x00 s = .ok s1 ∨ case_0x10 s = .ok s1 ∨ case_0x18 s = .ok s1
        ∨ case_0x20 s = .ok s1 ∨ case_0x28 s = .ok s1 ∨ case_0x30 s = .ok s1
        ∨ case_0x38 s = .ok s1 ∨ case_0x40 s = .ok s1 ∨ case_0x48 s = .ok s1
        ∨ case_0x50 s i = .ok s1 ∨ case_0x58 s i = .ok s1 ∨ case_default s = .ok s1) :
    SwitchEffect s s1 := by
  rcases h with h | h | h | h | h | h | h | h | h | h | h | h <;>
    simp only [case_0x00, case_0x10, case_0x18, case_0x20, case_0x28, case_0x30, case_0x38,
      case_0x40, case_0x48, case_0x50, case_0x58, case_default, transmitData, receiveData,
      xI2C_struct.getData, xI2C_struct.setData] at h <;>
    (repeat' split at h) <;> (try cases h) <;>
    simp +decide [SwitchEffect, terminalPhase, I2CState.emit, I2CState.store, qEvents,
      startCount, busOps, Event.busOps, I2C_STOP, I2C_ERROR_STOP, I2C_WR_ADDR, I2C_RD_ADDR,
      I2C_WR_DATA, I2C_COMMAND, I2C_RSTART, I2C_LOST_ARB, I2C_RD_ADDR_ACK, I2C_RD_DATA_NAK,
      newEvents]

/-- The effect of `switch(ucI2C_status)` on the queue, the flags and the trace. -/
theorem switch_status_effect (s s1 : I2CState) (i : IsrIn) (h : switch_status s i = .ok s1) :
    SwitchEffect s s1 := by
  unfold switch_status at h
  by_cases h00 : s.ucI2C_status = 0x00
  · rw [if_pos h00] at h; exact case_other_effect s s1 i (by simp only [h, true_or, or_true])
  rw [if_neg h00] at h
  by_cases h08 : s.ucI2C_status = 0x08
  · rw [if_pos h08] at h; exact case_0x08_effect s s1 i h08 h
  rw [if_neg h08] at h
  by_cases h10 : s.ucI2C_status = 0x10
  · rw [if_pos h10] at h; exact case_other_effect s s1 i (by simp only [h, true_or, or_true])
  rw [if_neg h10] at h
  by_cases h18 : s.ucI2C_status = 0x18
  · rw [if_pos h18] at h; exact case_other_effect s s1 i (by simp only [h, true_or, or_true])
  rw [if_neg h18] at h
  by_cases h20 : s.ucI2C_status = 0x20
  · rw [if_pos h20] at h; exact case_other_effect s s1 i (by simp only [h, true_or, or_true])
  rw [if_neg h20] at h
  by_cases h28 : s.ucI2C_status = 0x28
  · rw [if_pos h28] at h; exact case_other_effect s s1 i (by simp only [h, true_or, or_true])
  rw [if_neg h28] at h
  by_cases h30 : s.ucI2C_status = 0x30
  · rw [if_pos h30] at h; exact case_other_effect s s1 i (by simp only [h, true_or, or_true])
  rw [if_neg h30] at h
  by_cases h38 : s.ucI2C_status = 0x38
  · rw [if_pos h38] at h; exact case_other_effect s s1 i (by simp only [h, true_or, or_true])
  rw [if_neg h38] at h
  by_cases h40 : s.ucI2C_status = 0x40
  · rw [if_pos h40] at h; exact case_other_effect s s1 i (by simp only [h, true_or, or_true])
  rw [if_neg h40] at h
  by_cases h48 : s.ucI2C_status = 0x48
  · rw [if_pos h48] at h; exact case_other_effect s s1 i (by simp only [h, true_or, or_true])
  rw [if_neg h48] at h
  by_cases h50 : s.ucI2C_status = 0x50
  · rw [if_pos h50] at h; exact case_other_effect s s1 i (by simp only [h, true_or, or_true])
  rw [if_neg h50] at h
  by_cases h58 : s.ucI2C_status = 0x58
  · rw [if_pos h58] at h; exact case_other_effect s s1 i (by simp only [h, true_or, or_true])
  rw [if_neg h58] at h
  exact case_other_effect s s1 i (by simp only [h, true_or, or_true])

/-- The body of `vI2C_ISR` in terms of its prologue, the latch of the status
register, the switch, the terminal handling and the epilogue. -/
theorem vI2C_ISR_unfold (s : I2CState) (i : IsrIn) :
    vI2C_ISR s i =
      if i.I2C0CONSET &&& 0x08 ≠ 0 then
        match switch_status (isr_latch (isr_prologue s) i) i with
        | .error f => .error f
        | .ok s1 =>
          if s1.ucI2C_cstate = I2C_STOP ∨ s1.ucI2C_cstate = I2C_ERROR_STOP then
            match terminal_handling s1 i with
            | .error f => .error f
            | .ok s2 => .ok (isr_epilogue (s2.emit (.write .I2C0CONCLR 0x08)))
          else
            .ok (isr_epilogue (s1.emit (.write .I2C0CONCLR 0x08)))
      else
        .ok (isr_epilogue (isr_prologue s)) := rfl

/-- The epilogue only appends its events to the trace. -/
theorem isr_epilogue_eq (s : I2CState) :
    isr_epilogue s = { s with trace := s.trace ++ epilogueEvents s } := by
  unfold isr_epilogue epilogueEvents
  by_cases h1 : s.xResponseWokeTask = true <;> by_cases h2 : s.xNewRequestWokeTask = true <;>
    simp [h1, h2, I2CState.emit]

theorem qEvents_append (a b : List Event) : qEvents (a ++ b) = qEvents a ++ qEvents b := by
  simp [qEvents, List.filterMap_append]

theorem startCount_append (a b : List Event) :
    startCount (a ++ b) = startCount a + startCount b := by
  simp [startCount, busOps, List.flatMap_append, List.count_append]

theorem qEvents_epilogue (s : I2CState) : qEvents (epilogueEvents s) = [] := by
  unfold epilogueEvents; split <;> simp [qEvents]

theorem startCount_epilogue (s : I2CState) : startCount (epilogueEvents s) = 0 := by
  unfold epilogueEvents; split <;> simp +decide [startCount, busOps, Event.busOps]

/-- The events added by a run are what was appended to the trace. -/
theorem newEvents_of_eq {s s' : I2CState} {evs : List Event} (h : s'.trace = s.trace ++ evs) :
    newEvents s s' = evs := by
  simp [newEvents, h]

/-- The effect of the terminal handling on the queue, the flags and the trace. -/
theorem terminal_handling_effect (s1 s2 : I2CState) (i : IsrIn)
    (h : terminal_handling s1 i = .ok s2) : TerminalEffect s1 s2 := by
  cases hq : s1.pxI2C_RQ <;> cases hp : s1.pxI2C <;>
    simp only [terminal_handling, xQueueReceiveFromISR, I2CState.emit, I2CState.store, hq, hp,
      ↓reduceIte, Bool.false_eq_true, Bool.true_eq_false, reduceCtorEq] at h <;>
    (try cases h) <;>
    simp +decide [TerminalEffect, qEvents, startCount, busOps, Event.busOps, newEvents, hq, hp]

theorem qEvents_single_write (r : Reg) (v : Nat) : qEvents [Event.write r v] = [] := rfl

/-- The fields the epilogue leaves unchanged, and its trace. -/
theorem isr_epilogue_effect (s2 s' : I2CState) (h : isr_epilogue s2 = s') :
    s'.pxI2C_RQ = s2.pxI2C_RQ ∧ s'.pxI2C = s2.pxI2C ∧ s'.ucI2C_busy = s2.ucI2C_busy
      ∧ s'.ucI2C_pending = s2.ucI2C_pending ∧ s'.ucI2C_cstate = s2.ucI2C_cstate
      ∧ s'.trace = s2.trace ++ epilogueEvents s2 := by
  rw [← h, isr_epilogue_eq]
  simp

/-- The effect of one invocation of `vI2C_ISR` that does not fault. -/
theorem vI2C_ISR_effect (s s' : I2CState) (i : IsrIn) (h : vI2C_ISR s i = .ok s') :
    StepEffect s i s' := by
  have w1 : startCount [Event.write .FIOSET 0x04000000] = 0 := by decide
  have w2 : startCount [Event.write .I2C0CONCLR 0x08] = 0 := by decide
  rw [vI2C_ISR_unfold] at h
  by_cases hsi : i.I2C0CONSET &&& 0x08 ≠ 0
  · rw [if_pos hsi] at h
    cases hsw : switch_status (isr_latch (isr_prologue s) i) i with
    | error f => rw [hsw] at h; cases h
    | ok s1 =>
      rw [hsw] at h
      obtain ⟨t1, b1, p1, e1⟩ := switch_status_effect _ _ _ hsw
      generalize newEvents (isr_latch (isr_prologue s) i) s1 = N1 at t1 e1
      simp only [isr_latch, isr_prologue, I2CState.emit] at t1 b1 p1 e1
      simp only at h
      by_cases ht : s1.ucI2C_cstate = I2C_STOP ∨ s1.ucI2C_cstate = I2C_ERROR_STOP
      · rw [if_pos ht] at h
        cases hth : terminal_handling s1 i with
        | error f => rw [hth] at h; cases h
        | ok s2 =>
          rw [hth] at h
          simp only [Except.ok.injEq] at h
          obtain ⟨t2, c2, p, hp, e2⟩ := terminal_handling_effect _ _ _ hth
          generalize newEvents s1 s2 = N2 at t2 e2
          obtain ⟨f1, f2, f3, f4, f5, f6⟩ := isr_epilogue_effect _ _ h
          have gE := qEvents_epilogue (s2.emit (.write .I2C0CONCLR 0x08))
          have sE := startCount_epilogue (s2.emit (.write .I2C0CONCLR 0x08))
          generalize epilogueEvents (s2.emit (.write .I2C0CONCLR 0x08)) = E at f6 gE sE
          simp only [I2CState.emit] at f1 f2 f3 f4 f5 f6
          have htr : s'.trace = s.trace ++ ([Event.write .FIOSET 0x04000000] ++ N1 ++ N2
              ++ [Event.write .I2C0CONCLR 0x08] ++ E) := by
            rw [f6, t2, t1]; simp only [List.append_assoc]
          have hne := newEvents_of_eq htr
          have hterm : terminalStep i s' = true := by
            simp only [terminalStep, f5, c2]
            simp [hsi, ht]
          rcases e1 with ⟨q1, x1, g1, c1⟩ | ⟨nt, _⟩ | ⟨nt, _⟩
          · have hs0 : startCount N1 = 0 := c1 ht
            refine ⟨by rw [hne]; exact htr, Or.inr ⟨hterm, p, by rw [← x1]; exact hp, ?_⟩⟩
            rw [hne, f1, f2, f3, f4, ← q1, ← b1]
            simp only [qEvents_append, startCount_append, qEvents_single_write, gE, sE, g1, hs0,
              List.nil_append, List.append_nil]
            simpa [w1, w2] using e2
          · exact absurd ht nt
          · exact absurd ht nt
      · rw [if_neg ht] at h
        simp only [Except.ok.injEq] at h
        obtain ⟨f1, f2, f3, f4, f5, f6⟩ := isr_epilogue_effect _ _ h
        have gE := qEvents_epilogue (s1.emit (.write .I2C0CONCLR 0x08))
        generalize epilogueEvents (s1.emit (.write .I2C0CONCLR 0x08)) = E at f6 gE
        simp only [I2CState.emit] at f1 f2 f3 f4 f5 f6
        have htr : s'.trace = s.trace ++ ([Event.write .FIOSET 0x04000000] ++ N1
            ++ [Event.write .I2C0CONCLR 0x08] ++ E) := by
          rw [f6, t1]; simp only [List.append_assoc]
        have hne := newEvents_of_eq htr
        have hterm : terminalStep i s' = false := by
          simp only [terminalStep, f5]
          simp [not_or.mp ht]
        refine ⟨by rw [hne]; exact htr, Or.inl ⟨hterm, by rw [f3, b1], by rw [f4, p1], ?_⟩⟩
        rw [hne, f1, f2]
        simp only [qEvents_append, qEvents_single_write, gE, List.nil_append, List.append_nil]
        rcases e1 with ⟨q1, x1, g1, _⟩ | ⟨_, hst, hpf, hq0, hq1, hx, g⟩ | ⟨_, hst, hpf, q, hq, hx, g⟩
        · exact Or.inl ⟨q1, x1, g1⟩
        · refine Or.inr (Or.inl ⟨?_, hpf, hq0, hq1, hx, g⟩)
          simp [startSent, hsi, hst]
        · refine Or.inr (Or.inr ⟨?_, hpf, q, hq, hx, g⟩)
          simp [startSent, hsi, hst]
  · rw [if_neg hsi] at h
    simp only [Except.ok.injEq] at h
    obtain ⟨f1, f2, f3, f4, f5, f6⟩ := isr_epilogue_effect _ _ h
    have gE := qEvents_epilogue (isr_prologue s)
    generalize epilogueEvents (isr_prologue s) = E at f6 gE
    simp only [isr_prologue, I2CState.emit] at f1 f2 f3 f4 f5 f6
    have htr : s'.trace = s.trace ++ ([Event.write .FIOSET 0x04000000] ++ E) := by
      rw [f6]; simp only [List.append_assoc]
    have hne := newEvents_of_eq htr
    have hterm : terminalStep i s' = false := by
      simp only [terminalStep]
      simp [not_not.mp hsi]
    refine ⟨by rw [hne]; exact htr, Or.inl ⟨hterm, f3, f4, Or.inl ⟨f1, f2, ?_⟩⟩⟩
    rw [hne]
    simp only [qEvents_append, qEvents_single_write, gE, List.nil_append]

theorem completions_append (p : Nat) (a b : List Event) :
    completions p (a ++ b) = completions p a + (qEvents b).count (.done p) := by
  simp [completions, qEvents_append, List.count_append]

theorem submissions_append (p : Nat) (a b : List Event) :
    submissions p (a ++ b) = submissions p a + (qEvents b).count (.sent p) := by
  simp [submissions, qEvents_append, List.count_append]

theorem inFlight_append (a b : List Event) :
    inFlight (a ++ b) = (qEvents b).foldl flightStep (inFlight a) := by
  simp [inFlight, qEvents_append, List.foldl_append]

/-- An interrupt whose terminal step, if any, has a transaction in flight keeps
the accounting invariant. -/
theorem accounted_isr (s s' : I2CState) (i : IsrIn) (hJ : Accounted s)
    (h : vI2C_ISR s i = .ok s') (hd : terminalStep i s' = true → inFlight s.trace = true) :
    Accounted s' := by
  obtain ⟨htr, e⟩ := vI2C_ISR_effect s s' i h
  generalize newEvents s s' = N at htr e
  intro p
  have hp := hJ p
  rw [htr, completions_append, submissions_append, inFlight_append]
  rcases e with ⟨_, _, _, ⟨q1, x1, g⟩ | ⟨_, _, q0, q1, x1, g⟩ | ⟨_, _, q, hq, x1, g⟩⟩ |
    ⟨ht, p0, hp0, ⟨q0, q1, x1, _, _, g, _⟩ | ⟨q, hq, x1, _, _, g, _⟩⟩
  · simp only [g, q1, x1, List.count_nil, List.foldl_nil, Nat.add_zero]
    exact hp
  · simp only [g, q0, q1, x1, List.foldl_cons, List.foldl_nil, flightStep] at hp ⊢
    simpa using hp
  · rw [hq] at hp
    simp only [g, x1, List.foldl_cons, List.foldl_nil, flightStep] at hp ⊢
    simp [List.count_cons] at hp ⊢
    split_ifs at hp ⊢ <;> omega
  · have hf := hd ht
    rw [q0] at hp
    simp only [g, q1, x1, hf, hp0, List.foldl_cons, List.foldl_nil, flightStep] at hp ⊢
    simp [List.count_cons] at hp ⊢
    split_ifs at hp ⊢ <;> omega
  · have hf := hd ht
    rw [hq] at hp
    simp only [g, x1, hf, hp0, List.foldl_cons, List.foldl_nil, flightStep] at hp ⊢
    simp [List.count_cons] at hp ⊢
    split_ifs at hp ⊢ <;> omega

/-- The send of `prvI2C_Transaction` keeps the accounting invariant. -/
theorem accounted_send (s : I2CState) (p : Nat) (hJ : Accounted s) :
    Accounted (prvI2C_Transaction_send s p).1 := by
  intro p'
  have hp := hJ p'
  by_cases hroom : s.pxI2C_RQ.length < s.uxQueueLength <;>
    simp [prvI2C_Transaction_send, I2CState.store, I2CState.emit, hroom, completions,
      submissions, inFlight, qEvents, flightStep, List.filterMap_append, List.count_append,
      List.count_cons] at hp ⊢ <;>
    (try split_ifs at hp ⊢) <;> omega

/-- The critical section of `prvI2C_Transaction` keeps the accounting invariant. -/
theorem accounted_critical (s : I2CState) (hJ : Accounted s) :
    Accounted (prvI2C_Transaction_critical s) := by
  intro p'
  have hp := hJ p'
  cases hb : s.ucI2C_busy <;>
    simp [prvI2C_Transaction_critical, I2CState.emit, hb, completions, submissions, inFlight,
      qEvents, flightStep, List.filterMap_append, List.count_append] at hp ⊢ <;>
    omega

/-- The accounting invariant holds after `vI2C_Init`. -/
theorem accounted_init (mem : Nat → xI2C_struct) (hw : InitIn) (n : Nat) :
    Accounted (vI2C_Init (reset mem) hw n) := by
  intro p
  simp [vI2C_Init, vI2C_ISRCreateQueue, reset, I2CState.emit, completions, submissions, inFlight,
    qEvents]

/-- A run whose terminal steps all have a transaction in flight keeps the
accounting invariant. -/
theorem accounted_run (acts : List Action) (s s' : I2CState) (hJ : Accounted s)
    (h : run s acts = .ok s') (hd : terminalsInFlight s acts = true) : Accounted s' := by
  induction acts generalizing s with
  | nil =>
    simp only [run, Except.ok.injEq] at h
    rw [← h]; exact hJ
  | cons a as ih =>
    simp only [run] at h
    simp only [terminalsInFlight] at hd
    cases hs : step s a with
    | error f => rw [hs] at h; cases h
    | ok s1 =>
      rw [hs] at h hd
      simp only [Bool.and_eq_true] at hd
      refine ih s1 ?_ h hd.2
      cases a with
      | fill p d =>
        simp only [step, Except.ok.injEq] at hs
        rw [← hs]
        exact hJ
      | send p =>
        simp only [step, Except.ok.injEq] at hs
        rw [← hs]
        exact accounted_send s p hJ
      | kick =>
        simp only [step, Except.ok.injEq] at hs
        rw [← hs]
        exact accounted_critical s hJ
      | isr i =>
        refine accounted_isr s s1 i hJ hs (fun ht => ?_)
        have := hd.1
        simpa [ht] using this

theorem payloadReads_append (a b : List Event) :
    payloadReads (a ++ b) = payloadReads a ++ payloadReads b := by
  simp [payloadReads, List.filterMap_append]

theorem payloadReads_epilogue (s : I2CState) : payloadReads (epilogueEvents s) = [] := by
  unfold epilogueEvents; split <;> simp [payloadReads]

theorem payloadReads_single_write (r : Reg) (v : Nat) :
    payloadReads [Event.write r v] = [] := rfl

set_option maxHeartbeats 4000000 in
/-- Every case other than 0x08, during a WriteWord transaction that has sent
`k` payload bytes. -/
theorem case_other_word (s : I2CState) (i : IsrIn) (p k : Nat) (r : Except Fault I2CState)
    (hinv : WordInv p k s) (hk : k ≤ 2)
    (hr : r = case_0x00 s ∨ r = case_0x10 s ∨ r = case_0x18 s ∨ r = case_0x20 s
        ∨ r = case_0x28 s ∨ r = case_0x30 s ∨ r = case_0x38 s ∨ r = case_0x40 s
        ∨ r = case_0x48 s ∨ r = case_0x50 s i ∨ r = case_0x58 s i ∨ r = case_default s) :
    ∃ s1, r = .ok s1 ∧ WordEffect p k s s1 := by
  obtain ⟨hp, hop, hw, hr0⟩ := hinv
  have hk' : k = 0 ∨ k = 1 ∨ k = 2 := by omega
  by_cases hl : s.ucI2C_lostarb = 0 <;>
  rcases hk' with rfl | rfl | rfl <;>
  rcases hr with rfl | rfl | rfl | rfl | rfl | rfl | rfl | rfl | rfl | rfl | rfl | rfl <;>
    simp +decide [case_0x00, case_0x10, case_0x18, case_0x20, case_0x28, case_0x30, case_0x38,
      case_0x40, case_0x48, case_0x50, case_0x58, case_default, transmitData, receiveData,
      xI2C_struct.getData, xI2C_struct.setData, I2CState.emit, I2CState.store, WordEffect,
      WordInv, terminalPhase, hp, hop, hw, hr0, hl, I2C_WriteWord, I2C_STOP, I2C_ERROR_STOP,
      I2C_WR_ADDR, I2C_RD_ADDR, I2C_WR_DATA, I2C_COMMAND, I2C_RSTART, I2C_LOST_ARB,
      I2C_RD_ADDR_ACK, I2C_RD_DATA_NAK, newEvents, payloadReads]

/-- On a code other than 0x08 the switch runs one of the other twelve cases. -/
theorem switch_status_cases (s : I2CState) (i : IsrIn) (h8 : s.ucI2C_status ≠ 0x08) :
    switch_status s i = case_0x00 s ∨ switch_status s i = case_0x10 s
      ∨ switch_status s i = case_0x18 s ∨ switch_status s i = case_0x20 s
      ∨ switch_status s i = case_0x28 s ∨ switch_status s i = case_0x30 s
      ∨ switch_status s i = case_0x38 s ∨ switch_status s i = case_0x40 s
      ∨ switch_status s i = case_0x48 s ∨ switch_status s i = case_0x50 s i
      ∨ switch_status s i = case_0x58 s i ∨ switch_status s i = case_default s := by
  unfold switch_status
  rw [if_neg h8]
  by_cases c0 : s.ucI2C_status = 0x00
  · simp only [c0, ↓reduceIte, true_or]
  rw [if_neg c0]
  by_cases c1 : s.ucI2C_status = 0x10
  · simp only [c1, ↓reduceIte, true_or, or_true]
  rw [if_neg c1]
  by_cases c2 : s.ucI2C_status = 0x18
  · simp only [c2, ↓reduceIte, true_or, or_true]
  rw [if_neg c2]
  by_cases c3 : s.ucI2C_status = 0x20
  · simp only [c3, ↓reduceIte, true_or, or_true]
  rw [if_neg c3]
  by_cases c4 : s.ucI2C_status = 0x28
  · simp only [c4, ↓reduceIte, true_or, or_true]
  rw [if_neg c4]
  by_cases c5 : s.ucI2C_status = 0x30
  · simp only [c5, ↓reduceIte, true_or, or_true]
  rw [if_neg c5]
  by_cases c6 : s.ucI2C_status = 0x38
  · simp only [c6, ↓reduceIte, true_or, or_true]
  rw [if_neg c6]
  by_cases c7 : s.ucI2C_status = 0x40
  · simp only [c7, ↓reduceIte, true_or, or_true]
  rw [if_neg c7]
  by_cases c8 : s.ucI2C_status = 0x48
  · simp only [c8, ↓reduceIte, true_or, or_true]
  rw [if_neg c8]
  by_cases c9 : s.ucI2C_status = 0x50
  · simp only [c9, ↓reduceIte, true_or, or_true]
  rw [if_neg c9]
  by_cases ca : s.ucI2C_status = 0x58
  · simp only [ca, ↓reduceIte, true_or, or_true]
  rw [if_neg ca]
  simp only [or_true]

/-- With an active descriptor the terminal handling does not fault and reads no
payload byte. -/
theorem terminal_handling_ok (s1 : I2CState) (i : IsrIn) (p : Nat) (hp : s1.pxI2C = some p) :
    ∃ s2, terminal_handling s1 i = .ok s2 ∧ s2.trace = s1.trace ++ newEvents s1 s2
      ∧ payloadReads (newEvents s1 s2) = [] ∧ s2.ucI2C_cstate = s1.ucI2C_cstate := by
  cases hq : s1.pxI2C_RQ <;>
    simp [terminal_handling, xQueueReceiveFromISR, I2CState.emit, I2CState.store, hq, hp,
      newEvents, payloadReads]

/-- The interrupt-flag clear and the epilogue keep the WriteWord invariant. -/
theorem wordInv_tail (p k : Nat) (s1 : I2CState) (e : Event) (h : WordInv p k s1) :
    WordInv p k (isr_epilogue (s1.emit e)) := by
  rw [isr_epilogue_eq]
  simpa [WordInv, I2CState.emit] using h

/-- One interrupt other than start-sent during a WriteWord transaction. -/
theorem word_step (s : I2CState) (i : IsrIn) (p k : Nat) (hinv : WordInv p k s) (hk : k ≤ 2)
    (hns : startSent i = false) :
    ∃ s', vI2C_ISR s i = .ok s' ∧ s'.trace = s.trace ++ newEvents s s'
      ∧ ((terminalStep i s' = true ∧ payloadReads (newEvents s s') = [])
        ∨ (terminalStep i s' = false ∧ payloadReads (newEvents s s') = [] ∧ WordInv p k s')
        ∨ (terminalStep i s' = false ∧ k < 2 ∧ payloadReads (newEvents s s') = [k]
            ∧ WordInv p (k + 1) s')) := by
  rw [vI2C_ISR_unfold]
  by_cases hsi : i.I2C0CONSET &&& 0x08 ≠ 0
  · rw [if_pos hsi]
    have h8 : (isr_latch (isr_prologue s) i).ucI2C_status ≠ 0x08 := by
      simp only [startSent, Bool.and_eq_false_iff, decide_eq_false_iff_not] at hns
      rcases hns with h | h
      · exact absurd hsi h
      · simpa [isr_latch] using h
    have hinv0 : WordInv p k (isr_latch (isr_prologue s) i) := by
      simpa [WordInv, isr_latch, isr_prologue, I2CState.emit] using hinv
    obtain ⟨s1, hsw, t1, hp1, e1⟩ :=
      case_other_word _ i p k _ hinv0 hk (switch_status_cases _ i h8)
    generalize newEvents (isr_latch (isr_prologue s) i) s1 = N1 at t1 e1
    simp only [isr_latch, isr_prologue, I2CState.emit] at t1
    rw [hsw]
    simp only
    by_cases ht : s1.ucI2C_cstate = I2C_STOP ∨ s1.ucI2C_cstate = I2C_ERROR_STOP
    · rw [if_pos ht]
      obtain ⟨s2, hth, t2, g2, c2⟩ := terminal_handling_ok s1 i p hp1
      generalize newEvents s1 s2 = N2 at t2 g2
      rw [hth]
      simp only
      refine ⟨_, rfl, ?_⟩
      obtain ⟨f1, f2, f3, f4, f5, f6⟩ := isr_epilogue_effect _ _
        (rfl : isr_epilogue (s2.emit (.write .I2C0CONCLR 0x08)) = _)
      have gE := payloadReads_epilogue (s2.emit (.write .I2C0CONCLR 0x08))
      generalize epilogueEvents (s2.emit (.write .I2C0CONCLR 0x08)) = E at f6 gE
      generalize isr_epilogue (s2.emit (.write .I2C0CONCLR 0x08)) = s' at f1 f2 f3 f4 f5 f6 ⊢
      simp only [I2CState.emit] at f5 f6
      have htr : s'.trace = s.trace ++ ([Event.write .FIOSET 0x04000000] ++ N1 ++ N2
          ++ [Event.write .I2C0CONCLR 0x08] ++ E) := by
        rw [f6, t2, t1]; simp only [List.append_assoc]
      have hne := newEvents_of_eq htr
      refine ⟨by rw [hne]; exact htr, Or.inl ⟨?_, ?_⟩⟩
      · simp only [terminalStep, f5, c2]
        simp [hsi, ht]
      · rcases e1 with ⟨_, g1⟩ | ⟨nt, _⟩ | ⟨nt, _⟩
        · rw [hne]
          simp only [payloadReads_append, payloadReads_single_write, g1, g2, gE,
            List.append_nil]
        · exact absurd ht nt
        · exact absurd ht nt
    · rw [if_neg ht]
      refine ⟨_, rfl, ?_⟩
      obtain ⟨f1, f2, f3, f4, f5, f6⟩ := isr_epilogue_effect _ _
        (rfl : isr_epilogue (s1.emit (.write .I2C0CONCLR 0x08)) = _)
      have gE := payloadReads_epilogue (s1.emit (.write .I2C0CONCLR 0x08))
      have hwi := fun k' => wordInv_tail p k' s1 (.write .I2C0CONCLR 0x08)
      generalize epilogueEvents (s1.emit (.write .I2C0CONCLR 0x08)) = E at f6 gE
      generalize isr_epilogue (s1.emit (.write .I2C0CONCLR 0x08)) = s' at f1 f2 f3 f4 f5 f6 hwi ⊢
      simp only [I2CState.emit] at f5 f6
      have htr : s'.trace = s.trace ++ ([Event.write .FIOSET 0x04000000] ++ N1
          ++ [Event.write .I2C0CONCLR 0x08] ++ E) := by
        rw [f6, t1]; simp only [List.append_assoc]
      have hne := newEvents_of_eq htr
      have hterm : terminalStep i s' = false := by
        simp only [terminalStep, f5]
        simp [not_or.mp ht]
      refine ⟨by rw [hne]; exact htr, Or.inr ?_⟩
      rw [hne]
      simp only [payloadReads_append, payloadReads_single_write, gE, List.append_nil,
        List.nil_append]
      rcases e1 with ⟨tp, _⟩ | ⟨_, g1, w1⟩ | ⟨_, hk2, g1, w1⟩
      · exact absurd tp ht
      · exact Or.inl ⟨hterm, g1, hwi k w1⟩
      · exact Or.inr ⟨hterm, hk2, g1, hwi (k + 1) w1⟩
  · rw [if_neg hsi]
    refine ⟨_, rfl, ?_⟩
    obtain ⟨f1, f2, f3, f4, f5, f6⟩ := isr_epilogue_effect _ _
      (rfl : isr_epilogue (isr_prologue s) = _)
    have gE := payloadReads_epilogue (isr_prologue s)
    have hwi : WordInv p k (isr_epilogue (isr_prologue s)) := by
      rw [isr_epilogue_eq]
      simpa [WordInv, isr_prologue, I2CState.emit] using hinv
    generalize epilogueEvents (isr_prologue s) = E at f6 gE
    generalize isr_epilogue (isr_prologue s) = s' at f1 f2 f3 f4 f5 f6 hwi ⊢
    simp only [isr_prologue, I2CState.emit] at f6
    have htr : s'.trace = s.trace ++ ([Event.write .FIOSET 0x04000000] ++ E) := by
      rw [f6]; simp only [List.append_assoc]
    have hne := newEvents_of_eq htr
    have hterm : terminalStep i s' = false := by
      simp only [terminalStep]
      simp [not_not.mp hsi]
    refine ⟨by rw [hne]; exact htr, Or.inr (Or.inl ⟨hterm, ?_, hwi⟩)⟩
    rw [hne]
    simp only [payloadReads_append, payloadReads_single_write, gE, List.append_nil]

/-- The 0x08 case resets both byte counters and reads no payload byte. -/
theorem case_0x08_counters (s s1 : I2CState) (i : IsrIn) (h : case_0x08 s i = .ok s1) :
    s1.ucI2C_wr_count = 0 ∧ s1.ucI2C_rd_count = 0 ∧ ¬ terminalPhase s1
      ∧ s1.trace = s.trace ++ newEvents s s1 ∧ payloadReads (newEvents s s1) = [] := by
  cases hpend : s.ucI2C_pending <;> cases hq : s.pxI2C_RQ <;>
    simp only [case_0x08, xQueueReceiveFromISR, I2CState.emit, hpend, hq, ↓reduceIte,
      Bool.false_eq_true, Bool.true_eq_false, reduceCtorEq] at h <;>
    (repeat' split at h) <;> (try cases h) <;>
    simp +decide [terminalPhase, payloadReads, I2C_STOP, I2C_ERROR_STOP, I2C_WR_ADDR,
      I2C_RD_ADDR, newEvents]

/-- A start-sent step resets both byte counters and reads no payload byte. -/
theorem start_step (s0 s1 : I2CState) (i0 : IsrIn) (h : vI2C_ISR s0 i0 = .ok s1)
    (hstart : startSent i0 = true) :
    s1.ucI2C_wr_count = 0 ∧ s1.ucI2C_rd_count = 0 ∧ s1.trace = s0.trace ++ newEvents s0 s1
      ∧ payloadReads (newEvents s0 s1) = [] := by
  simp only [startSent, Bool.and_eq_true, decide_eq_true_eq] at hstart
  obtain ⟨hsi, hst⟩ := hstart
  rw [vI2C_ISR_unfold, if_pos hsi] at h
  have hsw8 : switch_status (isr_latch (isr_prologue s0) i0) i0
      = case_0x08 (isr_latch (isr_prologue s0) i0) i0 := by
    unfold switch_status
    have e : (isr_latch (isr_prologue s0) i0).ucI2C_status = 0x08 := by simpa [isr_latch] using hst
    simp [e]
  rw [hsw8] at h
  cases hc : case_0x08 (isr_latch (isr_prologue s0) i0) i0 with
  | error f => rw [hc] at h; cases h
  | ok s =>
    rw [hc] at h
    obtain ⟨w, r, nt, t1, g1⟩ := case_0x08_counters _ _ _ hc
    generalize newEvents (isr_latch (isr_prologue s0) i0) s = N1 at t1 g1
    simp only [isr_latch, isr_prologue, I2CState.emit] at t1
    simp only at h
    rw [if_neg (show ¬ (s.ucI2C_cstate = I2C_STOP ∨ s.ucI2C_cstate = I2C_ERROR_STOP) from nt)] at h
    simp only [Except.ok.injEq] at h
    obtain ⟨f1, f2, f3, f4, f5, f6⟩ := isr_epilogue_effect _ _ h
    have gE := payloadReads_epilogue (s.emit (.write .I2C0CONCLR 0x08))
    generalize epilogueEvents (s.emit (.write .I2C0CONCLR 0x08)) = E at f6 gE
    simp only [I2CState.emit] at f6
    have htr : s1.trace = s0.trace ++ ([Event.write .FIOSET 0x04000000] ++ N1
        ++ [Event.write .I2C0CONCLR 0x08] ++ E) := by
      rw [f6, t1]; simp only [List.append_assoc]
    have hne := newEvents_of_eq htr
    have hw : s1.ucI2C_wr_count = 0 ∧ s1.ucI2C_rd_count = 0 := by
      rw [← h, isr_epilogue_eq]
      simpa [I2CState.emit] using And.intro w r
    refine ⟨hw.1, hw.2, by rw [hne]; exact htr, ?_⟩
    rw [hne]
    simp only [payloadReads_append, payloadReads_single_write, gE, g1, List.append_nil]

/-- A WriteWord transaction that has sent `k` payload bytes, run to its terminal
step without another start-sent step, reads at most the remaining payload
bytes, in order. -/
theorem word_run (is : List IsrIn) (s : I2CState) (p k : Nat) (hinv : WordInv p k s)
    (hk : k ≤ 2) (hns : ∀ i ∈ is, startSent i = false) :
    ∃ r, runToTerminal s is = .ok r ∧ r.1.trace = s.trace ++ newEvents s r.1
      ∧ payloadReads (newEvents s r.1) <+: (List.range 2).drop k := by
  induction is generalizing s k with
  | nil =>
    refine ⟨(s, []), rfl, by simp [newEvents], ?_⟩
    simp [newEvents, payloadReads]
  | cons i is ih =>
    obtain ⟨s', hs', t', e⟩ := word_step s i p k hinv hk (hns i (List.mem_cons_self _ _))
    have hrest : ∀ j ∈ is, startSent j = false := fun j hj => hns j (List.mem_cons_of_mem _ hj)
    simp only [runToTerminal, hs']
    rcases e with ⟨ht, g⟩ | ⟨ht, g, w⟩ | ⟨ht, hk2, g, w⟩
    · rw [if_pos ht]
      exact ⟨(s', is), rfl, t', by rw [g]; exact List.nil_prefix⟩
    · simp only [ht, Bool.false_eq_true, ↓reduceIte]
      obtain ⟨r, hr, tr, pr⟩ := ih s' k w hk hrest
      refine ⟨r, hr, ?_⟩
      have htr : r.1.trace = s.trace ++ (newEvents s s' ++ newEvents s' r.1) := by
        rw [tr, t', List.append_assoc]
      rw [newEvents_of_eq htr]
      refine ⟨htr, ?_⟩
      rw [payloadReads_append, g, List.nil_append]
      exact pr
    · simp only [ht, Bool.false_eq_true, ↓reduceIte]
      obtain ⟨r, hr, tr, pr⟩ := ih s' (k + 1) w (by omega) hrest
      refine ⟨r, hr, ?_⟩
      have htr : r.1.trace = s.trace ++ (newEvents s s' ++ newEvents s' r.1) := by
        rw [tr, t', List.append_assoc]
      rw [newEvents_of_eq htr]
      refine ⟨htr, ?_⟩
      rw [payloadReads_append, g]
      have hk' : k = 0 ∨ k = 1 := by omega
      rcases hk' with rfl | rfl
      · simpa [List.range_succ] using pr
      · simpa [List.range_succ] using pr

/-! ### Effect of one interrupt on the descriptor memory -/

theorem case_0x08_mem (s s1 : I2CState) (i : IsrIn) (h : case_0x08 s i = .ok s1) :
    SwitchMem s s1 := by
  cases hpend : s.ucI2C_pending <;> cases hq : s.pxI2C_RQ <;>
    simp only [case_0x08, xQueueReceiveFromISR, I2CState.emit, hpend, hq, ↓reduceIte,
      Bool.false_eq_true, Bool.true_eq_false, reduceCtorEq] at h <;>
    (repeat' split at h) <;> (try cases h) <;>
    simp [SwitchMem, sameRequest]

theorem setData_same (d d' : xI2C_struct) (k v : Nat) (h : d.setData k v = .ok d') :
    sameRequest d d' ∧ d'.status = d.status := by
  unfold xI2C_struct.setData at h
  (repeat' split at h) <;> cases h <;> simp [sameRequest]

theorem receiveData_mem (s s1 : I2CState) (i : IsrIn) (p : Nat) (hp : s.pxI2C = some p)
    (h : receiveData s i p = .ok s1) : SwitchMem s s1 := by
  unfold receiveData at h
  cases hd : (s.mem p).setData s.ucI2C_rd_count (i.I2C0DAT % 256) with
  | error f => rw [hd] at h; cases h
  | ok d =>
    rw [hd] at h
    simp only [Except.ok.injEq] at h
    have hs := setData_same _ _ _ _ hd
    subst h
    refine ⟨fun x => ?_, fun x hx => ?_⟩
    · by_cases e : x = p
      · subst e; simpa [I2CState.emit, I2CState.store] using hs
      · simp [I2CState.emit, I2CState.store, Function.update_noteq e, sameRequest]
    · have e : x ≠ p := fun e => hx (by rw [hp, e])
      simp [I2CState.emit, I2CState.store, Function.update_noteq e]

theorem case_other_mem (s s1 : I2CState) (i : IsrIn)
    (h : case_0x00 s = .ok s1 ∨ case_0x10 s = .ok s1 ∨ case_0x18 s = .ok s1
        ∨ case_0x20 s = .ok s1 ∨ case_0x28 s = .ok s1 ∨ case_0x30 s = .ok s1
        ∨ case_0x38 s = .ok s1 ∨ case_0x40 s = .ok s1 ∨ case_0x48 s = .ok s1
        ∨ case_0x50 s i = .ok s1 ∨ case_0x58 s i = .ok s1 ∨ case_default s = .ok s1) :
    SwitchMem s s1 := by
  rcases h with h | h | h | h | h | h | h | h | h | h | h | h <;>
    simp only [case_0x00, case_0x10, case_0x18, case_0x20, case_0x28, case_0x30, case_0x38,
      case_0x40, case_0x48, case_0x50, case_0x58, case_default, transmitData,
      xI2C_struct.getData] at h <;>
    (repeat' split at h) <;> (try cases h) <;>
    first
      | (simp [SwitchMem, sameRequest, I2CState.emit]; done)
      | (have hm := receiveData_mem _ _ _ _ (by simpa [I2CState.emit] using ‹s.pxI2C = some _›) h
         exact hm)
theorem switch_status_mem (s s1 : I2CState) (i : IsrIn) (h : switch_status s i = .ok s1) :
    SwitchMem s s1 := by
  by_cases h8 : s.ucI2C_status = 0x08
  · have e : switch_status s i = case_0x08 s i := by
      unfold switch_status
      simp [h8]
    rw [e] at h
    exact case_0x08_mem s s1 i h
  · rcases switch_status_cases s i h8 with e | e | e | e | e | e | e | e | e | e | e | e <;>
      rw [e] at h <;> exact case_other_mem s s1 i (by simp only [h, true_or, or_true])

theorem terminal_handling_mem (s1 s2 : I2CState) (i : IsrIn)
    (h : terminal_handling s1 i = .ok s2) :
    ∃ p, s1.pxI2C = some p
      ∧ s2.mem = Function.update s1.mem p { s1.mem p with status := s1.ucI2C_cstate }
      ∧ s2.ucI2C_cstate = s1.ucI2C_cstate := by
  cases hq : s1.pxI2C_RQ <;> cases hp : s1.pxI2C <;>
    simp only [terminal_handling, xQueueReceiveFromISR, I2CState.emit, I2CState.store, hq, hp,
      ↓reduceIte, Bool.false_eq_true, Bool.true_eq_false, reduceCtorEq] at h <;>
    (try cases h) <;> simp

theorem isr_epilogue_mem (s : I2CState) :
    (isr_epilogue s).mem = s.mem ∧ (isr_epilogue s).ucI2C_cstate = s.ucI2C_cstate := by
  rw [isr_epilogue_eq]; simp

theorem vI2C_ISR_mem (s s' : I2CState) (i : IsrIn) (h : vI2C_ISR s i = .ok s') :
    StepMem s i s' := by
  rw [vI2C_ISR_unfold] at h
  by_cases hsi : i.I2C0CONSET &&& 0x08 ≠ 0
  · rw [if_pos hsi] at h
    cases hsw : switch_status (isr_latch (isr_prologue s) i) i with
    | error f => rw [hsw] at h; cases h
    | ok s1 =>
      rw [hsw] at h
      obtain ⟨m1, m2⟩ := switch_status_mem _ _ _ hsw
      obtain ⟨_, _, _, e1⟩ := switch_status_effect _ _ _ hsw
      simp only [isr_latch, isr_prologue, I2CState.emit] at m1 m2 e1
      simp only at h
      by_cases ht : s1.ucI2C_cstate = I2C_STOP ∨ s1.ucI2C_cstate = I2C_ERROR_STOP
      · rw [if_pos ht] at h
        cases hth : terminal_handling s1 i with
        | error f => rw [hth] at h; cases h
        | ok s2 =>
          rw [hth] at h
          simp only [Except.ok.injEq] at h
          obtain ⟨p, hp, hm, hc⟩ := terminal_handling_mem _ _ _ hth
          obtain ⟨em, ec⟩ := isr_epilogue_mem (s2.emit (.write .I2C0CONCLR 0x08))
          rw [h] at em ec
          simp only [I2CState.emit] at em ec
          have hx1 : s1.pxI2C = s.pxI2C := by
            rcases e1 with ⟨_, x1, _⟩ | ⟨nt, _⟩ | ⟨nt, _⟩
            · exact x1
            · exact absurd ht nt
            · exact absurd ht nt
          rw [hx1] at hp
          have hterm : terminalStep i s' = true := by
            simp only [terminalStep, ec, hc]
            simp [hsi, ht]
          refine ⟨fun x => ?_, fun x hx => ?_, fun hf => ?_, fun _ => ⟨p, hp, ?_⟩⟩
          · rw [em, hm]
            by_cases e : x = p
            · subst e
              simpa [sameRequest] using (m1 x).1
            · simpa [Function.update_noteq e] using (m1 x).1
          · have e : x ≠ p := fun e => hx (by rw [hp, e])
            rw [em, hm, Function.update_noteq e]
            exact m2 x hx
          · rw [hterm] at hf; cases hf
          · rw [em, hm, ec, hc]; simp
      · rw [if_neg ht] at h
        simp only [Except.ok.injEq] at h
        obtain ⟨em, ec⟩ := isr_epilogue_mem (s1.emit (.write .I2C0CONCLR 0x08))
        rw [h] at em ec
        simp only [I2CState.emit] at em ec
        have hterm : terminalStep i s' = false := by
          simp only [terminalStep, ec]
          simp [not_or.mp ht]
        refine ⟨fun x => ?_, fun x hx => ?_, fun _ x => ?_, fun hf => ?_⟩
        · rw [em]; exact (m1 x).1
        · rw [em]; exact m2 x hx
        · rw [em]; exact (m1 x).2
        · rw [hterm] at hf; cases hf
  · rw [if_neg hsi] at h
    simp only [Except.ok.injEq] at h
    obtain ⟨em, ec⟩ := isr_epilogue_mem (isr_prologue s)
    rw [h] at em ec
    simp only [isr_prologue, I2CState.emit] at em ec
    have hterm : terminalStep i s' = false := by
      simp only [terminalStep]
      simp [not_not.mp hsi]
    refine ⟨fun x => ?_, fun x _ => ?_, fun _ x => ?_, fun hf => ?_⟩
    · rw [em]; simp [sameRequest]
    · rw [em]
    · rw [em]
    · rw [hterm] at hf; cases hf

/-! ### The status a transaction operation returns -/

/-- A step that changes the status of `p` to 0 is a terminal step in the
success-stop phase with `p` active. -/
theorem vI2C_ISR_status_zero (s s' : I2CState) (i : IsrIn) (p : Nat)
    (h : vI2C_ISR s i = .ok s') (h0 : (s'.mem p).status = 0) :
    (s.mem p).status = 0 ∨
      (terminalStep i s' = true ∧ s.pxI2C = some p ∧ s'.ucI2C_cstate = I2C_STOP) := by
  obtain ⟨_, m2, m3, m4⟩ := vI2C_ISR_mem s s' i h
  cases ht : terminalStep i s' with
  | false => exact Or.inl (by rw [← m3 ht p]; exact h0)
  | true =>
    obtain ⟨q, hq, hs⟩ := m4 ht
    by_cases e : s.pxI2C = some p
    · rw [hq] at e
      cases e
      exact Or.inr ⟨rfl, hq, by rw [← hs]; exact h0⟩
    · exact Or.inl (by rw [← m2 p e]; exact h0)

/-- If the status of `p` is 0 after a run of interrupts, it was 0 before, or
the run ended a transaction of `p` in success-stop. -/
theorem runISR_status_zero (is : List IsrIn) (s s' : I2CState) (p : Nat)
    (h : runISR s is = .ok s') (h0 : (s'.mem p).status = 0) :
    (s.mem p).status = 0 ∨ successStopIn p s is = true := by
  induction is generalizing s with
  | nil =>
    simp only [runISR, Except.ok.injEq] at h
    rw [h]; exact Or.inl h0
  | cons i is ih =>
    simp only [runISR] at h
    cases hs : vI2C_ISR s i with
    | error f => rw [hs] at h; cases h
    | ok s1 =>
      rw [hs] at h
      simp only [successStopIn, hs]
      rcases ih s1 h with h1 | h1
      · rcases vI2C_ISR_status_zero s s1 i p hs h1 with h2 | ⟨a, b, c⟩
        · exact Or.inl h2
        · exact Or.inr (by simp [a, b, c])
      · exact Or.inr (by simp [h1])

/-- The sentinel status is in place when the submission returns. -/
theorem submit_status (s : I2CState) (p : Nat) :
    ((prvI2C_Transaction_submit s p).1.mem p).status = 0xFF := by
  by_cases hroom : s.pxI2C_RQ.length < s.uxQueueLength <;> cases hb : s.ucI2C_busy <;>
    simp [prvI2C_Transaction_submit, prvI2C_Transaction_send, prvI2C_Transaction_critical,
      I2CState.store, I2CState.emit, hroom, hb]

/-- A transaction operation that returns 0 had its transaction ended in
success-stop while it was blocked. -/
theorem transact_zero (s : I2CState) (p : Nat) (env : WaitEnv) (r : I2CState × Nat)
    (h : transact s p env = .ok r) (h0 : r.2 = 0) : successStopDuring p s env = true := by
  have hst := submit_status s p
  unfold transact at h
  cases hp : prvI2C_Transaction s p env with
  | error f => rw [hp] at h; cases h
  | ok s' =>
    rw [hp] at h
    simp only [Except.ok.injEq] at h
    subst h
    simp only at h0
    unfold prvI2C_Transaction at hp
    unfold successStopDuring
    cases hsub : (prvI2C_Transaction_submit s p).2 with
    | false =>
      simp only [hsub, Bool.false_eq_true, ↓reduceIte, Except.ok.injEq] at hp
      rw [← hp, hst] at h0
      cases h0
    | true =>
      simp only [hsub, ↓reduceIte] at hp
      unfold prvI2C_Transaction_wait at hp
      simp only [hsub, Bool.true_and]
      cases hw : runISR (prvI2C_Transaction_submit s p).1 env.duringWait with
      | error f => rw [hw] at hp; cases hp
      | ok s1 =>
        rw [hw] at hp
        simp only at hp
        by_cases hc : env.received ≠ true ∨
            ((s1.emit (.xQueueReceive (s1.mem p).pxHandle 35 env.received)).mem p).status ≠ 0
        · rw [if_pos hc] at hp
          rcases runISR_status_zero _ _ _ p hp h0 with h1 | h1
          · simp only [I2CState.emit] at h1
            rcases runISR_status_zero _ _ _ p hw h1 with h2 | h2
            · rw [hst] at h2; cases h2
            · simp [h2]
          · simp only [h1, hw, Bool.and_true, Bool.or_eq_true, decide_eq_true_eq]
            exact Or.inr hc
        · rw [if_neg hc] at hp
          simp only [Except.ok.injEq] at hp
          rw [← hp] at h0
          simp only [I2CState.emit] at h0
          rcases runISR_status_zero _ _ _ p hw h0 with h2 | h2
          · rw [hst] at h2; cases h2
          · simp [h2]

/-! ### The descriptor through a whole transaction operation -/

theorem sameRequest_refl (d : xI2C_struct) : sameRequest d d := by
  simp [sameRequest]

theorem sameRequest_trans {a b c : xI2C_struct} (h1 : sameRequest a b) (h2 : sameRequest b c) :
    sameRequest a c := by
  unfold sameRequest at h1 h2 ⊢
  omega

/-- A run of interrupts changes no descriptor outside its status and payload. -/
theorem runISR_sameRequest (is : List IsrIn) (s s' : I2CState) (h : runISR s is = .ok s')
    (x : Nat) : sameRequest (s.mem x) (s'.mem x) := by
  induction is generalizing s with
  | nil =>
    simp only [runISR, Except.ok.injEq] at h
    rw [h]; exact sameRequest_refl _
  | cons i is ih =>
    simp only [runISR] at h
    cases hs : vI2C_ISR s i with
    | error f => rw [hs] at h; cases h
    | ok s1 =>
      rw [hs] at h
      exact sameRequest_trans ((vI2C_ISR_mem s s1 i hs).1 x) (ih s1 h)

/-- The submission changes no descriptor outside its status. -/
theorem submit_sameRequest (s : I2CState) (p x : Nat) :
    sameRequest (s.mem x) ((prvI2C_Transaction_submit s p).1.mem x) := by
  by_cases hroom : s.pxI2C_RQ.length < s.uxQueueLength <;> cases hb : s.ucI2C_busy <;>
    by_cases e : x = p <;>
    simp [prvI2C_Transaction_submit, prvI2C_Transaction_send, prvI2C_Transaction_critical,
      I2CState.store, I2CState.emit, hroom, hb, e, sameRequest, Function.update_apply]

/-- Submit-and-wait changes no descriptor outside its status and payload. -/
theorem prvI2C_Transaction_sameRequest (s s' : I2CState) (p : Nat) (env : WaitEnv)
    (h : prvI2C_Transaction s p env = .ok s') (x : Nat) : sameRequest (s.mem x) (s'.mem x) := by
  have h0 := submit_sameRequest s p x
  unfold prvI2C_Transaction at h
  cases hsub : (prvI2C_Transaction_submit s p).2 with
  | false =>
    simp only [hsub, Bool.false_eq_true, ↓reduceIte, Except.ok.injEq] at h
    rw [← h]; exact h0
  | true =>
    simp only [hsub, ↓reduceIte] at h
    unfold prvI2C_Transaction_wait at h
    cases hw : runISR (prvI2C_Transaction_submit s p).1 env.duringWait with
    | error f => rw [hw] at h; cases h
    | ok s1 =>
      rw [hw] at h
      have h1 := sameRequest_trans h0 (runISR_sameRequest _ _ _ hw x)
      simp only at h
      split at h
      · exact sameRequest_trans h1 (runISR_sameRequest _ _ _ h x)
      · simp only [Except.ok.injEq] at h
        rw [← h]; exact h1

theorem and_0x00FF (w : Nat) : w &&& 0x00FF = w % 256 :=
  Nat.and_pow_two_sub_one_eq_mod w 8

theorem and_0xFF00_shift (w : Nat) : ((w &&& 0xFF00) >>> 8) % 256 = (w / 256) % 256 := by
  apply Nat.eq_of_testBit_eq
  intro i
  have h1 : (w / 256) % 256 = (w >>> 8) % 2 ^ 8 := by simp [Nat.shiftRight_eq_div_pow]
  have h2 : ((w &&& 0xFF00) >>> 8) % 256 = ((w &&& 0xFF00) >>> 8) % 2 ^ 8 := rfl
  rw [h1, h2]
  simp only [Nat.testBit_mod_two_pow, Nat.testBit_shiftRight, Nat.testBit_and]
  by_cases hi : i < 8
  · have : Nat.testBit 0xFF00 (8 + i) = true := by
      interval_cases i <;> decide
    simp [hi, this]
  · simp [hi]

theorem shiftLeft_one_byte (a : Nat) : (a <<< 1) % 256 = 2 * (a % 128) := by
  rw [Nat.shiftLeft_eq]; omega

theorem shiftLeft_one_byte_or_one (a : Nat) : ((a <<< 1) % 256) ||| 0x01 = 2 * (a % 128) + 1 := by
  have h : ∀ k < 128, (2 * k) ||| 1 = 2 * k + 1 := by decide
  rw [shiftLeft_one_byte]
  exact h _ (Nat.mod_lt _ (by decide))

/-! ### The start-condition-sent step -/

set_option maxHeartbeats 2000000 in
/-- The address byte and the phase of a start-condition-sent step. -/
theorem start_sent_step (s : I2CState) (i : IsrIn) (hs : startSent i = true)
    (hact : s.pxI2C ≠ none ∨ (s.ucI2C_pending = false ∧ s.pxI2C_RQ ≠ [])) :
    ∃ s' p b, vI2C_ISR s i = .ok s' ∧ s'.pxI2C = some p
      ∧ dataWrites (newEvents s s') = [b]
      ∧ b = (if (s.mem p).opcode = I2C_ReceiveByte then ((s.mem p).addr <<< 1) % 256 ||| 0x01
              else ((s.mem p).addr <<< 1) % 256)
      ∧ b / 2 = (s.mem p).addr % 128
      ∧ (b % 2 = 1 ↔ (s.mem p).opcode = I2C_ReceiveByte)
      ∧ s'.ucI2C_cstate
          = (if (s.mem p).opcode = I2C_ReceiveByte then I2C_RD_ADDR else I2C_WR_ADDR) := by
  simp only [startSent, Bool.and_eq_true, decide_eq_true_eq] at hs
  obtain ⟨hsi, hst⟩ := hs
  have e1 : ∀ a : Nat, (2 * (a % 128) + 1) / 2 = a % 128 := fun a => by omega
  have e2 : ∀ a : Nat, (2 * (a % 128) + 1) % 2 = 1 := fun a => by omega
  have e3 : ∀ a : Nat, (2 * (a % 128)) / 2 = a % 128 := fun a => by omega
  have e4 : ∀ a : Nat, (2 * (a % 128)) % 2 = 0 := fun a => by omega
  have e5 : ∀ a : Nat, 2 * (a % 128) ||| 1 = 2 * (a % 128) + 1 := fun a => by
    have h := shiftLeft_one_byte_or_one a
    rwa [shiftLeft_one_byte] at h
  cases hpend : s.ucI2C_pending with
  | false =>
    cases hq : s.pxI2C_RQ with
    | nil =>
      cases hp : s.pxI2C with
      | none => simp [hpend, hq, hp] at hact
      | some p =>
        by_cases ho : (s.mem p).opcode = 2 <;>
        simp +decide [vI2C_ISR, switch_status, case_0x08, xQueueReceiveFromISR, isr_epilogue,
          I2CState.emit, hsi, hst, hpend, hq, hp, ho, newEvents, dataWrites, I2C_RD_ADDR,
          I2C_WR_ADDR, I2C_STOP, I2C_ERROR_STOP, I2C_START, I2C_ReceiveByte,
          shiftLeft_one_byte, e1, e2, e3, e4, e5]
    | cons q rest =>
      by_cases ho : (s.mem q).opcode = 2 <;>
      simp +decide [vI2C_ISR, switch_status, case_0x08, xQueueReceiveFromISR, isr_epilogue,
        I2CState.emit, hsi, hst, hpend, hq, ho, newEvents, dataWrites, I2C_RD_ADDR,
        I2C_WR_ADDR, I2C_STOP, I2C_ERROR_STOP, I2C_START, I2C_ReceiveByte,
        shiftLeft_one_byte, e1, e2, e3, e4, e5]
  | true =>
    cases hp : s.pxI2C with
    | none => simp [hpend, hp] at hact
    | some p =>
      by_cases ho : (s.mem p).opcode = 2 <;>
      simp +decide [vI2C_ISR, switch_status, case_0x08, xQueueReceiveFromISR, isr_epilogue,
        I2CState.emit, hsi, hst, hpend, hp, ho, newEvents, dataWrites, I2C_RD_ADDR,
        I2C_WR_ADDR, I2C_STOP, I2C_ERROR_STOP, I2C_START, I2C_ReceiveByte,
        shiftLeft_one_byte, e1, e2, e3, e4, e5]

/-! ### First-in first-out service -/

theorem InOrder.append_right {c d : List Nat} (l : List Nat) (h : InOrder c d) :
    InOrder c (d ++ l) := by
  induction h with
  | nil d => exact InOrder.nil _
  | skip d _ ih => exact InOrder.skip d ih
  | take d _ ih => exact InOrder.take d ih

theorem InOrder.single (x : Nat) (d : List Nat) : InOrder [x] (d ++ [x]) := by
  induction d with
  | nil => exact InOrder.take x (InOrder.nil _)
  | cons y d ih => exact InOrder.skip y ih

theorem InOrder.of_nil {c : List Nat} (h : InOrder c []) : c = [] := by
  cases h; rfl

theorem InOrder.snoc {c D : List Nat} (h : InOrder c D) :
    ∀ (d0 : List Nat) (x : Nat), D = d0 ++ [x] → InOrder (c ++ [x]) D := by
  induction h with
  | nil d =>
    intro d0 x e
    rw [e]; exact InOrder.single x d0
  | @skip c ds d h ih =>
    intro d0 x e
    cases d0 with
    | nil =>
      simp only [List.nil_append, List.cons.injEq] at e
      obtain ⟨rfl, rfl⟩ := e
      rw [h.of_nil]
      exact InOrder.take d (InOrder.nil _)
    | cons y d0 =>
      simp only [List.cons_append, List.cons.injEq] at e
      exact InOrder.skip d (ih d0 x e.2)
  | @take c ds d h ih =>
    intro d0 x e
    exact InOrder.take d (ih d0 x e)

theorem enqueuedOf_append (a b : List QEv) :
    enqueuedOf (a ++ b) = enqueuedOf a ++ enqueuedOf b := by
  simp [enqueuedOf, List.filterMap_append]

theorem dequeuedOf_append (a b : List QEv) :
    dequeuedOf (a ++ b) = dequeuedOf a ++ dequeuedOf b := by
  simp [dequeuedOf, List.filterMap_append]

theorem completedOf_append (a b : List QEv) :
    completedOf (a ++ b) = completedOf a ++ completedOf b := by
  simp [completedOf, List.filterMap_append]

theorem enqueuedOf_single (e : QEv) :
    enqueuedOf [e] = match e with
      | .sent p => [p]
      | _ => [] := by
  cases e <;> rfl

theorem dequeuedOf_single (e : QEv) :
    dequeuedOf [e] = match e with
      | .got (some q) => [q]
      | _ => [] := by
  rcases e with _ | g | _
  · rfl
  · cases g <;> rfl
  · rfl

theorem completedOf_single (e : QEv) :
    completedOf [e] = match e with
      | .done p => [p]
      | _ => [] := by
  cases e <;> rfl

theorem fifoReplay_append (a b : List QEv) :
    fifoReplay (a ++ b) = b.foldl fifoStep (fifoReplay a) := by
  simp [fifoReplay, List.foldl_append]

/-- Events that replay without deviation: the handles dequeued followed by the
queue are the handles enqueued, the descriptor in service is the one
dequeued last, and the completions run through the dequeues in order. -/
theorem fifoReplay_order (evs : List QEv) :
    ∀ q cur, fifoReplay evs = some (q, cur) →
      dequeuedOf evs ++ q = enqueuedOf evs ∧ cur = (dequeuedOf evs).getLast?
        ∧ InOrder (completedOf evs) (dequeuedOf evs) := by
  induction evs using List.reverseRecOn with
  | nil =>
    intro q cur h
    simp only [fifoReplay, List.foldl_nil, Option.some.injEq, Prod.mk.injEq] at h
    obtain ⟨rfl, rfl⟩ := h
    exact ⟨rfl, rfl, InOrder.nil _⟩
  | append_singleton evs e ih =>
    intro q' cur' h
    rw [fifoReplay_append] at h
    simp only [List.foldl_cons, List.foldl_nil] at h
    cases hr : fifoReplay evs with
    | none => rw [hr] at h; simp [fifoStep] at h
    | some st =>
      obtain ⟨q, cur⟩ := st
      rw [hr] at h
      obtain ⟨i1, i2, i3⟩ := ih q cur hr
      rw [enqueuedOf_append, dequeuedOf_append, completedOf_append]
      cases e with
      | sent p =>
        simp only [fifoStep, Option.some.injEq, Prod.mk.injEq] at h
        obtain ⟨rfl, rfl⟩ := h
        simp only [enqueuedOf_single, dequeuedOf_single, completedOf_single, List.append_nil]
        refine ⟨?_, i2, i3⟩
        rw [← List.append_assoc]
        exact congrArg (· ++ [p]) i1
      | got g =>
        cases g with
        | none =>
          simp only [fifoStep] at h
          split at h
          · simp only [Option.some.injEq, Prod.mk.injEq] at h
            obtain ⟨rfl, rfl⟩ := h
            simp only [enqueuedOf_single, dequeuedOf_single, completedOf_single, List.append_nil]
            exact ⟨i1, i2, i3⟩
          · cases h
        | some x =>
          cases q with
          | nil => simp [fifoStep] at h
          | cons y q =>
            simp only [fifoStep] at h
            split at h
            · rename_i hxy
              simp only [Option.some.injEq, Prod.mk.injEq] at h
              obtain ⟨rfl, rfl⟩ := h
              subst hxy
              simp only [enqueuedOf_single, dequeuedOf_single, completedOf_single, List.append_nil]
              refine ⟨?_, by simp, i3.append_right _⟩
              rw [← i1]; simp
            · cases h
      | done p =>
        simp only [fifoStep] at h
        split at h
        · rename_i hc
          simp only [Option.some.injEq, Prod.mk.injEq] at h
          obtain ⟨rfl, rfl⟩ := h
          simp only [enqueuedOf_single, dequeuedOf_single, completedOf_single, List.append_nil]
          refine ⟨i1, i2, ?_⟩
          rw [hc] at i2
          obtain ⟨d0, hd⟩ : ∃ d0, dequeuedOf evs = d0 ++ [p] := by
            have := List.getLast?_eq_some_iff.mp i2.symm
            exact this
          exact i3.snoc d0 p hd
        · cases h

/-- An interrupt keeps the trace a first-in first-out replay. -/
theorem fifo_isr (s s' : I2CState) (i : IsrIn) (hJ : Fifo s) (h : vI2C_ISR s i = .ok s') :
    Fifo s' := by
  obtain ⟨htr, e⟩ := vI2C_ISR_effect s s' i h
  generalize newEvents s s' = N at htr e
  unfold Fifo at hJ ⊢
  rw [htr, qEvents_append, fifoReplay_append, hJ]
  rcases e with ⟨_, _, _, ⟨q1, x1, g⟩ | ⟨_, _, q0, q1, x1, g⟩ | ⟨_, _, q, hq, x1, g⟩⟩ |
    ⟨_, p0, hp0, ⟨q0, q1, x1, _, _, g, _⟩ | ⟨q, hq, x1, _, _, g, _⟩⟩
  · simp [g, q1, x1]
  · simp [g, q0, q1, x1, fifoStep]
  · simp [g, hq, x1, fifoStep]
  · simp [g, q0, q1, x1, hp0, fifoStep]
  · simp [g, hq, x1, hp0, fifoStep]

/-- The send of `prvI2C_Transaction` keeps the trace a first-in first-out replay. -/
theorem fifo_send (s : I2CState) (p : Nat) (hJ : Fifo s) :
    Fifo (prvI2C_Transaction_send s p).1 := by
  unfold Fifo at hJ ⊢
  by_cases hroom : s.pxI2C_RQ.length < s.uxQueueLength <;>
    simp [prvI2C_Transaction_send, I2CState.store, I2CState.emit, hroom, qEvents,
      List.filterMap_append, fifoReplay, List.foldl_append, fifoStep] at hJ ⊢ <;>
    simp [hJ, fifoStep]

/-- The critical section of `prvI2C_Transaction` keeps the trace a first-in
first-out replay. -/
theorem fifo_critical (s : I2CState) (hJ : Fifo s) : Fifo (prvI2C_Transaction_critical s) := by
  unfold Fifo at hJ ⊢
  cases hb : s.ucI2C_busy <;>
    simp [prvI2C_Transaction_critical, I2CState.emit, hb, qEvents, List.filterMap_append]
      at hJ ⊢ <;>
    exact hJ

/-- The trace is a first-in first-out replay after `vI2C_Init`. -/
theorem fifo_init (mem : Nat → xI2C_struct) (hw : InitIn) (n : Nat) :
    Fifo (vI2C_Init (reset mem) hw n) := by
  simp [Fifo, vI2C_Init, vI2C_ISRCreateQueue, reset, I2CState.emit, qEvents, fifoReplay]

/-- Every run keeps the trace a first-in first-out replay. -/
theorem fifo_run (acts : List Action) (s s' : I2CState) (hJ : Fifo s)
    (h : run s acts = .ok s') : Fifo s' := by
  induction acts generalizing s with
  | nil =>
    simp only [run, Except.ok.injEq] at h
    rw [← h]; exact hJ
  | cons a as ih =>
    simp only [run] at h
    cases hs : step s a with
    | error f => rw [hs] at h; cases h
    | ok s1 =>
      rw [hs] at h
      refine ih s1 ?_ h
      cases a with
      | fill p d =>
        simp only [step, Except.ok.injEq] at hs
        rw [← hs]
        exact hJ
      | send p =>
        simp only [step, Except.ok.injEq] at hs
        rw [← hs]
        exact fifo_send s p hJ
      | kick =>
        simp only [step, Except.ok.injEq] at hs
        rw [← hs]
        exact fifo_critical s hJ
      | isr i => exact fifo_isr s s1 i hJ hs

theorem completed_append (a b : List Event) :
    completed (a ++ b) = completed a ++ completedOf (qEvents b) := by
  simp [completed, qEvents_append, completedOf_append]

theorem dequeued_append (a b : List Event) :
    dequeued (a ++ b) = dequeued a ++ dequeuedOf (qEvents b) := by
  simp [dequeued, qEvents_append, dequeuedOf_append]

theorem enqueued_append (a b : List Event) :
    enqueued (a ++ b) = enqueued a ++ enqueuedOf (qEvents b) := by
  simp [enqueued, qEvents_append, enqueuedOf_append]

/-- Either reading of `Served` makes the completions a subsequence of the
dequeues. -/
theorem Served.sublist {s : I2CState} (h : Served s) :
    (completed s.trace).Sublist (dequeued s.trace) := by
  unfold Served at h
  split at h
  · exact h.trans (List.dropLast_sublist _)
  · exact h

/-- A completion signal for the descriptor dequeued last, sent while its
transaction is in flight, extends the subsequence. -/
theorem Served.done {s : I2CState} (p : Nat) (hF : Fifo s) (hS : Served s)
    (hf : inFlight s.trace = true) (hp : s.pxI2C = some p) :
    (completed s.trace ++ [p]).Sublist (dequeued s.trace) := by
  obtain ⟨_, i2, _⟩ := fifoReplay_order _ _ _ hF
  rw [hp] at i2
  obtain ⟨d0, hd⟩ := List.getLast?_eq_some_iff.mp i2.symm
  unfold Served at hS
  rw [if_pos hf] at hS
  have hd' : dequeued s.trace = d0 ++ [p] := hd
  rw [hd'] at hS ⊢
  rw [List.dropLast_concat] at hS
  exact List.Sublist.append hS (List.Sublist.refl _)

/-- An interrupt whose terminal step, if any, has a transaction in flight keeps
the completions a subsequence of the dequeues. -/
theorem served_isr (s s' : I2CState) (i : IsrIn) (hF : Fifo s) (hS : Served s)
    (h : vI2C_ISR s i = .ok s') (hd : terminalStep i s' = true → inFlight s.trace = true) :
    Served s' := by
  obtain ⟨htr, e⟩ := vI2C_ISR_effect s s' i h
  generalize newEvents s s' = N at htr e
  have hsub := hS.sublist
  unfold Served
  rw [htr, completed_append, dequeued_append, inFlight_append]
  rcases e with ⟨_, _, _, ⟨q1, x1, g⟩ | ⟨_, _, q0, q1, x1, g⟩ | ⟨_, _, q, hq, x1, g⟩⟩ |
    ⟨ht, p0, hp0, ⟨q0, q1, x1, _, _, g, _⟩ | ⟨q, hq, x1, _, _, g, _⟩⟩
  · simp only [g, completedOf, dequeuedOf, List.filterMap_nil, List.append_nil, List.foldl_nil]
    exact hS
  · simp only [g, completedOf_single, dequeuedOf_single, List.append_nil, List.foldl_cons,
      List.foldl_nil, flightStep]
    exact hS
  · simp only [g, completedOf_single, dequeuedOf_single, List.append_nil, List.foldl_cons,
      List.foldl_nil, flightStep, ↓reduceIte, List.dropLast_concat]
    exact hsub
  · have hdone := Served.done p0 hF hS (hd ht) hp0
    have e1 : completedOf [QEv.done p0, QEv.got none] = [p0] := rfl
    have e2 : dequeuedOf [QEv.done p0, QEv.got none] = [] := rfl
    simp only [g, e1, e2, List.append_nil, List.foldl_cons, List.foldl_nil, flightStep,
      Bool.false_eq_true, ↓reduceIte]
    exact hdone
  · have hdone := Served.done p0 hF hS (hd ht) hp0
    have e1 : completedOf [QEv.done p0, QEv.got (some q)] = [p0] := rfl
    have e2 : dequeuedOf [QEv.done p0, QEv.got (some q)] = [q] := rfl
    simp only [g, e1, e2, List.foldl_cons, List.foldl_nil, flightStep, ↓reduceIte,
      List.dropLast_concat]
    exact hdone

/-- The send of `prvI2C_Transaction` leaves completions and dequeues alone. -/
theorem served_send (s : I2CState) (p : Nat) (hS : Served s) :
    Served (prvI2C_Transaction_send s p).1 := by
  unfold Served at hS ⊢
  by_cases hroom : s.pxI2C_RQ.length < s.uxQueueLength <;>
    simpa [prvI2C_Transaction_send, I2CState.store, I2CState.emit, hroom, completed, dequeued,
      inFlight, qEvents, List.filterMap_append, completedOf, dequeuedOf, flightStep] using hS

/-- The critical section of `prvI2C_Transaction` leaves completions and
dequeues alone. -/
theorem served_critical (s : I2CState) (hS : Served s) :
    Served (prvI2C_Transaction_critical s) := by
  unfold Served at hS ⊢
  cases hb : s.ucI2C_busy <;>
    simpa [prvI2C_Transaction_critical, I2CState.emit, hb, completed, dequeued, inFlight,
      qEvents, List.filterMap_append] using hS

/-- A run whose terminal steps all have a transaction in flight keeps the
completions a subsequence of the dequeues. -/
theorem served_run (acts : List Action) (s s' : I2CState) (hF : Fifo s) (hS : Served s)
    (h : run s acts = .ok s') (hd : terminalsInFlight s acts = true) : Served s' := by
  induction acts generalizing s with
  | nil =>
    simp only [run, Except.ok.injEq] at h
    rw [← h]; exact hS
  | cons a as ih =>
    simp only [run] at h
    simp only [terminalsInFlight] at hd
    cases hs : step s a with
    | error f => rw [hs] at h; cases h
    | ok s1 =>
      rw [hs] at h hd
      simp only [Bool.and_eq_true] at hd
      have hF1 : Fifo s1 := fifo_run [a] s s1 hF (by simp [run, hs])
      refine ih s1 hF1 ?_ h hd.2
      cases a with
      | fill p d =>
        simp only [step, Except.ok.injEq] at hs
        rw [← hs]
        exact hS
      | send p =>
        simp only [step, Except.ok.injEq] at hs
        rw [← hs]
        exact served_send s p hS
      | kick =>
        simp only [step, Except.ok.injEq] at hs
        rw [← hs]
        exact served_critical s hS
      | isr i =>
        refine served_isr s s1 i hF hS hs (fun ht => ?_)
        have := hd.1
        simpa [ht] using this

/-! ### Two queued requests served after the transaction in flight -/

/-- A run of interrupts only appends to the trace. -/
theorem runISR_trace (is : List IsrIn) (s s' : I2CState) (h : runISR s is = .ok s') :
    s'.trace = s.trace ++ newEvents s s' := by
  induction is generalizing s with
  | nil =>
    simp only [runISR, Except.ok.injEq] at h
    rw [← h]; simp [newEvents]
  | cons i is ih =>
    simp only [runISR] at h
    cases hs : vI2C_ISR s i with
    | error f => rw [hs] at h; cases h
    | ok s1 =>
      rw [hs] at h
      have e : s'.trace = s.trace ++ (newEvents s s1 ++ newEvents s1 s') := by
        rw [ih s1 h, (vI2C_ISR_effect s s1 i hs).1, List.append_assoc]
      rw [newEvents_of_eq e]; exact e

set_option maxHeartbeats 4000000 in
/-- With a Quick descriptor `q` dequeued by a terminal step and a SendByte
descriptor `s` alone in the queue, the codes 0x08, 0x18 complete `q` and the
codes 0x08, 0x18, 0x28 then complete `s`. -/
theorem queued_pair_run (St : I2CState) (q s x0 x1 x2 x3 x4 : Nat)
    (hp : St.pxI2C = some q) (hrq : St.pxI2C_RQ = [s]) (hpend : St.ucI2C_pending = true)
    (hq : (St.mem q).opcode = 0) (hs : (St.mem s).opcode = 1) (hqs : q ≠ s) :
    ∃ Sq, runISR St [irq 0x08 x0, irq 0x18 x1] = .ok Sq
      ∧ qEvents (newEvents St Sq) = [.done q, .got (some s)]
      ∧ dataWrites (newEvents St Sq) = [((St.mem q).addr <<< 1) % 256]
      ∧ ∃ Ss, runISR Sq [irq 0x08 x2, irq 0x18 x3, irq 0x28 x4] = .ok Ss
        ∧ qEvents (newEvents Sq Ss) = [.done s, .got none]
        ∧ dataWrites (newEvents Sq Ss) = [((St.mem s).addr <<< 1) % 256, (St.mem s).data0]
        ∧ Ss.pxI2C_RQ = [] ∧ Ss.ucI2C_busy = false
        ∧ (Ss.mem q).status = 0 ∧ (Ss.mem s).status = 0 := by
  have hsq : s ≠ q := fun e => hqs e.symm
  simp +decide [runISR, vI2C_ISR, switch_status, case_0x08, case_0x18, case_0x28,
    terminal_handling, isr_epilogue, transmitData, xQueueReceiveFromISR, I2CState.emit,
    I2CState.store, irq, hp, hrq, hpend, hq, hs, hqs, hsq, xI2C_struct.getData, I2C_STOP,
    I2C_ERROR_STOP, I2C_WR_ADDR, I2C_WR_DATA, I2C_START, newEvents, qEvents, dataWrites,
    Function.update_apply]

/-- A submission while the controller is busy and the queue has room: the
handle goes to the tail of the queue, no register is written, and no
descriptor changes outside its status. -/
theorem submit_while_busy (S : I2CState) (p : Nat) (hb : S.ucI2C_busy = true)
    (hroom : S.pxI2C_RQ.length < S.uxQueueLength) :
    (prvI2C_Transaction_submit S p).2 = true
      ∧ (prvI2C_Transaction_submit S p).1.pxI2C_RQ = S.pxI2C_RQ ++ [p]
      ∧ (prvI2C_Transaction_submit S p).1.pxI2C = S.pxI2C
      ∧ (prvI2C_Transaction_submit S p).1.ucI2C_busy = true
      ∧ (prvI2C_Transaction_submit S p).1.uxQueueLength = S.uxQueueLength
      ∧ (prvI2C_Transaction_submit S p).1.trace
          = S.trace ++ [.xQueueSend p true, .portENTER_CRITICAL, .portEXIT_CRITICAL]
      ∧ ∀ x, sameRequest (S.mem x) ((prvI2C_Transaction_submit S p).1.mem x)
          ∧ ((prvI2C_Transaction_submit S p).1.mem x).data0 = (S.mem x).data0 := by
  refine ⟨?_, ?_, ?_, ?_, ?_, ?_, fun x => ?_⟩ <;>
    try simp [prvI2C_Transaction_submit, prvI2C_Transaction_send, prvI2C_Transaction_critical,
      I2CState.store, I2CState.emit, hroom, hb]
  by_cases e : x = p <;>
    simp [prvI2C_Transaction_submit, prvI2C_Transaction_send, prvI2C_Transaction_critical,
      I2CState.store, I2CState.emit, hroom, hb, e, sameRequest, Function.update_apply]

/-! ### Task events and interrupt events in the trace -/

/-- Inside an invocation everything up to the clearing of the debug pin is
skipped. -/
theorem taskEvents_inside (mid rest : List Event)
    (h : Event.write .FIOCLR 0x04000000 ∉ mid) :
    taskEvents true (mid ++ Event.write .FIOCLR 0x04000000 :: rest) = taskEvents false rest := by
  induction mid with
  | nil => simp [taskEvents]
  | cons e mid ih =>
    simp only [List.mem_cons, not_or] at h
    simp only [List.cons_append, taskEvents, if_neg (Ne.symm h.1)]
    exact ih h.2

/-- The setting of the debug pin opens an invocation. -/
theorem taskEvents_enter (t : List Event) :
    taskEvents false (Event.write .FIOSET 0x04000000 :: t) = taskEvents true t := by
  simp [taskEvents]

/-- The 0x08 case does not touch the debug pin. -/
theorem case_0x08_pin (s s1 : I2CState) (i : IsrIn) (h : case_0x08 s i = .ok s1) :
    s1.trace = s.trace ++ newEvents s s1
      ∧ Event.write .FIOCLR 0x04000000 ∉ newEvents s s1 := by
  cases hpend : s.ucI2C_pending <;> cases hq : s.pxI2C_RQ <;>
    simp only [case_0x08, xQueueReceiveFromISR, I2CState.emit, hpend, hq, ↓reduceIte,
      Bool.false_eq_true, Bool.true_eq_false, reduceCtorEq] at h <;>
    (repeat' split at h) <;> (try cases h) <;>
    simp +decide [newEvents]

/-- No other case touches the debug pin. -/
theorem case_other_pin (s s1 : I2CState) (i : IsrIn)
    (h : case_0x00 s = .ok s1 ∨ case_0x10 s = .ok s1 ∨ case_0x18 s = .ok s1
        ∨ case_0x20 s = .ok s1 ∨ case_0x28 s = .ok s1 ∨ case_0x30 s = .ok s1
        ∨ case_0x38 s = .ok s1 ∨ case_0x40 s = .ok s1 ∨ case_0x48 s = .ok s1
        ∨ case_0x50 s i = .ok s1 ∨ case_0x58 s i = .ok s1 ∨ case_default s = .ok s1) :
    s1.trace = s.trace ++ newEvents s s1
      ∧ Event.write .FIOCLR 0x04000000 ∉ newEvents s s1 := by
  rcases h with h | h | h | h | h | h | h | h | h | h | h | h <;>
    simp only [case_0x00, case_0x10, case_0x18, case_0x20, case_0x28, case_0x30, case_0x38,
      case_0x40, case_0x48, case_0x50, case_0x58, case_default, transmitData, receiveData,
      xI2C_struct.getData, xI2C_struct.setData] at h <;>
    (repeat' split at h) <;> (try cases h) <;>
    simp +decide [I2CState.emit, I2CState.store, newEvents]

/-- The switch does not touch the debug pin. -/
theorem switch_status_pin (s s1 : I2CState) (i : IsrIn) (h : switch_status s i = .ok s1) :
    s1.trace = s.trace ++ newEvents s s1
      ∧ Event.write .FIOCLR 0x04000000 ∉ newEvents s s1 := by
  by_cases h8 : s.ucI2C_status = 0x08
  · have e : switch_status s i = case_0x08 s i := by
      unfold switch_status
      simp [h8]
    rw [e] at h
    exact case_0x08_pin s s1 i h
  · rcases switch_status_cases s i h8 with e | e | e | e | e | e | e | e | e | e | e | e <;>
      rw [e] at h <;> exact case_other_pin s s1 i (by simp only [h, true_or, or_true])

/-- The terminal handling does not touch the debug pin. -/
theorem terminal_handling_pin (s1 s2 : I2CState) (i : IsrIn)
    (h : terminal_handling s1 i = .ok s2) :
    s2.trace = s1.trace ++ newEvents s1 s2
      ∧ Event.write .FIOCLR 0x04000000 ∉ newEvents s1 s2 := by
  cases hq : s1.pxI2C_RQ <;> cases hp : s1.pxI2C <;>
    simp only [terminal_handling, xQueueReceiveFromISR, I2CState.emit, I2CState.store, hq, hp,
      ↓reduceIte, Bool.false_eq_true, Bool.true_eq_false, reduceCtorEq] at h <;>
    (try cases h) <;>
    simp +decide [newEvents]

/-- The epilogue ends with the clearing of the debug pin, its one access to
it. -/
theorem epilogueEvents_pin (s : I2CState) :
    ∃ e, epilogueEvents s = e ++ [Event.write .FIOCLR 0x04000000]
      ∧ Event.write .FIOCLR 0x04000000 ∉ e := by
  unfold epilogueEvents
  split
  · exact ⟨[.portYIELD_FROM_ISR, .write .VICVectAddr 0x0], rfl, by decide⟩
  · exact ⟨[.write .VICVectAddr 0x0], rfl, by decide⟩

/-- The events of one invocation of `vI2C_ISR` lie between the setting and the
clearing of the debug pin. -/
theorem vI2C_ISR_bracket (s s' : I2CState) (i : IsrIn) (h : vI2C_ISR s i = .ok s') :
    ∃ mid, s'.trace = s.trace ++ (Event.write .FIOSET 0x04000000 :: mid
        ++ [Event.write .FIOCLR 0x04000000])
      ∧ Event.write .FIOCLR 0x04000000 ∉ mid := by
  rw [vI2C_ISR_unfold] at h
  by_cases hsi : i.I2C0CONSET &&& 0x08 ≠ 0
  · rw [if_pos hsi] at h
    cases hsw : switch_status (isr_latch (isr_prologue s) i) i with
    | error f => rw [hsw] at h; cases h
    | ok s1 =>
      rw [hsw] at h
      obtain ⟨t1, n1⟩ := switch_status_pin _ _ _ hsw
      generalize newEvents (isr_latch (isr_prologue s) i) s1 = N1 at t1 n1
      simp only [isr_latch, isr_prologue, I2CState.emit] at t1
      simp only at h
      by_cases ht : s1.ucI2C_cstate = I2C_STOP ∨ s1.ucI2C_cstate = I2C_ERROR_STOP
      · rw [if_pos ht] at h
        cases hth : terminal_handling s1 i with
        | error f => rw [hth] at h; cases h
        | ok s2 =>
          rw [hth] at h
          simp only [Except.ok.injEq] at h
          obtain ⟨t2, n2⟩ := terminal_handling_pin _ _ _ hth
          generalize newEvents s1 s2 = N2 at t2 n2
          obtain ⟨_, _, _, _, _, f6⟩ := isr_epilogue_effect _ _ h
          obtain ⟨e, he, ne⟩ := epilogueEvents_pin (s2.emit (.write .I2C0CONCLR 0x08))
          rw [he] at f6
          simp only [I2CState.emit] at f6
          refine ⟨N1 ++ N2 ++ [Event.write .I2C0CONCLR 0x08] ++ e, ?_, ?_⟩
          · rw [f6, t2, t1]; simp only [List.append_assoc, List.cons_append, List.nil_append]
          · simp only [List.mem_append, not_or]
            exact ⟨⟨⟨n1, n2⟩, by decide⟩, ne⟩
      · rw [if_neg ht] at h
        simp only [Except.ok.injEq] at h
        obtain ⟨_, _, _, _, _, f6⟩ := isr_epilogue_effect _ _ h
        obtain ⟨e, he, ne⟩ := epilogueEvents_pin (s1.emit (.write .I2C0CONCLR 0x08))
        rw [he] at f6
        simp only [I2CState.emit] at f6
        refine ⟨N1 ++ [Event.write .I2C0CONCLR 0x08] ++ e, ?_, ?_⟩
        · rw [f6, t1]; simp only [List.append_assoc, List.cons_append, List.nil_append]
        · simp only [List.mem_append, not_or]
          exact ⟨⟨n1, by decide⟩, ne⟩
  · rw [if_neg hsi] at h
    simp only [Except.ok.injEq] at h
    obtain ⟨_, _, _, _, _, f6⟩ := isr_epilogue_effect _ _ h
    obtain ⟨e, he, ne⟩ := epilogueEvents_pin (isr_prologue s)
    rw [he] at f6
    simp only [isr_prologue, I2CState.emit] at f6
    refine ⟨e, ?_, ne⟩
    rw [f6]; simp only [List.append_assoc, List.cons_append, List.nil_append]

/-- The interrupts serviced while the task is blocked add no task event. -/
theorem taskEvents_runISR (is : List IsrIn) (s s' : I2CState) (rest : List Event)
    (h : runISR s is = .ok s') :
    taskEvents false (newEvents s s' ++ rest) = taskEvents false rest := by
  induction is generalizing s with
  | nil =>
    simp only [runISR, Except.ok.injEq] at h
    rw [← h]; simp [newEvents]
  | cons i is ih =>
    simp only [runISR] at h
    cases hs : vI2C_ISR s i with
    | error f => rw [hs] at h; cases h
    | ok s1 =>
      rw [hs] at h
      obtain ⟨mid, hm, nm⟩ := vI2C_ISR_bracket s s1 i hs
      have e : s'.trace = s.trace ++ ((Event.write .FIOSET 0x04000000 :: mid
          ++ [Event.write .FIOCLR 0x04000000]) ++ newEvents s1 s') := by
        rw [runISR_trace is s1 s' h, hm, List.append_assoc]
      have e2 : (Event.write .FIOSET 0x04000000 :: mid ++ [Event.write .FIOCLR 0x04000000])
          ++ newEvents s1 s' ++ rest
          = Event.write .FIOSET 0x04000000
              :: (mid ++ Event.write .FIOCLR 0x04000000 :: (newEvents s1 s' ++ rest)) := by
        simp
      rw [newEvents_of_eq e, e2, taskEvents_enter, taskEvents_inside mid _ nm]
      exact ih s1 h

/-- Events outside an invocation that do not set the debug pin are task
events. -/
theorem taskEvents_task (a rest : List Event) (h : Event.write .FIOSET 0x04000000 ∉ a) :
    taskEvents false (a ++ rest) = a ++ taskEvents false rest := by
  induction a with
  | nil => rfl
  | cons e a ih =>
    simp only [List.mem_cons, not_or] at h
    simp only [List.cons_append, taskEvents, if_neg (Ne.symm h.1)]
    exact congrArg (e :: ·) (ih h.2)

/-- The trace of the submission: the send, and after a successful send the
critical section with the start command when the busy flag is clear. -/
theorem submit_trace (s : I2CState) (p : Nat) (hroom : s.pxI2C_RQ.length < s.uxQueueLength) :
    (prvI2C_Transaction_submit s p).2 = true
      ∧ (prvI2C_Transaction_submit s p).1.trace
        = s.trace ++ ([.xQueueSend p true, .portENTER_CRITICAL]
            ++ (if s.ucI2C_busy = false then [Event.write .I2C0CONSET 0x20] else [])
            ++ [.portEXIT_CRITICAL]) := by
  cases hb : s.ucI2C_busy <;>
    simp [prvI2C_Transaction_submit, prvI2C_Transaction_send, prvI2C_Transaction_critical,
      I2CState.store, I2CState.emit, hroom, hb]

/-! ### The cases of the switch, one by one -/

/-- The case the switch runs, with the code that selects it. -/
theorem switch_status_code (s : I2CState) (i : IsrIn) :
    (s.ucI2C_status = 0x00 ∧ switch_status s i = case_0x00 s)
    ∨ (s.ucI2C_status = 0x08 ∧ switch_status s i = case_0x08 s i)
    ∨ (s.ucI2C_status = 0x10 ∧ switch_status s i = case_0x10 s)
    ∨ (s.ucI2C_status = 0x18 ∧ switch_status s i = case_0x18 s)
    ∨ (s.ucI2C_status = 0x20 ∧ switch_status s i = case_0x20 s)
    ∨ (s.ucI2C_status = 0x28 ∧ switch_status s i = case_0x28 s)
    ∨ (s.ucI2C_status = 0x30 ∧ switch_status s i = case_0x30 s)
    ∨ (s.ucI2C_status = 0x38 ∧ switch_status s i = case_0x38 s)
    ∨ (s.ucI2C_status = 0x40 ∧ switch_status s i = case_0x40 s)
    ∨ (s.ucI2C_status = 0x48 ∧ switch_status s i = case_0x48 s)
    ∨ (s.ucI2C_status = 0x50 ∧ switch_status s i = case_0x50 s i)
    ∨ (s.ucI2C_status = 0x58 ∧ switch_status s i = case_0x58 s i)
    ∨ ((s.ucI2C_status ≠ 0x00 ∧ s.ucI2C_status ≠ 0x08 ∧ s.ucI2C_status ≠ 0x10
          ∧ s.ucI2C_status ≠ 0x18 ∧ s.ucI2C_status ≠ 0x20 ∧ s.ucI2C_status ≠ 0x28
          ∧ s.ucI2C_status ≠ 0x30 ∧ s.ucI2C_status ≠ 0x38 ∧ s.ucI2C_status ≠ 0x40
          ∧ s.ucI2C_status ≠ 0x48 ∧ s.ucI2C_status ≠ 0x50 ∧ s.ucI2C_status ≠ 0x58)
        ∧ switch_status s i = case_default s) := by
  unfold switch_status
  by_cases c0 : s.ucI2C_status = 0x00
  · simp [c0]
  by_cases c1 : s.ucI2C_status = 0x08
  · simp [c1]
  by_cases c2 : s.ucI2C_status = 0x10
  · simp [c2]
  by_cases c3 : s.ucI2C_status = 0x18
  · simp [c3]
  by_cases c4 : s.ucI2C_status = 0x20
  · simp [c4]
  by_cases c5 : s.ucI2C_status = 0x28
  · simp [c5]
  by_cases c6 : s.ucI2C_status = 0x30
  · simp [c6]
  by_cases c7 : s.ucI2C_status = 0x38
  · simp [c7]
  by_cases c8 : s.ucI2C_status = 0x40
  · simp [c8]
  by_cases c9 : s.ucI2C_status = 0x48
  · simp [c9]
  by_cases ca : s.ucI2C_status = 0x50
  · simp [ca]
  by_cases cb : s.ucI2C_status = 0x58
  · simp [cb]
  simp [c0, c1, c2, c3, c4, c5, c6, c7, c8, c9, ca, cb]

/-- The terminal handling leaves the protocol statics of the routine alone. -/
theorem terminal_handling_statics (s1 s2 : I2CState) (i : IsrIn)
    (h : terminal_handling s1 i = .ok s2) :
    s2.ucI2C_cstate = s1.ucI2C_cstate ∧ s2.ucI2C_lstate = s1.ucI2C_lstate
      ∧ s2.ucI2C_wr_count = s1.ucI2C_wr_count ∧ s2.ucI2C_rd_count = s1.ucI2C_rd_count
      ∧ s2.ucI2C_lostarb = s1.ucI2C_lostarb ∧ s2.ucI2C_saddr = s1.ucI2C_saddr
      ∧ s2.ucI2C_status = s1.ucI2C_status := by
  cases hq : s1.pxI2C_RQ <;> cases hp : s1.pxI2C <;>
    simp only [terminal_handling, xQueueReceiveFromISR, I2CState.emit, I2CState.store, hq, hp,
      ↓reduceIte, Bool.false_eq_true, Bool.true_eq_false, reduceCtorEq] at h <;>
    (try cases h) <;> simp

/-- The epilogue leaves the protocol statics of the routine alone. -/
theorem isr_epilogue_statics (s : I2CState) :
    (isr_epilogue s).ucI2C_cstate = s.ucI2C_cstate
      ∧ (isr_epilogue s).ucI2C_lstate = s.ucI2C_lstate
      ∧ (isr_epilogue s).ucI2C_wr_count = s.ucI2C_wr_count
      ∧ (isr_epilogue s).ucI2C_rd_count = s.ucI2C_rd_count
      ∧ (isr_epilogue s).ucI2C_lostarb = s.ucI2C_lostarb
      ∧ (isr_epilogue s).ucI2C_saddr = s.ucI2C_saddr
      ∧ (isr_epilogue s).ucI2C_status = s.ucI2C_status := by
  rw [isr_epilogue_eq]; simp

/-- An invocation with the interrupt flag asserted: the switch returned, and
what it left in the protocol statics is what the invocation leaves. -/
theorem vI2C_ISR_statics (s s' : I2CState) (i : IsrIn) (hsi : i.I2C0CONSET &&& 0x08 ≠ 0)
    (h : vI2C_ISR s i = .ok s') :
    ∃ s1, switch_status (isr_latch (isr_prologue s) i) i = .ok s1
      ∧ s'.ucI2C_cstate = s1.ucI2C_cstate ∧ s'.ucI2C_lstate = s1.ucI2C_lstate
      ∧ s'.ucI2C_wr_count = s1.ucI2C_wr_count ∧ s'.ucI2C_rd_count = s1.ucI2C_rd_count
      ∧ s'.ucI2C_lostarb = s1.ucI2C_lostarb ∧ s'.ucI2C_saddr = s1.ucI2C_saddr
      ∧ s'.ucI2C_status = s1.ucI2C_status := by
  rw [vI2C_ISR_unfold, if_pos hsi] at h
  cases hsw : switch_status (isr_latch (isr_prologue s) i) i with
  | error f => rw [hsw] at h; cases h
  | ok s1 =>
    rw [hsw] at h
    simp only at h
    refine ⟨s1, rfl, ?_⟩
    by_cases ht : s1.ucI2C_cstate = I2C_STOP ∨ s1.ucI2C_cstate = I2C_ERROR_STOP
    · rw [if_pos ht] at h
      cases hth : terminal_handling s1 i with
      | error f => rw [hth] at h; cases h
      | ok s2 =>
        rw [hth] at h
        simp only [Except.ok.injEq] at h
        obtain ⟨a1, a2, a3, a4, a5, a6, a7⟩ := terminal_handling_statics _ _ _ hth
        obtain ⟨b1, b2, b3, b4, b5, b6, b7⟩ :=
          isr_epilogue_statics (s2.emit (.write .I2C0CONCLR 0x08))
        rw [h] at b1 b2 b3 b4 b5 b6 b7
        simp only [I2CState.emit] at b1 b2 b3 b4 b5 b6 b7
        exact ⟨b1.trans a1, b2.trans a2, b3.trans a3, b4.trans a4, b5.trans a5, b6.trans a6,
          b7.trans a7⟩
    · rw [if_neg ht] at h
      simp only [Except.ok.injEq] at h
      obtain ⟨b1, b2, b3, b4, b5, b6, b7⟩ :=
        isr_epilogue_statics (s1.emit (.write .I2C0CONCLR 0x08))
      rw [h] at b1 b2 b3 b4 b5 b6 b7
      simp only [I2CState.emit] at b1 b2 b3 b4 b5 b6 b7
      exact ⟨b1, b2, b3, b4, b5, b6, b7⟩

/-- A switch that returns in a non-terminal phase makes the invocation return. -/
theorem vI2C_ISR_ok_of_switch (s s1 : I2CState) (i : IsrIn)
    (hsi : i.I2C0CONSET &&& 0x08 ≠ 0)
    (hsw : switch_status (isr_latch (isr_prologue s) i) i = .ok s1)
    (ht : ¬ terminalPhase s1) : ∃ s', vI2C_ISR s i = .ok s' := by
  rw [vI2C_ISR_unfold, if_pos hsi, hsw]
  simp only
  rw [if_neg (show ¬ (s1.ucI2C_cstate = I2C_STOP ∨ s1.ucI2C_cstate = I2C_ERROR_STOP) from ht)]
  exact ⟨_, rfl⟩

/-- What the cases 0x08, 0x10 and 0x38 do to the byte counters and the
arbitration-lost flag. -/
theorem switch_status_counters (s s1 : I2CState) (i : IsrIn)
    (h : switch_status s i = .ok s1) :
    ((s.ucI2C_status = 0x10 ∨ s.ucI2C_status = 0x38) →
        s1.ucI2C_wr_count = s.ucI2C_wr_count ∧ s1.ucI2C_rd_count = s.ucI2C_rd_count)
    ∧ (s.ucI2C_status = 0x08 →
        s1.ucI2C_wr_count = 0 ∧ s1.ucI2C_rd_count = 0 ∧ s1.ucI2C_lostarb = 0) := by
  rcases switch_status_code s i with ⟨c, e⟩ | ⟨c, e⟩ | ⟨c, e⟩ | ⟨c, e⟩ | ⟨c, e⟩ | ⟨c, e⟩ | ⟨c, e⟩
    | ⟨c, e⟩ | ⟨c, e⟩ | ⟨c, e⟩ | ⟨c, e⟩ | ⟨c, e⟩ | ⟨c, e⟩
  case inr.inl =>
    rw [e] at h
    refine ⟨fun hc => by rw [c] at hc; simp at hc, fun _ => ?_⟩
    cases hpend : s.ucI2C_pending <;> cases hq : s.pxI2C_RQ <;>
      simp only [case_0x08, xQueueReceiveFromISR, I2CState.emit, hpend, hq, ↓reduceIte,
        Bool.false_eq_true, Bool.true_eq_false, reduceCtorEq] at h <;>
      (repeat' split at h) <;> (try cases h) <;> simp
  case inr.inr.inl =>
    rw [e] at h
    refine ⟨fun _ => ?_, fun hc => by rw [c] at hc; simp at hc⟩
    simp only [case_0x10] at h
    (repeat' split at h) <;> (try cases h) <;> simp [I2CState.emit]
  case inr.inr.inr.inr.inr.inr.inr.inl =>
    rw [e] at h
    refine ⟨fun _ => ?_, fun hc => by rw [c] at hc; simp at hc⟩
    simp only [case_0x38, Except.ok.injEq] at h
    subst h
    simp [I2CState.emit]
  all_goals
    refine ⟨fun hc => ?_, fun hc => ?_⟩ <;> (try rw [c] at hc) <;> (try simp at hc) <;>
      omega

/-- Every case but 0x08 leaves the recorded last phase alone. -/
theorem switch_status_lstate (s s1 : I2CState) (i : IsrIn) (h : switch_status s i = .ok s1)
    (h8 : s.ucI2C_status ≠ 0x08) : s1.ucI2C_lstate = s.ucI2C_lstate := by
  rcases switch_status_cases s i h8 with e | e | e | e | e | e | e | e | e | e | e | e <;>
    rw [e] at h <;>
    simp only [case_0x00, case_0x10, case_0x18, case_0x20, case_0x28, case_0x30, case_0x38,
      case_0x40, case_0x48, case_0x50, case_0x58, case_default, transmitData, receiveData,
      xI2C_struct.getData, xI2C_struct.setData] at h <;>
    (repeat' split at h) <;> (try cases h) <;>
    simp [I2CState.emit, I2CState.store]

/-- After the switch the phase is arbitration-lost only with the
arbitration-lost flag set. -/
theorem switch_status_lost (s s1 : I2CState) (i : IsrIn) (h : switch_status s i = .ok s1) :
    s1.ucI2C_cstate = I2C_LOST_ARB → s1.ucI2C_lostarb ≠ 0 := by
  by_cases h8 : s.ucI2C_status = 0x08
  · have e : switch_status s i = case_0x08 s i := by
      unfold switch_status
      simp [h8]
    rw [e] at h
    cases hpend : s.ucI2C_pending <;> cases hq : s.pxI2C_RQ <;>
      simp only [case_0x08, xQueueReceiveFromISR, I2CState.emit, hpend, hq, ↓reduceIte,
        Bool.false_eq_true, Bool.true_eq_false, reduceCtorEq] at h <;>
      (repeat' split at h) <;> (try cases h) <;>
      simp +decide [I2C_LOST_ARB, I2C_WR_ADDR, I2C_RD_ADDR]
  · rcases switch_status_cases s i h8 with e | e | e | e | e | e | e | e | e | e | e | e <;>
      rw [e] at h <;>
      simp only [case_0x00, case_0x10, case_0x18, case_0x20, case_0x28, case_0x30, case_0x38,
        case_0x40, case_0x48, case_0x50, case_0x58, case_default, transmitData, receiveData,
        xI2C_struct.getData, xI2C_struct.setData] at h <;>
      (repeat' split at h) <;> (try cases h) <;>
      simp +decide [I2CState.emit, I2CState.store, I2C_LOST_ARB, I2C_STOP, I2C_ERROR_STOP,
        I2C_WR_ADDR, I2C_RD_ADDR, I2C_WR_DATA, I2C_COMMAND, I2C_RSTART, I2C_RD_ADDR_ACK,
        I2C_RD_DATA_NAK]

/-- An invocation keeps the arbitration-lost flag set while the phase is
arbitration-lost. -/
theorem lostFlagged_isr (s s' : I2CState) (i : IsrIn) (hJ : LostFlagged s)
    (h : vI2C_ISR s i = .ok s') : LostFlagged s' := by
  by_cases hsi : i.I2C0CONSET &&& 0x08 ≠ 0
  · obtain ⟨s1, hsw, c, _, _, _, l, _, _⟩ := vI2C_ISR_statics s s' i hsi h
    unfold LostFlagged
    rw [c, l]
    exact switch_status_lost _ _ _ hsw
  · rw [vI2C_ISR_unfold, if_neg hsi] at h
    simp only [Except.ok.injEq] at h
    obtain ⟨c, _, _, _, l, _, _⟩ := isr_epilogue_statics (isr_prologue s)
    rw [h] at c l
    unfold LostFlagged
    rw [c, l]
    exact hJ

/-- Every run from a state with the property keeps the arbitration-lost flag
set while the phase is arbitration-lost. -/
theorem lostFlagged_run (acts : List Action) (s s' : I2CState) (hJ : LostFlagged s)
    (h : run s acts = .ok s') : LostFlagged s' := by
  induction acts generalizing s with
  | nil =>
    simp only [run, Except.ok.injEq] at h
    rw [← h]; exact hJ
  | cons a as ih =>
    simp only [run] at h
    cases hs : step s a with
    | error f => rw [hs] at h; cases h
    | ok s1 =>
      rw [hs] at h
      refine ih s1 ?_ h
      cases a with
      | fill p d =>
        simp only [step, Except.ok.injEq] at hs
        rw [← hs]
        exact hJ
      | send p =>
        simp only [step, Except.ok.injEq] at hs
        rw [← hs]
        by_cases hroom : s.pxI2C_RQ.length < s.uxQueueLength <;>
          simpa [LostFlagged, prvI2C_Transaction_send, I2CState.store, I2CState.emit, hroom]
            using hJ
      | kick =>
        simp only [step, Except.ok.injEq] at hs
        rw [← hs]
        cases hb : s.ucI2C_busy <;>
          simpa [LostFlagged, prvI2C_Transaction_critical, I2CState.emit, hb] using hJ
      | isr i => exact lostFlagged_isr s s1 i hJ hs

/-- The two branches of a repeated-start (0x10) step: with the arbitration-lost
flag set the phase is taken from the opcode and the address byte is sent as
it stands; with the flag clear the phase is address-read and the address byte
gets the read bit. -/
theorem repeated_start_step (s s' : I2CState) (i : IsrIn) (hsi : i.I2C0CONSET &&& 0x08 ≠ 0)
    (hc : i.I2C0STAT % 256 = 0x10) (h : vI2C_ISR s i = .ok s') :
    (s.ucI2C_lostarb ≠ 0 →
        ∃ p, s.pxI2C = some p
          ∧ s'.ucI2C_cstate = (if (s.mem p).opcode = I2C_ReceiveByte then I2C_RD_ADDR
              else I2C_WR_ADDR)
          ∧ s'.ucI2C_saddr = s.ucI2C_saddr
          ∧ dataWrites (newEvents s s') = [s.ucI2C_saddr] ∧ s'.ucI2C_lostarb = 0)
    ∧ (s.ucI2C_lostarb = 0 →
        s'.ucI2C_cstate = I2C_RD_ADDR ∧ s'.ucI2C_saddr = s.ucI2C_saddr ||| 0x01
          ∧ dataWrites (newEvents s s') = [s.ucI2C_saddr ||| 0x01] ∧ s'.ucI2C_lostarb = 0) := by
  by_cases hl : s.ucI2C_lostarb = 0
  · refine ⟨fun hn => absurd hl hn, fun _ => ?_⟩
    simp +decide [vI2C_ISR, switch_status, case_0x10, isr_epilogue, I2CState.emit, hsi, hc, hl,
      I2C_RD_ADDR, I2C_STOP, I2C_ERROR_STOP] at h
    subst h
    simp [newEvents, dataWrites, hl, I2C_RD_ADDR]
  · refine ⟨fun _ => ?_, fun hz => absurd hz hl⟩
    cases hp : s.pxI2C with
    | none =>
      simp +decide [vI2C_ISR, switch_status, case_0x10, isr_epilogue, I2CState.emit, hsi, hc, hl,
        hp] at h
    | some p =>
      by_cases ho : (s.mem p).opcode = 2 <;>
        simp +decide [vI2C_ISR, switch_status, case_0x10, isr_epilogue, I2CState.emit, hsi, hc,
          hl, hp, ho, I2C_RD_ADDR, I2C_WR_ADDR, I2C_STOP, I2C_ERROR_STOP] at h <;>
        subst h <;>
        simp [newEvents, dataWrites, ho, I2C_ReceiveByte, I2C_RD_ADDR, I2C_WR_ADDR]

/-- Whether the switch ends in a terminal phase is decided by the code, the
opcode of the active descriptor and the write counter. -/
theorem switch_status_terminal (s s1 : I2CState) (i : IsrIn)
    (h : switch_status s i = .ok s1) :
    terminalPhase s1 ↔ terminalCode s.ucI2C_status (activeOpcode s) s.ucI2C_wr_count = true := by
  rcases switch_status_code s i with ⟨c, e⟩ | ⟨c, e⟩ | ⟨c, e⟩ | ⟨c, e⟩ | ⟨c, e⟩ | ⟨c, e⟩ | ⟨c, e⟩
    | ⟨c, e⟩ | ⟨c, e⟩ | ⟨c, e⟩ | ⟨c, e⟩ | ⟨c, e⟩ | ⟨c, e⟩
  case inr.inl =>
    rw [e] at h
    cases hpend : s.ucI2C_pending <;> cases hq : s.pxI2C_RQ <;>
      simp only [case_0x08, xQueueReceiveFromISR, I2CState.emit, hpend, hq, ↓reduceIte,
        Bool.false_eq_true, Bool.true_eq_false, reduceCtorEq] at h <;>
      (repeat' split at h) <;> (try cases h) <;>
      simp +decide [terminalPhase, terminalCode, c, I2C_STOP, I2C_ERROR_STOP, I2C_WR_ADDR,
        I2C_RD_ADDR]
  case inr.inr.inr.inr.inr.inr.inr.inr.inr.inr.inr.inr =>
    rw [e] at h
    obtain ⟨n00, n08, n10, n18, n20, n28, n30, n38, n40, n48, n50, n58⟩ := c
    simp only [case_default, Except.ok.injEq] at h
    subst h
    simp +decide [terminalPhase, terminalCode, n08, n10, n18, n28, n38, n40, n50, I2C_STOP,
      I2C_ERROR_STOP]
  all_goals
    rw [e] at h
    simp only [case_0x00, case_0x10, case_0x18, case_0x20, case_0x28, case_0x30, case_0x38,
      case_0x40, case_0x48, case_0x50, case_0x58, transmitData, receiveData,
      xI2C_struct.getData, xI2C_struct.setData] at h
    (repeat' split at h) <;> (try cases h) <;>
      simp_all +decide [terminalPhase, terminalCode, activeOpcode, I2CState.emit,
        I2CState.store, I2C_STOP, I2C_ERROR_STOP, I2C_WR_ADDR, I2C_RD_ADDR, I2C_WR_DATA,
        I2C_COMMAND, I2C_RSTART, I2C_LOST_ARB, I2C_RD_ADDR_ACK, I2C_RD_DATA_NAK]

theorem completionSignals_append (a b : List Event) :
    completionSignals (a ++ b) = completionSignals a ++ completionSignals b := by
  simp [completionSignals, List.filterMap_append]

theorem busOps_append (a b : List Event) : busOps (a ++ b) = busOps a ++ busOps b := by
  simp [busOps, List.flatMap_append]

/-- The epilogue signals no completion and issues no stop command. -/
theorem epilogueEvents_signals (s : I2CState) :
    completionSignals (epilogueEvents s) = [] ∧ BusOp.stop ∉ busOps (epilogueEvents s) := by
  unfold epilogueEvents
  split <;> simp +decide [completionSignals, busOps, Event.busOps]

/-- The 0x08 case signals no completion and issues no stop command. -/
theorem case_0x08_signals (s s1 : I2CState) (i : IsrIn) (h : case_0x08 s i = .ok s1) :
    s1.trace = s.trace ++ newEvents s s1 ∧ completionSignals (newEvents s s1) = []
      ∧ BusOp.stop ∉ busOps (newEvents s s1) := by
  cases hpend : s.ucI2C_pending <;> cases hq : s.pxI2C_RQ <;>
    simp only [case_0x08, xQueueReceiveFromISR, I2CState.emit, hpend, hq, ↓reduceIte,
      Bool.false_eq_true, Bool.true_eq_false, reduceCtorEq] at h <;>
    (repeat' split at h) <;> (try cases h) <;>
    simp +decide [newEvents, completionSignals, busOps, Event.busOps]

/-- No other case signals a completion, and none that ends in a non-terminal
phase issues the stop command. -/
theorem case_other_signals (s s1 : I2CState) (i : IsrIn)
    (h : case_0x00 s = .ok s1 ∨ case_0x10 s = .ok s1 ∨ case_0x18 s = .ok s1
        ∨ case_0x20 s = .ok s1 ∨ case_0x28 s = .ok s1 ∨ case_0x30 s = .ok s1
        ∨ case_0x38 s = .ok s1 ∨ case_0x40 s = .ok s1 ∨ case_0x48 s = .ok s1
        ∨ case_0x50 s i = .ok s1 ∨ case_0x58 s i = .ok s1 ∨ case_default s = .ok s1) :
    s1.trace = s.trace ++ newEvents s s1 ∧ completionSignals (newEvents s s1) = []
      ∧ (¬ terminalPhase s1 → BusOp.stop ∉ busOps (newEvents s s1)) := by
  rcases h with h | h | h | h | h | h | h | h | h | h | h | h <;>
    simp only [case_0x00, case_0x10, case_0x18, case_0x20, case_0x28, case_0x30, case_0x38,
      case_0x40, case_0x48, case_0x50, case_0x58, case_default, transmitData, receiveData,
      xI2C_struct.getData, xI2C_struct.setData] at h <;>
    (repeat' split at h) <;> (try cases h) <;>
    simp +decide [terminalPhase, I2CState.emit, I2CState.store, newEvents, completionSignals,
      busOps, Event.busOps, I2C_STOP, I2C_ERROR_STOP, I2C_WR_ADDR, I2C_RD_ADDR, I2C_WR_DATA,
      I2C_COMMAND, I2C_RSTART, I2C_LOST_ARB, I2C_RD_ADDR_ACK, I2C_RD_DATA_NAK]

/-- The switch signals no completion, and issues no stop command when it ends
in a non-terminal phase. -/
theorem switch_status_signals (s s1 : I2CState) (i : IsrIn) (h : switch_status s i = .ok s1) :
    s1.trace = s.trace ++ newEvents s s1 ∧ completionSignals (newEvents s s1) = []
      ∧ (¬ terminalPhase s1 → BusOp.stop ∉ busOps (newEvents s s1)) := by
  by_cases h8 : s.ucI2C_status = 0x08
  · have e : switch_status s i = case_0x08 s i := by
      unfold switch_status
      simp [h8]
    rw [e] at h
    obtain ⟨a, b, c⟩ := case_0x08_signals s s1 i h
    exact ⟨a, b, fun _ => c⟩
  · rcases switch_status_cases s i h8 with e | e | e | e | e | e | e | e | e | e | e | e <;>
      rw [e] at h <;> exact case_other_signals s s1 i (by simp only [h, true_or, or_true])

/-- The terminal handling issues the stop command and signals the completion
queue of the active descriptor once. -/
theorem terminal_handling_signals (s1 s2 : I2CState) (i : IsrIn)
    (h : terminal_handling s1 i = .ok s2) :
    s2.trace = s1.trace ++ newEvents s1 s2
      ∧ ∃ p, s1.pxI2C = some p
        ∧ completionSignals (newEvents s1 s2) = [(p, (s1.mem p).pxHandle)]
        ∧ BusOp.stop ∈ busOps (newEvents s1 s2) := by
  cases hq : s1.pxI2C_RQ <;> cases hp : s1.pxI2C <;>
    simp only [terminal_handling, xQueueReceiveFromISR, I2CState.emit, I2CState.store, hq, hp,
      ↓reduceIte, Bool.false_eq_true, Bool.true_eq_false, reduceCtorEq] at h <;>
    (try cases h) <;>
    simp +decide [newEvents, completionSignals, busOps, Event.busOps]

/-- The stop command and the completion signal of one invocation with the
interrupt flag asserted: both in a terminal step, neither otherwise. -/
theorem vI2C_ISR_signals (s s' : I2CState) (i : IsrIn) (hsi : i.I2C0CONSET &&& 0x08 ≠ 0)
    (h : vI2C_ISR s i = .ok s') :
    (terminalStep i s' = true →
        ∃ p, s.pxI2C = some p
          ∧ completionSignals (newEvents s s') = [(p, (s.mem p).pxHandle)]
          ∧ BusOp.stop ∈ busOps (newEvents s s'))
    ∧ (terminalStep i s' = false →
        completionSignals (newEvents s s') = [] ∧ BusOp.stop ∉ busOps (newEvents s s')) := by
  have w1 : completionSignals [Event.write .FIOSET 0x04000000] = [] := rfl
  have w2 : completionSignals [Event.write .I2C0CONCLR 0x08] = [] := rfl
  have w3 : busOps [Event.write .FIOSET 0x04000000] = [] := rfl
  have w4 : busOps [Event.write .I2C0CONCLR 0x08] = [] := rfl
  rw [vI2C_ISR_unfold, if_pos hsi] at h
  cases hsw : switch_status (isr_latch (isr_prologue s) i) i with
  | error f => rw [hsw] at h; cases h
  | ok s1 =>
    rw [hsw] at h
    obtain ⟨t1, g1, n1⟩ := switch_status_signals _ _ _ hsw
    obtain ⟨m1, _⟩ := switch_status_mem _ _ _ hsw
    obtain ⟨_, _, _, e1⟩ := switch_status_effect _ _ _ hsw
    generalize newEvents (isr_latch (isr_prologue s) i) s1 = N1 at t1 g1 n1 e1
    simp only [isr_latch, isr_prologue, I2CState.emit] at t1 m1 e1
    simp only at h
    by_cases ht : s1.ucI2C_cstate = I2C_STOP ∨ s1.ucI2C_cstate = I2C_ERROR_STOP
    · rw [if_pos ht] at h
      cases hth : terminal_handling s1 i with
      | error f => rw [hth] at h; cases h
      | ok s2 =>
        rw [hth] at h
        simp only [Except.ok.injEq] at h
        obtain ⟨t2, p, hp, g2, b2⟩ := terminal_handling_signals _ _ _ hth
        obtain ⟨c2, _⟩ := terminal_handling_statics _ _ _ hth
        generalize newEvents s1 s2 = N2 at t2 g2 b2
        obtain ⟨_, _, _, _, f5, f6⟩ := isr_epilogue_effect _ _ h
        obtain ⟨gE, _⟩ := epilogueEvents_signals (s2.emit (.write .I2C0CONCLR 0x08))
        generalize epilogueEvents (s2.emit (.write .I2C0CONCLR 0x08)) = E at f6 gE
        simp only [I2CState.emit] at f5 f6
        have htr : s'.trace = s.trace ++ ([Event.write .FIOSET 0x04000000] ++ N1 ++ N2
            ++ [Event.write .I2C0CONCLR 0x08] ++ E) := by
          rw [f6, t2, t1]; simp only [List.append_assoc]
        have hterm : terminalStep i s' = true := by
          simp only [terminalStep, f5, c2]
          simp [hsi, ht]
        have hx1 : s1.pxI2C = s.pxI2C := by
          rcases e1 with ⟨_, x1, _⟩ | ⟨nt, _⟩ | ⟨nt, _⟩
          · exact x1
          · exact absurd ht nt
          · exact absurd ht nt
        refine ⟨fun _ => ⟨p, by rw [← hx1]; exact hp, ?_, ?_⟩,
          fun hf => by rw [hterm] at hf; cases hf⟩
        · rw [newEvents_of_eq htr]
          simp only [completionSignals_append, w1, w2, g1, g2, gE, List.nil_append,
            List.append_nil, (m1 p).1.2.1]
        · rw [newEvents_of_eq htr]
          simp only [busOps_append, List.mem_append]
          exact Or.inl (Or.inl (Or.inr b2))
    · rw [if_neg ht] at h
      simp only [Except.ok.injEq] at h
      obtain ⟨_, _, _, _, f5, f6⟩ := isr_epilogue_effect _ _ h
      obtain ⟨gE, bE⟩ := epilogueEvents_signals (s1.emit (.write .I2C0CONCLR 0x08))
      generalize epilogueEvents (s1.emit (.write .I2C0CONCLR 0x08)) = E at f6 gE bE
      simp only [I2CState.emit] at f5 f6
      have htr : s'.trace = s.trace ++ ([Event.write .FIOSET 0x04000000] ++ N1
          ++ [Event.write .I2C0CONCLR 0x08] ++ E) := by
        rw [f6, t1]; simp only [List.append_assoc]
      have hterm : terminalStep i s' = false := by
        simp only [terminalStep, f5]
        simp [not_or.mp ht]
      refine ⟨fun hf => (by rw [hterm] at hf; cases hf), fun _ => ⟨?_, ?_⟩⟩
      · rw [newEvents_of_eq htr]
        simp only [completionSignals_append, w1, w2, g1, gE, List.nil_append, List.append_nil]
      · rw [newEvents_of_eq htr]
        simp only [busOps_append, w3, w4, List.nil_append, List.append_nil, List.mem_append,
          not_or]
        exact ⟨n1 ht, bE⟩


/-! ### The parts of one invocation and its payload accesses -/

/-- The parts of an invocation with the interrupt flag asserted: the switch,
the terminal handling when the switch ends in a terminal phase, the
interrupt-flag clear and the epilogue. -/
theorem vI2C_ISR_parts (s s' : I2CState) (i : IsrIn) (hsi : i.I2C0CONSET &&& 0x08 ≠ 0)
    (h : vI2C_ISR s i = .ok s') :
    ∃ s1 s2, switch_status (isr_latch (isr_prologue s) i) i = .ok s1
      ∧ ((¬ terminalPhase s1 ∧ s2 = s1) ∨ (terminalPhase s1 ∧ terminal_handling s1 i = .ok s2))
      ∧ s'.mem = s2.mem
      ∧ newEvents s s' = [Event.write .FIOSET 0x04000000]
          ++ newEvents (isr_latch (isr_prologue s) i) s1 ++ newEvents s1 s2
          ++ [Event.write .I2C0CONCLR 0x08]
          ++ epilogueEvents (s2.emit (.write .I2C0CONCLR 0x08)) := by
  rw [vI2C_ISR_unfold, if_pos hsi] at h
  cases hsw : switch_status (isr_latch (isr_prologue s) i) i with
  | error f => rw [hsw] at h; cases h
  | ok s1 =>
    rw [hsw] at h
    obtain ⟨t1, _⟩ := switch_status_signals _ _ _ hsw
    obtain ⟨N1, hN1⟩ : ∃ N1, newEvents (isr_latch (isr_prologue s) i) s1 = N1 := ⟨_, rfl⟩
    rw [hN1] at t1
    simp only [isr_latch, isr_prologue, I2CState.emit] at t1
    simp only at h
    by_cases ht : s1.ucI2C_cstate = I2C_STOP ∨ s1.ucI2C_cstate = I2C_ERROR_STOP
    · rw [if_pos ht] at h
      cases hth : terminal_handling s1 i with
      | error f => rw [hth] at h; cases h
      | ok s2 =>
        rw [hth] at h
        simp only [Except.ok.injEq] at h
        obtain ⟨t2, _⟩ := terminal_handling_signals _ _ _ hth
        obtain ⟨_, _, _, _, _, f6⟩ := isr_epilogue_effect _ _ h
        have em := (isr_epilogue_mem (s2.emit (.write .I2C0CONCLR 0x08))).1
        rw [h] at em
        refine ⟨s1, s2, rfl, Or.inr ⟨ht, hth⟩, em, ?_⟩
        rw [hN1]
        generalize epilogueEvents (s2.emit (.write .I2C0CONCLR 0x08)) = E at f6 ⊢
        generalize newEvents s1 s2 = N2 at t2 ⊢
        simp only [I2CState.emit] at f6
        apply newEvents_of_eq
        rw [f6, t2, t1]
        simp only [List.append_assoc]
    · rw [if_neg ht] at h
      simp only [Except.ok.injEq] at h
      obtain ⟨_, _, _, _, _, f6⟩ := isr_epilogue_effect _ _ h
      have em := (isr_epilogue_mem (s1.emit (.write .I2C0CONCLR 0x08))).1
      rw [h] at em
      refine ⟨s1, s1, rfl, Or.inl ⟨ht, rfl⟩, em, ?_⟩
      have e0 : newEvents s1 s1 = [] := by simp [newEvents]
      rw [e0, hN1]
      generalize epilogueEvents (s1.emit (.write .I2C0CONCLR 0x08)) = E at f6 ⊢
      simp only [I2CState.emit] at f6
      apply newEvents_of_eq
      rw [f6, t1]
      simp only [List.append_assoc, List.append_nil]

/-- An invocation without the interrupt flag is the prologue followed by the
epilogue. -/
theorem vI2C_ISR_idle (s : I2CState) (i : IsrIn) (hsi : ¬ i.I2C0CONSET &&& 0x08 ≠ 0) :
    vI2C_ISR s i = .ok (isr_epilogue (isr_prologue s))
      ∧ (isr_epilogue (isr_prologue s)).mem = s.mem
      ∧ newEvents s (isr_epilogue (isr_prologue s))
          = [.write .FIOSET 0x04000000, .write .VICVectAddr 0x0, .write .FIOCLR 0x04000000] := by
  refine ⟨by rw [vI2C_ISR_unfold, if_neg hsi], by rw [isr_epilogue_eq]; rfl, ?_⟩
  apply newEvents_of_eq
  rw [isr_epilogue_eq]
  simp [isr_prologue, epilogueEvents, I2CState.emit]

/-- The epilogue accesses no payload. -/
theorem epilogueEvents_payload (s : I2CState) :
    (∀ q k, Event.payloadRead q k ∉ epilogueEvents s)
      ∧ (∀ q k v, Event.payloadWrite q k v ∉ epilogueEvents s) := by
  unfold epilogueEvents
  split <;> simp

/-- The terminal handling accesses no payload. -/
theorem terminal_handling_payload (s1 s2 : I2CState) (i : IsrIn)
    (h : terminal_handling s1 i = .ok s2) :
    (∀ q k, Event.payloadRead q k ∉ newEvents s1 s2)
      ∧ (∀ q k v, Event.payloadWrite q k v ∉ newEvents s1 s2) := by
  cases hq : s1.pxI2C_RQ <;> cases hp : s1.pxI2C <;>
    simp only [terminal_handling, xQueueReceiveFromISR, I2CState.emit, I2CState.store, hq, hp,
      ↓reduceIte, Bool.false_eq_true, Bool.true_eq_false, reduceCtorEq] at h <;>
    (try cases h) <;>
    simp [newEvents]

/-- The payload accesses of the switch.  A payload byte is read for
transmission by the SendByte branch of case 0x18 and by the WriteByte and
WriteWord branches of case 0x28, at the write counter; a payload byte is
stored by the ReadWord branch of case 0x50 and by case 0x58, at the read
counter; every other case leaves the descriptor memory as it is. -/
theorem switch_status_payload (s s1 : I2CState) (i : IsrIn) (h : switch_status s i = .ok s1) :
    (∀ q k, Event.payloadRead q k ∈ newEvents s s1 →
        s.pxI2C = some q ∧ k = s.ucI2C_wr_count
          ∧ ((s.ucI2C_status = 0x18 ∧ (s.mem q).opcode = 1)
            ∨ (s.ucI2C_status = 0x28 ∧ ((s.mem q).opcode = 3 ∨ (s.mem q).opcode = 5))))
    ∧ (∀ q k v, Event.payloadWrite q k v ∈ newEvents s s1 →
        s.pxI2C = some q ∧ k = s.ucI2C_rd_count ∧ v = i.I2C0DAT % 256
          ∧ (s.ucI2C_status = 0x58 ∨ (s.ucI2C_status = 0x50 ∧ (s.mem q).opcode = 6)))
    ∧ (¬ (s.ucI2C_status = 0x58 ∨ (s.ucI2C_status = 0x50 ∧ activeOpcode s = 6)) →
        s1.mem = s.mem) := by
  rcases switch_status_code s i with ⟨c, e⟩ | ⟨c, e⟩ | ⟨c, e⟩ | ⟨c, e⟩ | ⟨c, e⟩ | ⟨c, e⟩ | ⟨c, e⟩
    | ⟨c, e⟩ | ⟨c, e⟩ | ⟨c, e⟩ | ⟨c, e⟩ | ⟨c, e⟩ | ⟨c, e⟩
  case inr.inl =>
    rw [e] at h
    cases hpend : s.ucI2C_pending <;> cases hq : s.pxI2C_RQ <;>
      simp only [case_0x08, xQueueReceiveFromISR, I2CState.emit, hpend, hq, ↓reduceIte,
        Bool.false_eq_true, Bool.true_eq_false, reduceCtorEq] at h <;>
      (repeat' split at h) <;> (try cases h) <;>
      simp [newEvents]
  case inr.inr.inr.inr.inr.inr.inr.inr.inr.inr.inr.inr =>
    rw [e] at h
    simp only [case_default, Except.ok.injEq] at h
    subst h
    simp [newEvents]
  all_goals
    rw [e] at h
    simp only [case_0x00, case_0x10, case_0x18, case_0x20, case_0x28, case_0x30, case_0x38,
      case_0x40, case_0x48, case_0x50, case_0x58, transmitData, receiveData,
      xI2C_struct.getData, xI2C_struct.setData] at h
    (repeat' split at h) <;> (try cases h) <;>
      simp_all +decide [activeOpcode, I2CState.emit, I2CState.store, newEvents]

/-- The payload accesses of one invocation.  A payload byte of the active
descriptor is read for transmission at the write counter, on the code 0x18
for SendByte and on the code 0x28 for WriteByte and WriteWord; a payload byte
of the active descriptor is stored at the read counter, on the code 0x58 and
on the code 0x50 for ReadWord, and only those steps change a payload byte in
the descriptor memory. -/
theorem vI2C_ISR_payload (s s' : I2CState) (i : IsrIn) (h : vI2C_ISR s i = .ok s') :
    (∀ q k, Event.payloadRead q k ∈ newEvents s s' →
        s.pxI2C = some q ∧ k = s.ucI2C_wr_count ∧ i.I2C0CONSET &&& 0x08 ≠ 0
          ∧ ((i.I2C0STAT % 256 = 0x18 ∧ (s.mem q).opcode = 1)
            ∨ (i.I2C0STAT % 256 = 0x28 ∧ ((s.mem q).opcode = 3 ∨ (s.mem q).opcode = 5))))
    ∧ (∀ q k v, Event.payloadWrite q k v ∈ newEvents s s' →
        s.pxI2C = some q ∧ k = s.ucI2C_rd_count ∧ v = i.I2C0DAT % 256
          ∧ i.I2C0CONSET &&& 0x08 ≠ 0
          ∧ (i.I2C0STAT % 256 = 0x58 ∨ (i.I2C0STAT % 256 = 0x50 ∧ (s.mem q).opcode = 6)))
    ∧ (∀ x, (s'.mem x).data0 ≠ (s.mem x).data0 ∨ (s'.mem x).data1 ≠ (s.mem x).data1 →
        s.pxI2C = some x ∧ i.I2C0CONSET &&& 0x08 ≠ 0
          ∧ (i.I2C0STAT % 256 = 0x58 ∨ (i.I2C0STAT % 256 = 0x50 ∧ (s.mem x).opcode = 6))) := by
  by_cases hsi : i.I2C0CONSET &&& 0x08 ≠ 0
  · obtain ⟨s1, s2, hsw, hterm, em, hev⟩ := vI2C_ISR_parts s s' i hsi h
    obtain ⟨pr, pw, pm⟩ := switch_status_payload _ _ _ hsw
    obtain ⟨er, ew⟩ := epilogueEvents_payload (s2.emit (.write .I2C0CONCLR 0x08))
    have h2 : (∀ q k, Event.payloadRead q k ∉ newEvents s1 s2)
        ∧ (∀ q k v, Event.payloadWrite q k v ∉ newEvents s1 s2)
        ∧ (∀ x, (s2.mem x).data0 = (s1.mem x).data0 ∧ (s2.mem x).data1 = (s1.mem x).data1) := by
      rcases hterm with ⟨_, rfl⟩ | ⟨_, hth⟩
      · simp [newEvents]
      · obtain ⟨a, b⟩ := terminal_handling_payload _ _ _ hth
        obtain ⟨p, _, hm, _⟩ := terminal_handling_mem _ _ _ hth
        refine ⟨a, b, fun x => ?_⟩
        rw [hm]
        by_cases e : x = p
        · subst e; simp
        · simp [Function.update_noteq e]
    refine ⟨fun q k hm => ?_, fun q k v hm => ?_, fun x hx => ?_⟩
    · rw [hev] at hm
      simp only [List.mem_append, List.mem_singleton, reduceCtorEq, false_or, or_false, er,
        h2.1] at hm
      obtain ⟨a, b, c⟩ := pr q k hm
      exact ⟨a, b, hsi, c⟩
    · rw [hev] at hm
      simp only [List.mem_append, List.mem_singleton, reduceCtorEq, false_or, or_false, ew,
        h2.2.1] at hm
      obtain ⟨a, b, c, d⟩ := pw q k v hm
      exact ⟨a, b, c, hsi, d⟩
    · have hx1 : s.pxI2C = some x := by
        by_contra hne
        have e := (vI2C_ISR_mem s s' i h).2.1 x hne
        rw [e] at hx
        simp at hx
      refine ⟨hx1, hsi, ?_⟩
      by_contra hn
      have hm1 : s1.mem = s.mem :=
        pm (by simpa [activeOpcode, isr_latch, isr_prologue, I2CState.emit, hx1] using hn)
      have e := h2.2.2 x
      rw [em, e.1, e.2, hm1] at hx
      simp at hx
  · obtain ⟨e, em, ev⟩ := vI2C_ISR_idle s i hsi
    rw [e] at h
    simp only [Except.ok.injEq] at h
    subst h
    rw [ev, em]
    simp

/-! ### A Quick descriptor's `data[0]` does not reach the interrupt routine -/

/-- The store of a received byte does not depend on `data[0]` of `p`, except
that a store into that very byte replaces it. -/
theorem receiveData_blind (s : I2CState) (i : IsrIn) (q p v : Nat) :
    ∃ v', BlindTo p v' (receiveData s i q) (receiveData (s.withData0 p v) i q) := by
  by_cases hq : q = p
  · subst hq
    by_cases r0 : s.ucI2C_rd_count = 0
    · refine ⟨i.I2C0DAT % 256, ?_⟩
      simp [BlindTo, receiveData, xI2C_struct.setData, r0, I2CState.withData0, I2CState.store,
        I2CState.emit]
    · by_cases r1 : s.ucI2C_rd_count = 1
      · refine ⟨v, ?_⟩
        simp [BlindTo, receiveData, xI2C_struct.setData, r1, I2CState.withData0,
          I2CState.store, I2CState.emit]
      · refine ⟨v, ?_⟩
        simp [BlindTo, receiveData, xI2C_struct.setData, r0, r1, I2CState.withData0,
          I2CState.store]
  · refine ⟨v, ?_⟩
    by_cases r0 : s.ucI2C_rd_count = 0
    · simp [BlindTo, receiveData, xI2C_struct.setData, r0, I2CState.withData0, I2CState.store,
        I2CState.emit, Function.update_noteq hq, Function.update_noteq (Ne.symm hq),
        Function.update_comm hq]
    · by_cases r1 : s.ucI2C_rd_count = 1
      · simp [BlindTo, receiveData, xI2C_struct.setData, r1, I2CState.withData0,
          I2CState.store, I2CState.emit, Function.update_noteq hq,
          Function.update_noteq (Ne.symm hq), Function.update_comm hq]
      · simp [BlindTo, receiveData, xI2C_struct.setData, r0, r1, I2CState.withData0,
          I2CState.store, Function.update_noteq hq]

/-- The case the switch runs on a given code. -/
theorem switch_status_at (s : I2CState) (i : IsrIn) :
    (s.ucI2C_status = 0x00 → switch_status s i = case_0x00 s)
    ∧ (s.ucI2C_status = 0x08 → switch_status s i = case_0x08 s i)
    ∧ (s.ucI2C_status = 0x10 → switch_status s i = case_0x10 s)
    ∧ (s.ucI2C_status = 0x18 → switch_status s i = case_0x18 s)
    ∧ (s.ucI2C_status = 0x20 → switch_status s i = case_0x20 s)
    ∧ (s.ucI2C_status = 0x28 → switch_status s i = case_0x28 s)
    ∧ (s.ucI2C_status = 0x30 → switch_status s i = case_0x30 s)
    ∧ (s.ucI2C_status = 0x38 → switch_status s i = case_0x38 s)
    ∧ (s.ucI2C_status = 0x40 → switch_status s i = case_0x40 s)
    ∧ (s.ucI2C_status = 0x48 → switch_status s i = case_0x48 s)
    ∧ (s.ucI2C_status = 0x50 → switch_status s i = case_0x50 s i)
    ∧ (s.ucI2C_status = 0x58 → switch_status s i = case_0x58 s i)
    ∧ ((s.ucI2C_status ≠ 0x00 ∧ s.ucI2C_status ≠ 0x08 ∧ s.ucI2C_status ≠ 0x10
          ∧ s.ucI2C_status ≠ 0x18 ∧ s.ucI2C_status ≠ 0x20 ∧ s.ucI2C_status ≠ 0x28
          ∧ s.ucI2C_status ≠ 0x30 ∧ s.ucI2C_status ≠ 0x38 ∧ s.ucI2C_status ≠ 0x40
          ∧ s.ucI2C_status ≠ 0x48 ∧ s.ucI2C_status ≠ 0x50 ∧ s.ucI2C_status ≠ 0x58) →
        switch_status s i = case_default s) := by
  refine ⟨?_, ?_, ?_, ?_, ?_, ?_, ?_, ?_, ?_, ?_, ?_, ?_, ?_⟩ <;> intro hc <;>
    unfold switch_status <;> simp [hc]


/-- The start-condition-sent case does not depend on `data[0]` of a Quick
descriptor `p`. -/
theorem case_0x08_blind (s : I2CState) (i : IsrIn) (p v : Nat) (h0 : (s.mem p).opcode = 0) :
    BlindTo p v (case_0x08 s i) (case_0x08 (s.withData0 p v) i) := by
  cases hpend : s.ucI2C_pending with
  | true =>
    cases hp : s.pxI2C with
    | none =>
      simp [BlindTo, case_0x08, I2CState.withData0, I2CState.store, I2CState.emit, hpend, hp]
    | some q =>
      by_cases hqp : q = p
      · subst hqp
        simp [BlindTo, case_0x08, I2CState.withData0, I2CState.store, I2CState.emit, hpend, hp,
          h0]
      · by_cases ho : (s.mem q).opcode = 2 <;>
        simp [BlindTo, case_0x08, I2CState.withData0, I2CState.store, I2CState.emit, hpend, hp,
          ho, Function.update_noteq hqp]
  | false =>
    cases hrq : s.pxI2C_RQ with
    | nil =>
      cases hp : s.pxI2C with
      | none =>
        simp [BlindTo, case_0x08, xQueueReceiveFromISR, I2CState.withData0, I2CState.store,
          I2CState.emit, hpend, hrq, hp]
      | some q =>
        by_cases hqp : q = p
        · subst hqp
          simp [BlindTo, case_0x08, xQueueReceiveFromISR, I2CState.withData0, I2CState.store,
            I2CState.emit, hpend, hrq, hp, h0]
        · by_cases ho : (s.mem q).opcode = 2 <;>
          simp [BlindTo, case_0x08, xQueueReceiveFromISR, I2CState.withData0, I2CState.store,
            I2CState.emit, hpend, hrq, hp, ho, Function.update_noteq hqp]
    | cons q rest =>
      by_cases hqp : q = p
      · subst hqp
        simp [BlindTo, case_0x08, xQueueReceiveFromISR, I2CState.withData0, I2CState.store,
          I2CState.emit, hpend, hrq, h0]
      · by_cases ho : (s.mem q).opcode = 2 <;>
        simp [BlindTo, case_0x08, xQueueReceiveFromISR, I2CState.withData0, I2CState.store,
          I2CState.emit, hpend, hrq, ho, Function.update_noteq hqp]

/-- The cases of the switch that store no received byte do not depend on
`data[0]` of a Quick descriptor `p`. -/
theorem case_blind (s : I2CState) (p v : Nat) (h0 : (s.mem p).opcode = 0) :
    BlindTo p v (case_0x00 s) (case_0x00 (s.withData0 p v))
    ∧ BlindTo p v (case_0x10 s) (case_0x10 (s.withData0 p v))
    ∧ BlindTo p v (case_0x18 s) (case_0x18 (s.withData0 p v))
    ∧ BlindTo p v (case_0x20 s) (case_0x20 (s.withData0 p v))
    ∧ BlindTo p v (case_0x28 s) (case_0x28 (s.withData0 p v))
    ∧ BlindTo p v (case_0x30 s) (case_0x30 (s.withData0 p v))
    ∧ BlindTo p v (case_0x38 s) (case_0x38 (s.withData0 p v))
    ∧ BlindTo p v (case_0x40 s) (case_0x40 (s.withData0 p v))
    ∧ BlindTo p v (case_0x48 s) (case_0x48 (s.withData0 p v))
    ∧ BlindTo p v (case_default s) (case_default (s.withData0 p v)) := by
  refine ⟨rfl, ?_, ?_, rfl, ?_, rfl, rfl, ?_, rfl, rfl⟩
  all_goals
    cases hp : s.pxI2C with
    | none =>
      by_cases hl : s.ucI2C_lostarb = 0 <;>
      simp [BlindTo, case_0x10, case_0x18, case_0x28, case_0x40, I2CState.withData0,
        I2CState.store, I2CState.emit, hp, hl]
    | some q =>
      by_cases hqp : q = p
      · subst hqp
        by_cases hl : s.ucI2C_lostarb = 0 <;>
        simp [BlindTo, case_0x10, case_0x18, case_0x28, case_0x40, I2CState.withData0,
          I2CState.store, I2CState.emit, hp, hl, h0]
      · have hop : (s.mem q).opcode = 0 ∨ (s.mem q).opcode = 1 ∨ (s.mem q).opcode = 2
            ∨ (s.mem q).opcode = 3 ∨ (s.mem q).opcode = 4 ∨ (s.mem q).opcode = 5
            ∨ (s.mem q).opcode = 6
            ∨ ((s.mem q).opcode ≠ 0 ∧ (s.mem q).opcode ≠ 1 ∧ (s.mem q).opcode ≠ 2
              ∧ (s.mem q).opcode ≠ 3 ∧ (s.mem q).opcode ≠ 4 ∧ (s.mem q).opcode ≠ 5
              ∧ (s.mem q).opcode ≠ 6) := by omega
        have hwr : s.ucI2C_wr_count = 0 ∨ s.ucI2C_wr_count = 1
            ∨ (s.ucI2C_wr_count ≠ 0 ∧ s.ucI2C_wr_count ≠ 1 ∧ ¬ s.ucI2C_wr_count ≤ 1) := by
          omega
        by_cases hl : s.ucI2C_lostarb = 0 <;>
        rcases hwr with w | w | w <;>
        rcases hop with ho | ho | ho | ho | ho | ho | ho | ho <;>
        simp [BlindTo, case_0x10, case_0x18, case_0x28, case_0x40, transmitData,
          xI2C_struct.getData, I2CState.withData0, I2CState.store, I2CState.emit, hp, hl, ho, w,
          Function.update_noteq hqp]

/-- The two cases that store a received byte do not depend on `data[0]` of a
Quick descriptor `p`. -/
theorem case_receive_blind (s : I2CState) (i : IsrIn) (p v : Nat)
    (h0 : (s.mem p).opcode = 0) :
    (∃ v', BlindTo p v' (case_0x50 s i) (case_0x50 (s.withData0 p v) i))
    ∧ (∃ v', BlindTo p v' (case_0x58 s i) (case_0x58 (s.withData0 p v) i)) := by
  cases hp : s.pxI2C with
  | none =>
    refine ⟨⟨v, ?_⟩, ⟨v, ?_⟩⟩ <;>
      simp [BlindTo, case_0x50, case_0x58, I2CState.withData0, I2CState.store, hp]
  | some q =>
    constructor
    · by_cases hqp : q = p
      · subst hqp
        refine ⟨v, ?_⟩
        simp [BlindTo, case_0x50, I2CState.withData0, I2CState.store, hp, h0]
      · by_cases ho : (s.mem q).opcode = 6
        · obtain ⟨v', hb⟩ := receiveData_blind
            ({ s with ucI2C_cstate := I2C_RD_DATA_NAK }.emit (.write .I2C0CONCLR 0x04)) i q p v
          refine ⟨v', ?_⟩
          simpa [case_0x50, I2CState.withData0, I2CState.store, I2CState.emit, hp, ho,
            Function.update_noteq hqp] using hb
        · refine ⟨v, ?_⟩
          simp [BlindTo, case_0x50, I2CState.withData0, I2CState.store, hp, ho,
            Function.update_noteq hqp]
    · obtain ⟨v', hb⟩ := receiveData_blind { s with ucI2C_cstate := I2C_STOP } i q p v
      refine ⟨v', ?_⟩
      simpa [case_0x58, I2CState.withData0, I2CState.store, hp] using hb

/-- The switch does not depend on `data[0]` of a Quick descriptor `p`. -/
theorem switch_status_blind (s : I2CState) (i : IsrIn) (p v : Nat)
    (h0 : (s.mem p).opcode = 0) :
    ∃ v', BlindTo p v' (switch_status s i) (switch_status (s.withData0 p v) i) := by
  obtain ⟨a00, a08, a10, a18, a20, a28, a30, a38, a40, a48, a50, a58, adf⟩ :=
    switch_status_at (s.withData0 p v) i
  obtain ⟨b00, b10, b18, b20, b28, b30, b38, b40, b48, bdf⟩ := case_blind s p v h0
  obtain ⟨b50, b58⟩ := case_receive_blind s i p v h0
  rcases switch_status_code s i with ⟨c, e⟩ | ⟨c, e⟩ | ⟨c, e⟩ | ⟨c, e⟩ | ⟨c, e⟩ | ⟨c, e⟩ | ⟨c, e⟩
    | ⟨c, e⟩ | ⟨c, e⟩ | ⟨c, e⟩ | ⟨c, e⟩ | ⟨c, e⟩ | ⟨c, e⟩
  · rw [e, a00 c]; exact ⟨v, b00⟩
  · rw [e, a08 c]; exact ⟨v, case_0x08_blind s i p v h0⟩
  · rw [e, a10 c]; exact ⟨v, b10⟩
  · rw [e, a18 c]; exact ⟨v, b18⟩
  · rw [e, a20 c]; exact ⟨v, b20⟩
  · rw [e, a28 c]; exact ⟨v, b28⟩
  · rw [e, a30 c]; exact ⟨v, b30⟩
  · rw [e, a38 c]; exact ⟨v, b38⟩
  · rw [e, a40 c]; exact ⟨v, b40⟩
  · rw [e, a48 c]; exact ⟨v, b48⟩
  · rw [e, a50 c]; exact b50
  · rw [e, a58 c]; exact b58
  · rw [e, adf c]; exact ⟨v, bdf⟩

/-- The terminal handling does not depend on `data[0]` of `p`. -/
theorem terminal_handling_blind (s : I2CState) (i : IsrIn) (p v : Nat) :
    BlindTo p v (terminal_handling s i) (terminal_handling (s.withData0 p v) i) := by
  cases hp : s.pxI2C with
  | none =>
    simp [BlindTo, terminal_handling, I2CState.withData0, I2CState.store, I2CState.emit, hp]
  | some q =>
    by_cases hqp : q = p
    · subst hqp
      cases hrq : s.pxI2C_RQ <;>
        simp [BlindTo, terminal_handling, xQueueReceiveFromISR, I2CState.withData0,
          I2CState.store, I2CState.emit, hp, hrq]
    · cases hrq : s.pxI2C_RQ <;>
        simp [BlindTo, terminal_handling, xQueueReceiveFromISR, I2CState.withData0,
          I2CState.store, I2CState.emit, hp, hrq, Function.update_noteq hqp,
          Function.update_noteq (Ne.symm hqp), Function.update_comm hqp]

/-- The epilogue does not depend on the descriptor memory. -/
theorem isr_epilogue_blind (s : I2CState) (p v : Nat) :
    isr_epilogue (s.withData0 p v) = (isr_epilogue s).withData0 p v := by
  rw [isr_epilogue_eq, isr_epilogue_eq]
  rfl

/-- One invocation of the interrupt routine does not depend on `data[0]` of a
Quick descriptor `p`: with that byte changed it ends in the same fault, or in
the same state up to that byte. -/
theorem vI2C_ISR_blind (s : I2CState) (i : IsrIn) (p v : Nat) (h0 : (s.mem p).opcode = 0) :
    ∃ v', BlindTo p v' (vI2C_ISR s i) (vI2C_ISR (s.withData0 p v) i) := by
  rw [vI2C_ISR_unfold, vI2C_ISR_unfold]
  by_cases hsi : i.I2C0CONSET &&& 0x08 ≠ 0
  · rw [if_pos hsi, if_pos hsi]
    obtain ⟨v1, hb⟩ := switch_status_blind (isr_latch (isr_prologue s) i) i p v h0
    have e0 : isr_latch (isr_prologue (s.withData0 p v)) i
        = (isr_latch (isr_prologue s) i).withData0 p v := rfl
    rw [e0]
    cases hsw : switch_status (isr_latch (isr_prologue s) i) i with
    | error f =>
      rw [hsw] at hb
      simp only [BlindTo] at hb
      rw [hb]
      exact ⟨v, rfl⟩
    | ok s1 =>
      rw [hsw] at hb
      simp only [BlindTo] at hb
      rw [hb]
      have ec : (s1.withData0 p v1).ucI2C_cstate = s1.ucI2C_cstate := rfl
      simp only [ec]
      by_cases ht : s1.ucI2C_cstate = I2C_STOP ∨ s1.ucI2C_cstate = I2C_ERROR_STOP
      · rw [if_pos ht, if_pos ht]
        have hth := terminal_handling_blind s1 i p v1
        cases hr : terminal_handling s1 i with
        | error f =>
          rw [hr] at hth
          simp only [BlindTo] at hth
          rw [hth]
          exact ⟨v, rfl⟩
        | ok s2 =>
          rw [hr] at hth
          simp only [BlindTo] at hth
          rw [hth]
          refine ⟨v1, ?_⟩
          simp only [BlindTo]
          exact congrArg Except.ok (isr_epilogue_blind (s2.emit (.write .I2C0CONCLR 0x08)) p v1)
      · rw [if_neg ht, if_neg ht]
        refine ⟨v1, ?_⟩
        simp only [BlindTo]
        exact congrArg Except.ok (isr_epilogue_blind (s1.emit (.write .I2C0CONCLR 0x08)) p v1)
  · rw [if_neg hsi, if_neg hsi]
    refine ⟨v, ?_⟩
    simp only [BlindTo]
    exact congrArg Except.ok (isr_epilogue_blind (isr_prologue s) p v)

/-- A sequence of invocations does not depend on `data[0]` of a Quick
descriptor `p`. -/
theorem runISR_blind (is : List IsrIn) (s : I2CState) (p v : Nat)
    (h0 : (s.mem p).opcode = 0) :
    ∃ v', BlindTo p v' (runISR s is) (runISR (s.withData0 p v) is) := by
  induction is generalizing s v with
  | nil => exact ⟨v, rfl⟩
  | cons i is ih =>
    obtain ⟨v1, hb⟩ := vI2C_ISR_blind s i p v h0
    simp only [runISR]
    cases hs : vI2C_ISR s i with
    | error f =>
      rw [hs] at hb
      simp only [BlindTo] at hb
      rw [hb]
      exact ⟨v, rfl⟩
    | ok s1 =>
      rw [hs] at hb
      simp only [BlindTo] at hb
      rw [hb]
      have h1 : (s1.mem p).opcode = 0 := by
        rw [((vI2C_ISR_mem s s1 i hs).1 p).2.2.1]; exact h0
      exact ih s1 v1 h1

/-- The submission does not depend on `data[0]` of `p`. -/
theorem submit_blind (s : I2CState) (p v : Nat) :
    prvI2C_Transaction_submit (s.withData0 p v) p
      = ((prvI2C_Transaction_submit s p).1.withData0 p v, (prvI2C_Transaction_submit s p).2) := by
  by_cases hroom : s.pxI2C_RQ.length < s.uxQueueLength <;> cases hb : s.ucI2C_busy <;>
    simp [prvI2C_Transaction_submit, prvI2C_Transaction_send, prvI2C_Transaction_critical,
      I2CState.withData0, I2CState.store, I2CState.emit, hroom, hb]

/-- Submit-and-wait on a Quick descriptor `p` does not depend on `data[0]` of
`p`. -/
theorem prvI2C_Transaction_blind (s : I2CState) (p v : Nat) (env : WaitEnv)
    (h0 : (s.mem p).opcode = 0) :
    ∃ v', BlindTo p v' (prvI2C_Transaction s p env)
      (prvI2C_Transaction (s.withData0 p v) p env) := by
  unfold prvI2C_Transaction
  rw [submit_blind]
  simp only
  have h1 : ((prvI2C_Transaction_submit s p).1.mem p).opcode = 0 := by
    rw [(submit_sameRequest s p p).2.2.1]; exact h0
  generalize (prvI2C_Transaction_submit s p).1 = S0 at h1 ⊢
  cases hsub : (prvI2C_Transaction_submit s p).2 with
  | false => exact ⟨v, rfl⟩
  | true =>
    simp only [↓reduceIte]
    unfold prvI2C_Transaction_wait
    obtain ⟨v1, hb⟩ := runISR_blind env.duringWait S0 p v h1
    cases hw : runISR S0 env.duringWait with
    | error f =>
      rw [hw] at hb
      simp only [BlindTo] at hb
      rw [hb]
      exact ⟨v, rfl⟩
    | ok s1 =>
      rw [hw] at hb
      simp only [BlindTo] at hb
      rw [hb]
      have h2 : (s1.mem p).opcode = 0 := by
        rw [(runISR_sameRequest _ _ _ hw p).2.2.1]; exact h1
      have eh : ((s1.withData0 p v1).mem p).pxHandle = (s1.mem p).pxHandle := by
        simp [I2CState.withData0, I2CState.store]
      have es : ((s1.withData0 p v1).mem p).status = (s1.mem p).status := by
        simp [I2CState.withData0, I2CState.store]
      simp only [I2CState.emit, eh, es]
      by_cases hc : env.received ≠ true ∨ (s1.mem p).status ≠ 0
      · rw [if_pos hc, if_pos hc]
        exact runISR_blind env.duringDelay
          ((s1.emit (.xQueueReceive (s1.mem p).pxHandle 35 env.received)).emit (.vTaskDelay 35))
          p v1 h2
      · rw [if_neg hc, if_neg hc]
        exact ⟨v1, rfl⟩

/-- Two stretches without a read of the payload of `p` make one. -/
theorem noPayloadRead_trans {p : Nat} {s s1 s2 : I2CState} (h1 : NoPayloadRead p s s1)
    (h2 : NoPayloadRead p s1 s2) : NoPayloadRead p s s2 := by
  obtain ⟨N1, t1, n1⟩ := h1
  obtain ⟨N2, t2, n2⟩ := h2
  refine ⟨N1 ++ N2, by rw [t2, t1, List.append_assoc], fun k hm => ?_⟩
  rcases List.mem_append.mp hm with hm | hm
  · exact n1 k hm
  · exact n2 k hm

/-- An invocation does not read the payload of a Quick descriptor. -/
theorem vI2C_ISR_noPayloadRead (s s' : I2CState) (i : IsrIn) (p : Nat)
    (h : vI2C_ISR s i = .ok s') (h0 : (s.mem p).opcode = 0) : NoPayloadRead p s s' := by
  refine ⟨newEvents s s', (vI2C_ISR_effect s s' i h).1, fun k hm => ?_⟩
  obtain ⟨_, _, _, ho⟩ := (vI2C_ISR_payload s s' i h).1 p k hm
  omega

/-- A sequence of invocations does not read the payload of a Quick
descriptor. -/
theorem runISR_noPayloadRead (is : List IsrIn) (s s' : I2CState) (p : Nat)
    (h : runISR s is = .ok s') (h0 : (s.mem p).opcode = 0) : NoPayloadRead p s s' := by
  induction is generalizing s with
  | nil =>
    simp only [runISR, Except.ok.injEq] at h
    rw [← h]
    exact ⟨[], by simp, by simp⟩
  | cons i is ih =>
    simp only [runISR] at h
    cases hs : vI2C_ISR s i with
    | error f => rw [hs] at h; cases h
    | ok s1 =>
      rw [hs] at h
      have h1 : (s1.mem p).opcode = 0 := by
        rw [((vI2C_ISR_mem s s1 i hs).1 p).2.2.1]; exact h0
      exact noPayloadRead_trans (vI2C_ISR_noPayloadRead s s1 i p hs h0) (ih s1 h h1)

/-- Submit-and-wait on a Quick descriptor does not read its payload. -/
theorem prvI2C_Transaction_noPayloadRead (s s' : I2CState) (p : Nat) (env : WaitEnv)
    (h : prvI2C_Transaction s p env = .ok s') (h0 : (s.mem p).opcode = 0) :
    NoPayloadRead p s s' := by
  have hsub : NoPayloadRead p s (prvI2C_Transaction_submit s p).1 := by
    by_cases hroom : s.pxI2C_RQ.length < s.uxQueueLength <;> cases hb : s.ucI2C_busy <;>
      simp [NoPayloadRead, prvI2C_Transaction_submit, prvI2C_Transaction_send,
        prvI2C_Transaction_critical, I2CState.store, I2CState.emit, hroom, hb]
  have h1 : ((prvI2C_Transaction_submit s p).1.mem p).opcode = 0 := by
    rw [(submit_sameRequest s p p).2.2.1]; exact h0
  unfold prvI2C_Transaction at h
  cases hs2 : (prvI2C_Transaction_submit s p).2 with
  | false =>
    simp only [hs2, Bool.false_eq_true, ↓reduceIte, Except.ok.injEq] at h
    rw [← h]; exact hsub
  | true =>
    simp only [hs2, ↓reduceIte] at h
    unfold prvI2C_Transaction_wait at h
    generalize (prvI2C_Transaction_submit s p).1 = S0 at h hsub h1
    cases hw : runISR S0 env.duringWait with
    | error f => rw [hw] at h; cases h
    | ok s1 =>
      rw [hw] at h
      simp only at h
      have h2 : (s1.mem p).opcode = 0 := by
        rw [(runISR_sameRequest _ _ _ hw p).2.2.1]; exact h1
      have n1 := noPayloadRead_trans hsub (runISR_noPayloadRead _ _ _ p hw h1)
      have e1 : NoPayloadRead p s1
          (s1.emit (.xQueueReceive (s1.mem p).pxHandle 35 env.received)) :=
        ⟨[_], rfl, by simp⟩
      by_cases hc : env.received ≠ true ∨
          ((s1.emit (.xQueueReceive (s1.mem p).pxHandle 35 env.received)).mem p).status ≠ 0
      · rw [if_pos hc] at h
        have e2 : NoPayloadRead p
            (s1.emit (.xQueueReceive (s1.mem p).pxHandle 35 env.received))
            ((s1.emit (.xQueueReceive (s1.mem p).pxHandle 35 env.received)).emit
              (.vTaskDelay 35)) := ⟨[_], rfl, by simp⟩
        exact noPayloadRead_trans (noPayloadRead_trans (noPayloadRead_trans n1 e1) e2)
          (runISR_noPayloadRead _ _ _ p h h2)
      · rw [if_neg hc] at h
        simp only [Except.ok.injEq] at h
        rw [← h]
        exact noPayloadRead_trans n1 e1
/-! ### The claims -/

/-- Claim C1: `write_byte(a, c, d)` on an idle driver, driven by the phase codes
0x08, 0x18, 0x28, 0x28, returns status 0; the bus sees the start command, the
bytes `(a << 1) mod 256`, `c`, `d` in that order and then the stop command,
and the descriptor's status is 0. -/
theorem C1_write_byte_scenario (s : I2CState) (p a c d x0 x1 x2 x3 : Nat) (received : Bool)
    (hbusy : s.ucI2C_busy = false) (hrq : s.pxI2C_RQ = []) (hpend : s.ucI2C_pending = false)
    (hcap : 0 < s.uxQueueLength) :
    ∃ r, ucI2C_WriteByte s p a c d
          ⟨[irq 0x08 x0, irq 0x18 x1, irq 0x28 x2, irq 0x28 x3], received, []⟩ = .ok r
      ∧ r.2 = 0
      ∧ dataWrites (newEvents s r.1) = [(a <<< 1) % 256, c, d]
      ∧ busOps (newEvents s r.1)
          = [.start, .data ((a <<< 1) % 256), .data c, .data d, .stop]
      ∧ (r.1.mem p).status = 0 := by
  apply exists_ok_of_match
  cases received <;>
  simp +decide [ucI2C_WriteByte, transact, prvI2C_Transaction, prvI2C_Transaction_submit, prvI2C_Transaction_send,
    prvI2C_Transaction_critical,
    prvI2C_Transaction_wait, runISR, vI2C_ISR, switch_status, case_0x08, case_0x18, case_0x28,
    terminal_handling, isr_epilogue, transmitData, xQueueReceiveFromISR, I2CState.emit,
    I2CState.store, irq, hbusy, hrq, hpend, hcap, xI2C_struct.getData, I2C_WriteByte, I2C_STOP,
    I2C_ERROR_STOP, I2C_WR_ADDR, I2C_WR_DATA, I2C_COMMAND, I2C_START, newEvents, busOps,
    Event.busOps, dataWrites]

/-- Claim C1 at the scenario of the specification: address 0x08, command 0xCC, data
0xBB on the freshly initialised driver give 0x10, 0xCC, 0xBB on the bus. -/
theorem C1_write_byte_scenario_witness :
    ∃ r, ucI2C_WriteByte idle 5 0x08 0xCC 0xBB
          ⟨[irq 0x08 0, irq 0x18 0, irq 0x28 0, irq 0x28 0], true, []⟩ = .ok r
      ∧ r.2 = 0
      ∧ dataWrites (newEvents idle r.1) = [0x10, 0xCC, 0xBB]
      ∧ busOps (newEvents idle r.1) = [.start, .data 0x10, .data 0xCC, .data 0xBB, .stop]
      ∧ (r.1.mem 5).status = 0 :=
  C1_write_byte_scenario idle 5 0x08 0xCC 0xBB 0 0 0 0 true rfl rfl rfl (by decide)

/-- Claim C2: a `read_word` on an idle driver driven by 0x08, 0x18, 0x28, 0x10, 0x40,
0x50 (byte `b0`), 0x58 (byte `b1`).  Nothing is stored during the first five
steps; the 0x50 step disables the acknowledge, stores `b0` in `payload[0]` and
only then clears the interrupt flag (which lets the controller fetch the final
byte), leaving `payload[1]` untouched; the 0x58 step stores `b1` in
`payload[1]` and ends the transaction with status 0, which the call returns. -/
theorem C2_read_word_store_order (s : I2CState) (p a c b0 b1 x0 x1 x2 x3 x4 : Nat)
    (received : Bool)
    (hbusy : s.ucI2C_busy = false) (hrq : s.pxI2C_RQ = []) (hpend : s.ucI2C_pending = false)
    (hcap : 0 < s.uxQueueLength) (hb0 : b0 < 256) (hb1 : b1 < 256) :
    ∃ s5, runISR
        (prvI2C_Transaction_submit
          (s.store p { s.mem p with opcode := I2C_ReadWord, addr := a, comm := c }) p).1
        [irq 0x08 x0, irq 0x18 x1, irq 0x28 x2, irq 0x10 x3, irq 0x40 x4] = .ok s5
      ∧ payloadWrites (newEvents s s5) = []
      ∧ (s5.mem p).data0 = (s.mem p).data0 ∧ (s5.mem p).data1 = (s.mem p).data1
      ∧ ∃ s6, vI2C_ISR s5 (irq 0x50 b0) = .ok s6
        ∧ newEvents s5 s6 =
            [.write .FIOSET 0x04000000, .write .I2C0CONCLR 0x04, .payloadWrite p 0 b0,
             .write .I2C0CONCLR 0x08, .write .VICVectAddr 0, .write .FIOCLR 0x04000000]
        ∧ (s6.mem p).data0 = b0 ∧ (s6.mem p).data1 = (s.mem p).data1
        ∧ ∃ s7, vI2C_ISR s6 (irq 0x58 b1) = .ok s7
          ∧ payloadWrites (newEvents s6 s7) = [(p, 1, b1)]
          ∧ (s7.mem p).data0 = b0 ∧ (s7.mem p).data1 = b1 ∧ (s7.mem p).status = 0
          ∧ ∃ r, ucI2C_ReadWord s p a c
                ⟨[irq 0x08 x0, irq 0x18 x1, irq 0x28 x2, irq 0x10 x3, irq 0x40 x4,
                  irq 0x50 b0, irq 0x58 b1], received, []⟩ = .ok r
            ∧ r.2 = 0 ∧ (r.1.mem p).data0 = b0 ∧ (r.1.mem p).data1 = b1 := by
  have h0 : b0 % 256 = b0 := Nat.mod_eq_of_lt hb0
  have h1 : b1 % 256 = b1 := Nat.mod_eq_of_lt hb1
  cases received <;>
  simp +decide [ucI2C_ReadWord, transact, prvI2C_Transaction, prvI2C_Transaction_submit, prvI2C_Transaction_send,
    prvI2C_Transaction_critical,
    prvI2C_Transaction_wait, runISR, vI2C_ISR, switch_status, case_0x08, case_0x18, case_0x28,
    case_0x10, case_0x40, case_0x50, case_0x58, receiveData, terminal_handling, isr_epilogue,
    xQueueReceiveFromISR, I2CState.emit, I2CState.store, irq, hbusy, hrq, hpend, hcap,
    xI2C_struct.setData, I2C_ReadWord, I2C_STOP, I2C_ERROR_STOP, I2C_WR_ADDR, I2C_COMMAND,
    I2C_START, I2C_RSTART, I2C_RD_ADDR, I2C_RD_ADDR_ACK, I2C_RD_DATA_NAK, newEvents,
    payloadWrites, h0, h1]

/-- Claim C2 on the freshly initialised driver with address 0x40, command 0x77 and
received bytes 0xA1, 0xB2. -/
theorem C2_read_word_store_order_witness :
    ∃ s5, runISR
        (prvI2C_Transaction_submit
          (idle.store 5 { idle.mem 5 with opcode := I2C_ReadWord, addr := 0x40, comm := 0x77 })
          5).1
        [irq 0x08 0, irq 0x18 0, irq 0x28 0, irq 0x10 0, irq 0x40 0] = .ok s5
      ∧ payloadWrites (newEvents idle s5) = []
      ∧ (s5.mem 5).data0 = (idle.mem 5).data0 ∧ (s5.mem 5).data1 = (idle.mem 5).data1
      ∧ ∃ s6, vI2C_ISR s5 (irq 0x50 0xA1) = .ok s6
        ∧ newEvents s5 s6 =
            [.write .FIOSET 0x04000000, .write .I2C0CONCLR 0x04, .payloadWrite 5 0 0xA1,
             .write .I2C0CONCLR 0x08, .write .VICVectAddr 0, .write .FIOCLR 0x04000000]
        ∧ (s6.mem 5).data0 = 0xA1 ∧ (s6.mem 5).data1 = (idle.mem 5).data1
        ∧ ∃ s7, vI2C_ISR s6 (irq 0x58 0xB2) = .ok s7
          ∧ payloadWrites (newEvents s6 s7) = [(5, 1, 0xB2)]
          ∧ (s7.mem 5).data0 = 0xA1 ∧ (s7.mem 5).data1 = 0xB2 ∧ (s7.mem 5).status = 0
          ∧ ∃ r, ucI2C_ReadWord idle 5 0x40 0x77
                ⟨[irq 0x08 0, irq 0x18 0, irq 0x28 0, irq 0x10 0, irq 0x40 0,
                  irq 0x50 0xA1, irq 0x58 0xB2], true, []⟩ = .ok r
            ∧ r.2 = 0 ∧ (r.1.mem 5).data0 = 0xA1 ∧ (r.1.mem 5).data1 = 0xB2 :=
  C2_read_word_store_order idle 5 0x40 0x77 0xA1 0xB2 0 0 0 0 0 true rfl rfl rfl
    (by decide) (by decide) (by decide)

/-- Claim C3, as stated, fails.  A WriteWord transaction (descriptor 5, payload
0x88, 0x00) that loses arbitration after `payload[0]` and is restarted by a
second start-sent step: between the first start-sent step and the next
terminal step the payload indices read for transmission are 0, 0, 1, so
`payload[0]` goes to the data register twice in that span. -/
theorem C3_second_start_resends_payload :
    ∃ s1 r, vI2C_ISR wordSubmitted (irq 0x08 0) = .ok s1 ∧ startSent (irq 0x08 0) = true
      ∧ s1.pxI2C = some 5 ∧ (s1.mem 5).opcode = I2C_WriteWord
      ∧ runToTerminal s1 [irq 0x18 0, irq 0x28 0, irq 0x38 0, irq 0x08 0, irq 0x18 0,
          irq 0x28 0, irq 0x28 0, irq 0x28 0] = .ok r
      ∧ r.2 = [] ∧ terminalStep (irq 0x28 0) r.1 = true
      ∧ payloadReads (newEvents wordSubmitted r.1) = [0, 0, 1]
      ∧ dataWrites (newEvents wordSubmitted r.1) = [0x40, 0x99, 0x88, 0x40, 0x99, 0x88, 0x00]
      ∧ ¬ payloadReads (newEvents wordSubmitted r.1) <+: [0, 1] :=
  ⟨okOr idle (vI2C_ISR wordSubmitted (irq 0x08 0)),
   okOr (idle, []) (runToTerminal (okOr idle (vI2C_ISR wordSubmitted (irq 0x08 0)))
      [irq 0x18 0, irq 0x28 0, irq 0x38 0, irq 0x08 0, irq 0x18 0, irq 0x28 0, irq 0x28 0,
        irq 0x28 0]),
   rfl, rfl, rfl, rfl, rfl, rfl, rfl, by decide, by decide, by decide⟩

/-- Claim C3, amended.  Take a start-sent (0x08) step that leaves a WriteWord
descriptor `p` active, and any sequence of further interrupts none of which is
another start-sent step.  Running them up to the next terminal step never
faults, and the payload indices read for transmission from the start-sent
step on form a prefix of 0, 1: `payload[1]` is transmitted only after
`payload[0]`, and each at most once. -/
theorem C3_write_word_payload_order (s0 s1 : I2CState) (i0 : IsrIn) (p : Nat)
    (is : List IsrIn)
    (h0 : vI2C_ISR s0 i0 = .ok s1) (hstart : startSent i0 = true)
    (hp : s1.pxI2C = some p) (hop : (s1.mem p).opcode = I2C_WriteWord)
    (hns : ∀ i ∈ is, startSent i = false) :
    ∃ r, runToTerminal s1 is = .ok r ∧ payloadReads (newEvents s0 r.1) <+: [0, 1] := by
  obtain ⟨w, rd, t1, g1⟩ := start_step s0 s1 i0 h0 hstart
  obtain ⟨r, hr, tr, pr⟩ := word_run is s1 p 0 ⟨hp, hop, w, rd⟩ (by omega) hns
  refine ⟨r, hr, ?_⟩
  have htr : r.1.trace = s0.trace ++ (newEvents s0 s1 ++ newEvents s1 r.1) := by
    rw [tr, t1, List.append_assoc]
  rw [newEvents_of_eq htr, payloadReads_append, g1, List.nil_append]
  simpa [List.range_succ] using pr

/-- Claim C3 amended, at the camera task's `write_word(0x20, 0x99, 0x88)` driven by
0x08, 0x18, 0x28, 0x28, 0x28. -/
theorem C3_write_word_payload_order_witness :
    ∃ r, runToTerminal (okOr idle (vI2C_ISR wordSubmitted (irq 0x08 0)))
          [irq 0x18 0, irq 0x28 0, irq 0x28 0, irq 0x28 0] = .ok r
      ∧ payloadReads (newEvents wordSubmitted r.1) <+: [0, 1] :=
  C3_write_word_payload_order wordSubmitted (okOr idle (vI2C_ISR wordSubmitted (irq 0x08 0)))
    (irq 0x08 0) 5 [irq 0x18 0, irq 0x28 0, irq 0x28 0, irq 0x28 0] rfl rfl rfl rfl
    (by decide)

set_option maxHeartbeats 1000000 in
/-- Claim C4: with an active descriptor `p`, a step on the address-NAK codes 0x20
or 0x48 is terminal whatever the opcode and the protocol state: the stop
command is issued, the status of `p` becomes the nonzero `I2C_ERROR_STOP`,
the completion queue of `p` is signalled once, nothing is written to the data
register, and the payload bytes of `p` are unchanged. -/
theorem C4_address_nak_terminal (s : I2CState) (i : IsrIn) (p : Nat)
    (hp : s.pxI2C = some p) (hsi : i.I2C0CONSET &&& 0x08 ≠ 0)
    (hcode : i.I2C0STAT % 256 = 0x20 ∨ i.I2C0STAT % 256 = 0x48) :
    ∃ s', vI2C_ISR s i = .ok s'
      ∧ terminalStep i s' = true
      ∧ BusOp.stop ∈ busOps (newEvents s s')
      ∧ (s'.mem p).status = I2C_ERROR_STOP ∧ (s'.mem p).status ≠ 0
      ∧ completionSignals (newEvents s s') = [(p, (s.mem p).pxHandle)]
      ∧ dataWrites (newEvents s s') = []
      ∧ payloadWrites (newEvents s s') = []
      ∧ (s'.mem p).data0 = (s.mem p).data0 ∧ (s'.mem p).data1 = (s.mem p).data1 := by
  rcases hcode with h | h <;> cases hq : s.pxI2C_RQ <;> cases hw : i.responseWoke <;>
    cases hn : i.newRequestWoke <;>
  simp +decide [vI2C_ISR, switch_status, case_0x20, case_0x48, terminal_handling, isr_epilogue,
    xQueueReceiveFromISR, I2CState.emit, I2CState.store, terminalStep, hp, hsi, h, hq, hw, hn,
    I2C_STOP, I2C_ERROR_STOP, newEvents, busOps, Event.busOps, dataWrites, payloadWrites,
    completionSignals]

/-- Claim C4 at a concrete state: descriptor 5 active in the initialised driver, code 0x20. -/
theorem C4_address_nak_terminal_witness :
    ∃ s', vI2C_ISR { idle with pxI2C := some 5 } (irq 0x20 0) = .ok s'
      ∧ terminalStep (irq 0x20 0) s' = true
      ∧ BusOp.stop ∈ busOps (newEvents { idle with pxI2C := some 5 } s')
      ∧ (s'.mem 5).status = I2C_ERROR_STOP ∧ (s'.mem 5).status ≠ 0
      ∧ completionSignals (newEvents { idle with pxI2C := some 5 } s')
          = [(5, ({ idle with pxI2C := some 5 } : I2CState).mem 5 |>.pxHandle)]
      ∧ dataWrites (newEvents { idle with pxI2C := some 5 } s') = []
      ∧ payloadWrites (newEvents { idle with pxI2C := some 5 } s') = []
      ∧ (s'.mem 5).data0 = (({ idle with pxI2C := some 5 } : I2CState).mem 5).data0
      ∧ (s'.mem 5).data1 = (({ idle with pxI2C := some 5 } : I2CState).mem 5).data1 :=
  C4_address_nak_terminal { idle with pxI2C := some 5 } (irq 0x20 0) 5 rfl (by decide)
    (Or.inl (by decide))

/-- Claim C5: `read_word(a, c)` on an idle driver driven by 0x08, 0x18, 0x28, 0x10,
0x48 returns the nonzero status `I2C_ERROR_STOP`, leaves both payload bytes as
they were before the call, and has written to the data register exactly
`(a << 1) mod 256`, `c`, `((a << 1) mod 256) | 1`. -/
theorem C5_read_word_address_nak (s : I2CState) (p a c x0 x1 x2 x3 x4 : Nat) (received : Bool)
    (hbusy : s.ucI2C_busy = false) (hrq : s.pxI2C_RQ = []) (hpend : s.ucI2C_pending = false)
    (hcap : 0 < s.uxQueueLength) :
    ∃ r, ucI2C_ReadWord s p a c
          ⟨[irq 0x08 x0, irq 0x18 x1, irq 0x28 x2, irq 0x10 x3, irq 0x48 x4], received, []⟩ = .ok r
      ∧ r.2 = I2C_ERROR_STOP ∧ r.2 ≠ 0
      ∧ (r.1.mem p).data0 = (s.mem p).data0 ∧ (r.1.mem p).data1 = (s.mem p).data1
      ∧ payloadWrites (newEvents s r.1) = []
      ∧ dataWrites (newEvents s r.1) = [(a <<< 1) % 256, c, ((a <<< 1) % 256) ||| 1] := by
  apply exists_ok_of_match
  cases received <;>
  simp +decide [ucI2C_ReadWord, transact, prvI2C_Transaction, prvI2C_Transaction_submit, prvI2C_Transaction_send,
    prvI2C_Transaction_critical,
    prvI2C_Transaction_wait, runISR, vI2C_ISR, switch_status, case_0x08, case_0x18, case_0x28,
    case_0x10, case_0x48, terminal_handling, isr_epilogue, xQueueReceiveFromISR, I2CState.emit,
    I2CState.store, irq, hbusy, hrq, hpend, hcap, I2C_ReadWord, I2C_STOP, I2C_ERROR_STOP,
    I2C_WR_ADDR, I2C_COMMAND, I2C_START, I2C_RSTART, I2C_RD_ADDR, newEvents, dataWrites,
    payloadWrites]

/-- Claim C5 at the scenario of the specification: address 0x40, command 0x77. -/
theorem C5_read_word_address_nak_witness :
    ∃ r, ucI2C_ReadWord idle 5 0x40 0x77
          ⟨[irq 0x08 0, irq 0x18 0, irq 0x28 0, irq 0x10 0, irq 0x48 0], true, []⟩ = .ok r
      ∧ r.2 = I2C_ERROR_STOP ∧ r.2 ≠ 0
      ∧ (r.1.mem 5).data0 = (idle.mem 5).data0 ∧ (r.1.mem 5).data1 = (idle.mem 5).data1
      ∧ payloadWrites (newEvents idle r.1) = []
      ∧ dataWrites (newEvents idle r.1) = [0x80, 0x77, 0x81] :=
  C5_read_word_address_nak idle 5 0x40 0x77 0 0 0 0 0 true rfl rfl rfl (by decide)
/-- Claim C6: when the request queue is full, each of the seven transaction
operations returns the sentinel status 0xFF, and the failed `xQueueSend` is
the only thing it does: no register is written (so no start command), there
is no completion wait and no recovery delay, and the busy flag and the queue
contents are unchanged. -/
theorem C6_queue_full_rejected (s : I2CState) (p addr cmd data : Nat) (env : WaitEnv)
    (hfull : s.uxQueueLength ≤ s.pxI2C_RQ.length) :
    (∃ r, ucI2C_Quick s p addr data env = .ok r ∧ Rejected s p r)
    ∧ (∃ r, ucI2C_SendByte s p addr data env = .ok r ∧ Rejected s p r)
    ∧ (∃ r, ucI2C_ReceiveByte s p addr env = .ok r ∧ Rejected s p r)
    ∧ (∃ r, ucI2C_WriteByte s p addr cmd data env = .ok r ∧ Rejected s p r)
    ∧ (∃ r, ucI2C_ReadByte s p addr cmd env = .ok r ∧ Rejected s p r)
    ∧ (∃ r, ucI2C_WriteWord s p addr cmd data env = .ok r ∧ Rejected s p r)
    ∧ (∃ r, ucI2C_ReadWord s p addr cmd env = .ok r ∧ Rejected s p r) := by
  have h : ¬ s.pxI2C_RQ.length < s.uxQueueLength := Nat.not_lt.mpr hfull
  refine ⟨?_, ?_, ?_, ?_, ?_, ?_, ?_⟩ <;>
  simp [ucI2C_Quick, ucI2C_SendByte, ucI2C_ReceiveByte, ucI2C_WriteByte, ucI2C_ReadByte,
    ucI2C_WriteWord, ucI2C_ReadWord, transact, prvI2C_Transaction, prvI2C_Transaction_submit, prvI2C_Transaction_send,
    prvI2C_Transaction_critical,
    I2CState.store, I2CState.emit, h, Rejected, newEvents, regWrites, startCount, busOps,
    Event.busOps]

/-- Claim C6 on the initialised driver whose one-slot queue already holds a
request. -/
theorem C6_queue_full_rejected_witness :
    (∃ r, ucI2C_Quick { idle with pxI2C_RQ := [9] } 5 0x01 0xEE ⟨[], false, []⟩ = .ok r
        ∧ Rejected { idle with pxI2C_RQ := [9] } 5 r)
    ∧ (∃ r, ucI2C_SendByte { idle with pxI2C_RQ := [9] } 5 0x01 0xEE ⟨[], false, []⟩ = .ok r
        ∧ Rejected { idle with pxI2C_RQ := [9] } 5 r)
    ∧ (∃ r, ucI2C_ReceiveByte { idle with pxI2C_RQ := [9] } 5 0x01 ⟨[], false, []⟩ = .ok r
        ∧ Rejected { idle with pxI2C_RQ := [9] } 5 r)
    ∧ (∃ r, ucI2C_WriteByte { idle with pxI2C_RQ := [9] } 5 0x01 0xCC 0xEE ⟨[], false, []⟩
          = .ok r
        ∧ Rejected { idle with pxI2C_RQ := [9] } 5 r)
    ∧ (∃ r, ucI2C_ReadByte { idle with pxI2C_RQ := [9] } 5 0x01 0xCC ⟨[], false, []⟩ = .ok r
        ∧ Rejected { idle with pxI2C_RQ := [9] } 5 r)
    ∧ (∃ r, ucI2C_WriteWord { idle with pxI2C_RQ := [9] } 5 0x01 0xCC 0xEE ⟨[], false, []⟩
          = .ok r
        ∧ Rejected { idle with pxI2C_RQ := [9] } 5 r)
    ∧ (∃ r, ucI2C_ReadWord { idle with pxI2C_RQ := [9] } 5 0x01 0xCC ⟨[], false, []⟩ = .ok r
        ∧ Rejected { idle with pxI2C_RQ := [9] } 5 r) :=
  C6_queue_full_rejected { idle with pxI2C_RQ := [9] } 5 0x01 0xCC 0xEE ⟨[], false, []⟩
    (by decide)

/-- Claim C7: whatever the state `c` in which the critical section of
submit-and-wait is entered, it is left with the busy flag true; if the flag
was false on entry the start command `WRITE(I2C0CONSET, 0x20)` is its one
register write, and if it was true it writes no register.  When the enqueue
succeeds and no interrupt is serviced during the call, the whole of
`prvI2C_Transaction` issues the start command once in the first case and
never in the second, and the busy flag is true afterwards. -/
theorem C7_start_once_when_idle (s c : I2CState) (p : Nat) (received : Bool)
    (hroom : s.pxI2C_RQ.length < s.uxQueueLength) :
    (prvI2C_Transaction_critical c).ucI2C_busy = true
    ∧ (c.ucI2C_busy = false →
        regWrites (newEvents c (prvI2C_Transaction_critical c)) = [(.I2C0CONSET, 0x20)]
        ∧ startCount (newEvents c (prvI2C_Transaction_critical c)) = 1)
    ∧ (c.ucI2C_busy = true →
        regWrites (newEvents c (prvI2C_Transaction_critical c)) = []
        ∧ startCount (newEvents c (prvI2C_Transaction_critical c)) = 0)
    ∧ (prvI2C_Transaction_send s p).2 = true
    ∧ ∃ s', prvI2C_Transaction s p ⟨[], received, []⟩ = .ok s'
        ∧ s'.ucI2C_busy = true
        ∧ startCount (newEvents s s') = (if s.ucI2C_busy = true then 0 else 1) := by
  cases hb : s.ucI2C_busy <;> cases hc : c.ucI2C_busy <;> cases received <;>
  simp +decide [prvI2C_Transaction, prvI2C_Transaction_submit, prvI2C_Transaction_send,
    prvI2C_Transaction_critical, prvI2C_Transaction_wait, runISR, I2CState.store,
    I2CState.emit, hroom, hb, hc, newEvents, regWrites, startCount, busOps, Event.busOps]

/-- Claim C7 on the initialised, idle driver: the critical section entered right
after the send of descriptor 5, and the whole call. -/
theorem C7_start_once_when_idle_witness :
    (prvI2C_Transaction_critical (prvI2C_Transaction_send idle 5).1).ucI2C_busy = true
    ∧ ((prvI2C_Transaction_send idle 5).1.ucI2C_busy = false →
        regWrites (newEvents (prvI2C_Transaction_send idle 5).1
            (prvI2C_Transaction_critical (prvI2C_Transaction_send idle 5).1))
          = [(.I2C0CONSET, 0x20)]
        ∧ startCount (newEvents (prvI2C_Transaction_send idle 5).1
            (prvI2C_Transaction_critical (prvI2C_Transaction_send idle 5).1)) = 1)
    ∧ ((prvI2C_Transaction_send idle 5).1.ucI2C_busy = true →
        regWrites (newEvents (prvI2C_Transaction_send idle 5).1
            (prvI2C_Transaction_critical (prvI2C_Transaction_send idle 5).1)) = []
        ∧ startCount (newEvents (prvI2C_Transaction_send idle 5).1
            (prvI2C_Transaction_critical (prvI2C_Transaction_send idle 5).1)) = 0)
    ∧ (prvI2C_Transaction_send idle 5).2 = true
    ∧ ∃ s', prvI2C_Transaction idle 5 ⟨[], true, []⟩ = .ok s'
        ∧ s'.ucI2C_busy = true
        ∧ startCount (newEvents idle s') = (if idle.ucI2C_busy = true then 0 else 1) :=
  C7_start_once_when_idle idle (prvI2C_Transaction_send idle 5).1 5 true (by decide)

/-- Claim C8: in every terminal step of the interrupt routine, if the request
queue is not empty its head is removed and becomes the active descriptor, the
pending flag is set, exactly one start command is issued in that step and the
busy flag keeps its value; if the queue is empty the busy flag is false after
the step and no start command is issued. -/
theorem C8_terminal_step_next_or_idle (s s' : I2CState) (i : IsrIn)
    (h : vI2C_ISR s i = .ok s') (ht : terminalStep i s' = true) :
    (∀ q rest, s.pxI2C_RQ = q :: rest →
        s'.pxI2C = some q ∧ s'.pxI2C_RQ = rest ∧ s'.ucI2C_pending = true
          ∧ startCount (newEvents s s') = 1 ∧ s'.ucI2C_busy = s.ucI2C_busy)
    ∧ (s.pxI2C_RQ = [] →
        s'.ucI2C_busy = false ∧ startCount (newEvents s s') = 0 ∧ s'.pxI2C_RQ = []
          ∧ s'.ucI2C_pending = false) := by
  obtain ⟨_, ⟨hf, _⟩ | ⟨_, p, hp, ⟨r1, r2, r3, r4, r5, r6, r7⟩ | ⟨q, r1, r3, r4, r5, r6, r7⟩⟩⟩ :=
    vI2C_ISR_effect s s' i h
  · rw [hf] at ht; cases ht
  · refine ⟨fun q rest hq => ?_, fun _ => ⟨r4, r7, r2, r5⟩⟩
    rw [r1] at hq; cases hq
  · refine ⟨fun q' rest hq => ?_, fun hq => ?_⟩
    · rw [r1] at hq
      cases hq
      exact ⟨r3, rfl, r5, r7, r4⟩
    · rw [r1] at hq; cases hq

/-- Claim C8 at an address-NAK step with descriptor 5 active and descriptor 6
queued: descriptor 6 becomes active, the queue is empty, one start command is
issued and the busy flag stays true. -/
theorem C8_terminal_step_next_or_idle_witness :
    (okOr idle (vI2C_ISR busyWithBacklog (irq 0x20 0))).pxI2C = some 6
    ∧ (okOr idle (vI2C_ISR busyWithBacklog (irq 0x20 0))).pxI2C_RQ = []
    ∧ (okOr idle (vI2C_ISR busyWithBacklog (irq 0x20 0))).ucI2C_pending = true
    ∧ startCount (newEvents busyWithBacklog
        (okOr idle (vI2C_ISR busyWithBacklog (irq 0x20 0)))) = 1
    ∧ (okOr idle (vI2C_ISR busyWithBacklog (irq 0x20 0))).ucI2C_busy = true :=
  (C8_terminal_step_next_or_idle busyWithBacklog
    (okOr idle (vI2C_ISR busyWithBacklog (irq 0x20 0))) (irq 0x20 0) rfl rfl).1 6 [] rfl

/-- Claim C9, as stated, fails.  Descriptor 5 is submitted once on the
initialised driver; after the start-sent step the address-NAK code 0x20 is
processed twice.  The second 0x20 step signals the completion queue of the
stale `pxI2C` again: two completion signals for one submission. -/
theorem C9_stray_terminal_code_signals_twice :
    ∃ s', run idle [.send 5, .kick, .isr (irq 0x08 0), .isr (irq 0x20 0), .isr (irq 0x20 0)] = .ok s'
      ∧ submissions 5 s'.trace = 1 ∧ completions 5 s'.trace = 2
      ∧ ¬ completions 5 s'.trace ≤ submissions 5 s'.trace :=
  ⟨okOr idle
      (run idle [.send 5, .kick, .isr (irq 0x08 0), .isr (irq 0x20 0), .isr (irq 0x20 0)]),
    rfl, by decide, by decide, by decide⟩

/-- Claim C9, amended.  From the initialised driver, for every sequence of
descriptor updates, submissions and interrupts in which each terminal step is
taken while a transaction is in flight (a descriptor has been dequeued since
the last completion signal), the completion signals sent for a descriptor
never outnumber its successful submissions. -/
theorem C9_completions_le_submissions (mem : Nat → xI2C_struct) (hw : InitIn) (n : Nat)
    (acts : List Action) (s' : I2CState)
    (h : run (vI2C_Init (reset mem) hw n) acts = .ok s')
    (hd : terminalsInFlight (vI2C_Init (reset mem) hw n) acts = true) (p : Nat) :
    completions p s'.trace ≤ submissions p s'.trace := by
  have := accounted_run acts _ s' (accounted_init mem hw n) h hd p
  omega

/-- Claim C9 amended, at a run with two submissions of descriptor 5, each started
and completed once (address NAK, then a Quick transaction). -/
theorem C9_completions_le_submissions_witness :
    completions 5
        (okOr idle (run idle [.send 5, .kick, .isr (irq 0x08 0), .isr (irq 0x20 0), .send 5, .kick,
          .isr (irq 0x08 0), .isr (irq 0x18 0)])).trace
      ≤ submissions 5
        (okOr idle (run idle [.send 5, .kick, .isr (irq 0x08 0), .isr (irq 0x20 0), .send 5, .kick,
          .isr (irq 0x08 0), .isr (irq 0x18 0)])).trace :=
  C9_completions_le_submissions (fun _ => blank)
    { PINSEL0 := 0, VICIntEnable := 0, vI2C_ISR_Wrapper := 0 } 1
    [.send 5, .kick, .isr (irq 0x08 0), .isr (irq 0x20 0), .send 5, .kick, .isr (irq 0x08 0),
      .isr (irq 0x18 0)] _ rfl (by decide) 5

/-- Claim C10 on the code.  Descriptor 5 is active and descriptor 6 is queued.
The arbitration-lost step (0x38) is not terminal and keeps descriptor 5
active; the start-sent step (0x08) that follows is not terminal either, yet
it dequeues descriptor 6 and makes it the active descriptor.  The transaction
then runs to its end for descriptor 6: descriptor 6 is completed once,
descriptor 5 never, although the queue is empty and the busy flag is false;
the status of descriptor 5 is still the sentinel 0xFF. -/
theorem C10_restart_replaces_active_descriptor :
    activeAndQueued.pxI2C = some 5 ∧ activeAndQueued.pxI2C_RQ = [6]
    ∧ ∃ sLost sRestart sEnd,
        vI2C_ISR activeAndQueued (irq 0x38 0) = .ok sLost
        ∧ terminalStep (irq 0x38 0) sLost = false ∧ sLost.pxI2C = some 5
        ∧ vI2C_ISR sLost (irq 0x08 0) = .ok sRestart
        ∧ terminalStep (irq 0x08 0) sRestart = false
        ∧ sRestart.pxI2C = some 6 ∧ sRestart.pxI2C_RQ = []
        ∧ completions 5 sRestart.trace = 0
        ∧ runISR sRestart [irq 0x18 0, irq 0x28 0] = .ok sEnd
        ∧ completions 6 sEnd.trace = 1 ∧ completions 5 sEnd.trace = 0
        ∧ submissions 5 sEnd.trace = 1
        ∧ sEnd.pxI2C_RQ = [] ∧ sEnd.ucI2C_busy = false ∧ (sEnd.mem 5).status = 0xFF :=
  ⟨rfl, rfl,
   okOr idle (vI2C_ISR activeAndQueued (irq 0x38 0)),
   okOr idle (runISR activeAndQueued [irq 0x38 0, irq 0x08 0]),
   okOr idle (runISR activeAndQueued [irq 0x38 0, irq 0x08 0, irq 0x18 0, irq 0x28 0]),
   rfl, rfl, rfl, rfl, rfl, rfl, rfl, by decide, rfl, by decide, by decide, by decide, rfl, rfl,
   rfl⟩

/-- Claim C11: the request queue is served first-in first-out.  The send of
submit-and-wait appends the handle at the tail (and leaves the queue alone
when it is full); every interrupt either leaves the queue alone or, in a
start-sent step or a terminal step, removes its head and makes it the active
descriptor.  Therefore, in every run from the initialised driver, the queue
events of the trace replay on an ideal first-in first-out queue without
deviation; the handles dequeued so far followed by the queue contents are the
handles enqueued, in that order; the completions run through the enqueued
handles in order; and when every terminal step ends a transaction in flight
the completions are a subsequence of the enqueued handles. -/
theorem C11_request_queue_fifo (mem : Nat → xI2C_struct) (hw : InitIn) (n : Nat)
    (acts : List Action) (s' : I2CState)
    (h : run (vI2C_Init (reset mem) hw n) acts = .ok s') :
    (∀ s p, (prvI2C_Transaction_send s p).1.pxI2C_RQ
        = if (prvI2C_Transaction_send s p).2 = true then s.pxI2C_RQ ++ [p] else s.pxI2C_RQ)
    ∧ (∀ s i s1, vI2C_ISR s i = .ok s1 →
        (s1.pxI2C_RQ = s.pxI2C_RQ ∧ dequeued (newEvents s s1) = [])
        ∨ ((startSent i = true ∨ terminalStep i s1 = true)
            ∧ ∃ q, s.pxI2C_RQ = q :: s1.pxI2C_RQ ∧ s1.pxI2C = some q
              ∧ dequeued (newEvents s s1) = [q]))
    ∧ fifoReplay (qEvents s'.trace) = some (s'.pxI2C_RQ, s'.pxI2C)
    ∧ dequeued s'.trace ++ s'.pxI2C_RQ = enqueued s'.trace
    ∧ InOrder (completed s'.trace) (enqueued s'.trace)
    ∧ (terminalsInFlight (vI2C_Init (reset mem) hw n) acts = true →
        (completed s'.trace).Sublist (enqueued s'.trace)) := by
  have hF : Fifo s' := fifo_run acts _ s' (fifo_init mem hw n) h
  obtain ⟨i1, _, i3⟩ := fifoReplay_order _ _ _ hF
  have i1' : dequeued s'.trace ++ s'.pxI2C_RQ = enqueued s'.trace := i1
  refine ⟨fun s p => ?_, fun s i s1 hs => ?_, hF, i1', ?_, fun hd => ?_⟩
  · by_cases hroom : s.pxI2C_RQ.length < s.uxQueueLength <;>
      simp [prvI2C_Transaction_send, I2CState.store, I2CState.emit, hroom]
  · obtain ⟨_, e⟩ := vI2C_ISR_effect s s1 i hs
    rcases e with ⟨_, _, _, ⟨q1, _, g⟩ | ⟨_, _, q0, q1, _, g⟩ | ⟨hst, _, q, hq, x1, g⟩⟩ |
      ⟨ht, p0, _, ⟨q0, q1, _, _, _, g, _⟩ | ⟨q, hq, x1, _, _, g, _⟩⟩
    · exact Or.inl ⟨q1, by simp [dequeued, g, dequeuedOf]⟩
    · exact Or.inl ⟨by rw [q0, q1], by simp [dequeued, g, dequeuedOf]⟩
    · exact Or.inr ⟨Or.inl hst, q, hq, x1, by simp [dequeued, g, dequeuedOf]⟩
    · exact Or.inl ⟨by rw [q0, q1], by simp [dequeued, g, dequeuedOf]⟩
    · exact Or.inr ⟨Or.inr ht, q, hq, x1, by simp [dequeued, g, dequeuedOf]⟩
  · rw [← i1']
    exact InOrder.append_right _ i3
  · have hS0 : Served (vI2C_Init (reset mem) hw n) := by
      simp [Served, vI2C_Init, vI2C_ISRCreateQueue, reset, I2CState.emit, completed, dequeued,
        inFlight, qEvents, completedOf, dequeuedOf]
    have hS := served_run acts _ s' (fifo_init mem hw n) hS0 h hd
    rw [← i1']
    exact hS.sublist.trans (List.sublist_append_left _ _)

/-- Claim C11 at the run `twoServed` (descriptors 5 and 6 are enqueued, dequeued
and completed in that order) and at the terminal step of `busyWithBacklog`,
which takes descriptor 6 from the head of the queue. -/
theorem C11_request_queue_fifo_witness :
    ((okOr idle (vI2C_ISR busyWithBacklog (irq 0x20 0))).pxI2C_RQ = busyWithBacklog.pxI2C_RQ
        ∧ dequeued (newEvents busyWithBacklog
            (okOr idle (vI2C_ISR busyWithBacklog (irq 0x20 0)))) = []
      ∨ ((startSent (irq 0x20 0) = true
            ∨ terminalStep (irq 0x20 0) (okOr idle (vI2C_ISR busyWithBacklog (irq 0x20 0)))
                = true)
          ∧ ∃ q, busyWithBacklog.pxI2C_RQ
                = q :: (okOr idle (vI2C_ISR busyWithBacklog (irq 0x20 0))).pxI2C_RQ
            ∧ (okOr idle (vI2C_ISR busyWithBacklog (irq 0x20 0))).pxI2C = some q
            ∧ dequeued (newEvents busyWithBacklog
                (okOr idle (vI2C_ISR busyWithBacklog (irq 0x20 0)))) = [q]))
    ∧ fifoReplay (qEvents (okOr idle (run idle twoServed)).trace)
        = some ((okOr idle (run idle twoServed)).pxI2C_RQ, (okOr idle (run idle twoServed)).pxI2C)
    ∧ dequeued (okOr idle (run idle twoServed)).trace
          ++ (okOr idle (run idle twoServed)).pxI2C_RQ
        = enqueued (okOr idle (run idle twoServed)).trace
    ∧ InOrder (completed (okOr idle (run idle twoServed)).trace)
        (enqueued (okOr idle (run idle twoServed)).trace)
    ∧ (completed (okOr idle (run idle twoServed)).trace).Sublist
        (enqueued (okOr idle (run idle twoServed)).trace)
    ∧ enqueued (okOr idle (run idle twoServed)).trace = [5, 6]
    ∧ completed (okOr idle (run idle twoServed)).trace = [5, 6] :=
  have w := C11_request_queue_fifo (fun _ => blank)
    { PINSEL0 := 0, VICIntEnable := 0, vI2C_ISR_Wrapper := 0 } 1 twoServed
    (okOr idle (run idle twoServed)) rfl
  ⟨w.2.1 busyWithBacklog (irq 0x20 0) _ rfl, w.2.2.1, w.2.2.2.1, w.2.2.2.2.1,
    w.2.2.2.2.2 (by decide), by decide, by decide⟩

/-- Claim C12: transaction `t` is in flight (busy flag true, queue empty, room
for two requests) when a Quick descriptor `q` and then a SendByte descriptor
`s` are submitted.  Neither submission writes a register, so none issues a
start command, and the queue holds `q`, `s`.  A terminal step of `t`
completes `t`; the codes 0x08, 0x18 then complete `q`, with the address byte
of `q` the only write to the data register; the codes 0x08, 0x18, 0x28 then
complete `s`, with the address byte of `s` and `payload[0]` of `s` the writes
to the data register.  Over the whole run the completions are `t`, `q`, `s`,
once each; at the end the queue is empty, the busy flag is false and both
requests have status 0. -/
theorem C12_quick_then_send_byte_queued (S St : I2CState) (t q s : Nat) (i0 : IsrIn)
    (x0 x1 x2 x3 x4 : Nat)
    (hbusy : S.ucI2C_busy = true) (hrq : S.pxI2C_RQ = []) (hcap : 2 ≤ S.uxQueueLength)
    (ht : S.pxI2C = some t) (hq : (S.mem q).opcode = I2C_Quick)
    (hs : (S.mem s).opcode = I2C_SendByte) (hts : t ≠ s)
    (h0 : vI2C_ISR (prvI2C_Transaction_submit (prvI2C_Transaction_submit S q).1 s).1 i0
            = .ok St)
    (hterm : terminalStep i0 St = true) :
    (prvI2C_Transaction_submit (prvI2C_Transaction_submit S q).1 s).1.pxI2C_RQ = [q, s]
    ∧ regWrites (newEvents S (prvI2C_Transaction_submit (prvI2C_Transaction_submit S q).1 s).1)
        = []
    ∧ startCount
        (newEvents S (prvI2C_Transaction_submit (prvI2C_Transaction_submit S q).1 s).1) = 0
    ∧ completed
        (newEvents (prvI2C_Transaction_submit (prvI2C_Transaction_submit S q).1 s).1 St) = [t]
    ∧ ∃ Sq, runISR St [irq 0x08 x0, irq 0x18 x1] = .ok Sq
      ∧ completed (newEvents St Sq) = [q]
      ∧ dataWrites (newEvents St Sq) = [((S.mem q).addr <<< 1) % 256]
      ∧ ∃ Ss, runISR Sq [irq 0x08 x2, irq 0x18 x3, irq 0x28 x4] = .ok Ss
        ∧ completed (newEvents Sq Ss) = [s]
        ∧ dataWrites (newEvents Sq Ss) = [((S.mem s).addr <<< 1) % 256, (S.mem s).data0]
        ∧ completed (newEvents S Ss) = [t, q, s]
        ∧ Ss.pxI2C_RQ = [] ∧ Ss.ucI2C_busy = false
        ∧ (Ss.mem q).status = 0 ∧ (Ss.mem s).status = 0 := by
  have hqs : q ≠ s := by
    intro e
    rw [e, hs] at hq
    revert hq
    decide
  obtain ⟨_, a2, a3, a4, a5, a6, a7⟩ :=
    submit_while_busy S q hbusy (by rw [hrq]; simp; omega)
  generalize (prvI2C_Transaction_submit S q).1 = S1 at h0 a2 a3 a4 a5 a6 a7 ⊢
  obtain ⟨_, b2, b3, b4, _, b6, b7⟩ :=
    submit_while_busy S1 s a4 (by rw [a2, hrq, a5]; simp; omega)
  generalize (prvI2C_Transaction_submit S1 s).1 = S2 at h0 b2 b3 b4 b6 b7 ⊢
  have hS2 : S2.trace = S.trace ++ [.xQueueSend q true, .portENTER_CRITICAL, .portEXIT_CRITICAL,
      .xQueueSend s true, .portENTER_CRITICAL, .portEXIT_CRITICAL] := by
    rw [b6, a6]; simp
  have hrq2 : S2.pxI2C_RQ = [q, s] := by rw [b2, a2, hrq]; rfl
  have hp2 : S2.pxI2C = some t := by rw [b3, a3, ht]
  obtain ⟨htr, e⟩ := vI2C_ISR_effect S2 St i0 h0
  obtain ⟨m1, m2, _, _⟩ := vI2C_ISR_mem S2 St i0 h0
  rcases e with ⟨hf, _⟩ | ⟨_, p, hp, ⟨r1, _⟩ | ⟨q', r1, r3, _, r5, r6, _⟩⟩
  · rw [hf] at hterm; cases hterm
  · rw [hrq2] at r1; cases r1
  · rw [hrq2] at r1
    rw [hp2] at hp
    cases hp
    simp only [List.cons.injEq] at r1
    obtain ⟨rfl, r1⟩ := r1
    have hoq : (St.mem q).opcode = 0 := by
      rw [(m1 q).2.2.1, (b7 q).1.2.2.1, (a7 q).1.2.2.1, hq]; rfl
    have haq : (St.mem q).addr = (S.mem q).addr := by
      rw [(m1 q).2.2.2.1, (b7 q).1.2.2.2.1, (a7 q).1.2.2.2.1]
    have hms : St.mem s = S2.mem s := m2 s (by rw [hp2]; intro e; cases e; exact hts rfl)
    have hos : (St.mem s).opcode = 1 := by
      rw [hms, (b7 s).1.2.2.1, (a7 s).1.2.2.1, hs]; rfl
    have has : (St.mem s).addr = (S.mem s).addr := by
      rw [hms, (b7 s).1.2.2.2.1, (a7 s).1.2.2.2.1]
    have hds : (St.mem s).data0 = (S.mem s).data0 := by
      rw [hms, (b7 s).2, (a7 s).2]
    obtain ⟨Sq, c1, c2, c3, Ss, d1, d2, d3, d4, d5, d6, d7⟩ :=
      queued_pair_run St q s x0 x1 x2 x3 x4 r3 r1.symm r5 hoq hos hqs
    have tq := runISR_trace _ _ _ c1
    have ts := runISR_trace _ _ _ d1
    have hall : Ss.trace = S.trace ++ ([.xQueueSend q true, .portENTER_CRITICAL,
        .portEXIT_CRITICAL, .xQueueSend s true, .portENTER_CRITICAL, .portEXIT_CRITICAL]
        ++ newEvents S2 St ++ newEvents St Sq ++ newEvents Sq Ss) := by
      rw [ts, tq, htr, hS2]; simp only [List.append_assoc]
    refine ⟨hrq2, ?_, ?_, ?_, Sq, c1, ?_, ?_, Ss, d1, ?_, ?_, ?_, d4, d5, d6, d7⟩
    · rw [newEvents_of_eq hS2]; rfl
    · rw [newEvents_of_eq hS2]
      simp +decide [startCount, busOps, Event.busOps]
    · simp [completed, r6, completedOf]
    · simp [completed, c2, completedOf]
    · rw [c3, haq]
    · simp [completed, d2, completedOf]
    · rw [d3, has, hds]
    · have eA : qEvents [Event.xQueueSend q true, .portENTER_CRITICAL, .portEXIT_CRITICAL,
          .xQueueSend s true, .portENTER_CRITICAL, .portEXIT_CRITICAL]
          = [.sent q, .sent s] := rfl
      rw [newEvents_of_eq hall]
      simp only [completed, qEvents_append, completedOf_append, r6, c2, d2, eA]
      rfl

/-- Claim C12 on a driver with a two-slot queue: descriptor 5 in flight,
descriptor 6 (Quick, address 0) and descriptor 7 (SendByte, address 0x02,
data 0xDD) submitted in that order, then the codes 0x18, 0x08, 0x18, 0x08,
0x18, 0x28. -/
theorem C12_quick_then_send_byte_queued_witness :
    threeQueued.pxI2C_RQ = [6, 7]
    ∧ regWrites (newEvents threeRequests threeQueued) = []
    ∧ startCount (newEvents threeRequests threeQueued) = 0
    ∧ completed (newEvents threeQueued threeFirstDone) = [5]
    ∧ ∃ Sq, runISR threeFirstDone [irq 0x08 0, irq 0x18 0] = .ok Sq
      ∧ completed (newEvents threeFirstDone Sq) = [6]
      ∧ dataWrites (newEvents threeFirstDone Sq) = [((threeRequests.mem 6).addr <<< 1) % 256]
      ∧ ∃ Ss, runISR Sq [irq 0x08 0, irq 0x18 0, irq 0x28 0] = .ok Ss
        ∧ completed (newEvents Sq Ss) = [7]
        ∧ dataWrites (newEvents Sq Ss)
            = [((threeRequests.mem 7).addr <<< 1) % 256, (threeRequests.mem 7).data0]
        ∧ completed (newEvents threeRequests Ss) = [5, 6, 7]
        ∧ Ss.pxI2C_RQ = [] ∧ Ss.ucI2C_busy = false
        ∧ (Ss.mem 6).status = 0 ∧ (Ss.mem 7).status = 0 :=
  C12_quick_then_send_byte_queued threeRequests threeFirstDone 5 6 7 (irq 0x18 0) 0 0 0 0 0
    rfl rfl (by decide) rfl rfl rfl (by decide) rfl rfl

/-- Claim C13: in a terminal step the status written to the active descriptor is
the terminal phase itself, so it is 0 exactly when the phase is success-stop
(`I2C_STOP`) and the nonzero 0xF0 when it is error-stop (`I2C_ERROR_STOP`);
and a transaction operation (the shared tail `transact` of the seven
operations) that returns 0 had the transaction of its descriptor ended in
success-stop by the interrupt routine while the caller was blocked. -/
theorem C13_status_zero_iff_success_stop (s s' : I2CState) (i : IsrIn) (s0 : I2CState)
    (p : Nat) (env : WaitEnv) (r : I2CState × Nat) :
    (vI2C_ISR s i = .ok s' → terminalStep i s' = true →
      ∃ q, s.pxI2C = some q ∧ (s'.mem q).status = s'.ucI2C_cstate
        ∧ ((s'.mem q).status = 0 ↔ s'.ucI2C_cstate = I2C_STOP)
        ∧ (s'.ucI2C_cstate = I2C_ERROR_STOP → (s'.mem q).status = 0xF0)
        ∧ (s'.ucI2C_cstate = I2C_STOP ∨ s'.ucI2C_cstate = I2C_ERROR_STOP))
    ∧ (transact s0 p env = .ok r → r.2 = 0 → successStopDuring p s0 env = true) := by
  refine ⟨fun h ht => ?_, fun h h0 => transact_zero s0 p env r h h0⟩
  obtain ⟨_, _, _, m4⟩ := vI2C_ISR_mem s s' i h
  obtain ⟨q, hq, hs⟩ := m4 ht
  refine ⟨q, hq, hs, by rw [hs]; rfl, fun he => by rw [hs, he]; rfl, ?_⟩
  simp only [terminalStep, Bool.and_eq_true, Bool.or_eq_true, decide_eq_true_eq] at ht
  exact ht.2

/-- Claim C13 at `quick` on the initialised driver: the terminal step on code
0x18 writes status 0, and the call returns 0. -/
theorem C13_status_zero_iff_success_stop_witness :
    (∃ q, quickStarted.pxI2C = some q ∧ (quickDone.mem q).status = quickDone.ucI2C_cstate
        ∧ ((quickDone.mem q).status = 0 ↔ quickDone.ucI2C_cstate = I2C_STOP)
        ∧ (quickDone.ucI2C_cstate = I2C_ERROR_STOP → (quickDone.mem q).status = 0xF0)
        ∧ (quickDone.ucI2C_cstate = I2C_STOP ∨ quickDone.ucI2C_cstate = I2C_ERROR_STOP))
    ∧ successStopDuring 5 idle ⟨[irq 0x08 0, irq 0x18 0], true, []⟩ = true :=
  ⟨(C13_status_zero_iff_success_stop quickStarted quickDone (irq 0x18 0) idle 5
      ⟨[irq 0x08 0, irq 0x18 0], true, []⟩
      (okOr (idle, 1) (transact idle 5 ⟨[irq 0x08 0, irq 0x18 0], true, []⟩))).1 rfl rfl,
   (C13_status_zero_iff_success_stop quickStarted quickDone (irq 0x18 0) idle 5
      ⟨[irq 0x08 0, irq 0x18 0], true, []⟩
      (okOr (idle, 1) (transact idle 5 ⟨[irq 0x08 0, irq 0x18 0], true, []⟩))).2 rfl rfl⟩

/-- Claim C14, as stated, fails.  On the initialised driver a `write_byte`
ended by an address NAK (0x20), one ended by a data NAK (0x30), one ended by a
bus error (0x00) and a `receive_byte` ended by an address NAK (0x48) all
return the status 0xF0; a `write_byte` rejected because the queue is full and
one whose completion wait times out both return 0xFF. -/
theorem C14_failure_causes_share_status :
    (∃ r, ucI2C_WriteByte idle 5 0x08 0xCC 0xBB ⟨[irq 0x08 0, irq 0x20 0], true, []⟩ = .ok r
        ∧ r.2 = 0xF0 ∧ (r.1.mem 5).status = 0xF0)
    ∧ (∃ r, ucI2C_WriteByte idle 5 0x08 0xCC 0xBB
          ⟨[irq 0x08 0, irq 0x18 0, irq 0x30 0], true, []⟩ = .ok r
        ∧ r.2 = 0xF0 ∧ (r.1.mem 5).status = 0xF0)
    ∧ (∃ r, ucI2C_WriteByte idle 5 0x08 0xCC 0xBB ⟨[irq 0x08 0, irq 0x00 0], true, []⟩ = .ok r
        ∧ r.2 = 0xF0 ∧ (r.1.mem 5).status = 0xF0)
    ∧ (∃ r, ucI2C_ReceiveByte idle 5 0x08 ⟨[irq 0x08 0, irq 0x48 0], true, []⟩ = .ok r
        ∧ r.2 = 0xF0 ∧ (r.1.mem 5).status = 0xF0)
    ∧ (∃ r, ucI2C_WriteByte { idle with pxI2C_RQ := [9] } 5 0x08 0xCC 0xBB ⟨[], false, []⟩
          = .ok r
        ∧ r.2 = 0xFF ∧ newEvents { idle with pxI2C_RQ := [9] } r.1 = [.xQueueSend 5 false])
    ∧ (∃ r, ucI2C_WriteByte idle 5 0x08 0xCC 0xBB ⟨[], false, []⟩ = .ok r
        ∧ r.2 = 0xFF
        ∧ Event.xQueueReceive 7 35 false ∈ newEvents idle r.1) :=
  ⟨⟨okOr (idle, 0) (ucI2C_WriteByte idle 5 0x08 0xCC 0xBB ⟨[irq 0x08 0, irq 0x20 0], true, []⟩),
      rfl, rfl, rfl⟩,
   ⟨okOr (idle, 0) (ucI2C_WriteByte idle 5 0x08 0xCC 0xBB
      ⟨[irq 0x08 0, irq 0x18 0, irq 0x30 0], true, []⟩), rfl, rfl, rfl⟩,
   ⟨okOr (idle, 0) (ucI2C_WriteByte idle 5 0x08 0xCC 0xBB ⟨[irq 0x08 0, irq 0x00 0], true, []⟩),
      rfl, rfl, rfl⟩,
   ⟨okOr (idle, 0) (ucI2C_ReceiveByte idle 5 0x08 ⟨[irq 0x08 0, irq 0x48 0], true, []⟩),
      rfl, rfl, rfl⟩,
   ⟨okOr (idle, 0) (ucI2C_WriteByte { idle with pxI2C_RQ := [9] } 5 0x08 0xCC 0xBB
      ⟨[], false, []⟩), rfl, rfl, by decide⟩,
   ⟨okOr (idle, 0) (ucI2C_WriteByte idle 5 0x08 0xCC 0xBB ⟨[], false, []⟩), rfl, rfl,
      by decide⟩⟩

set_option maxHeartbeats 1000000 in
/-- Claim C14, amended.  With an active descriptor `p`, a step on an address
NAK (0x20 or 0x48), on a data NAK (0x30) or on a bus error (0x00) is a
terminal step that leaves the same status 0xF0 on `p`; a submit-and-wait
rejected because the queue is full returns 0xFF, and so does one whose
completion wait times out with no interrupt serviced. -/
theorem C14_one_status_per_failure_class (s : I2CState) (i : IsrIn) (p : Nat) (s0 : I2CState)
    (p0 : Nat) (env : WaitEnv) :
    (s.pxI2C = some p → i.I2C0CONSET &&& 0x08 ≠ 0 →
      (i.I2C0STAT % 256 = 0x20 ∨ i.I2C0STAT % 256 = 0x48 ∨ i.I2C0STAT % 256 = 0x30
        ∨ i.I2C0STAT % 256 = 0x00) →
      ∃ s', vI2C_ISR s i = .ok s' ∧ terminalStep i s' = true ∧ (s'.mem p).status = 0xF0)
    ∧ (s0.uxQueueLength ≤ s0.pxI2C_RQ.length →
        ∃ r, transact s0 p0 env = .ok r ∧ r.2 = 0xFF)
    ∧ (s0.pxI2C_RQ.length < s0.uxQueueLength →
        ∃ r, transact s0 p0 ⟨[], false, []⟩ = .ok r ∧ r.2 = 0xFF) := by
  refine ⟨fun hp hsi hcode => ?_, fun hfull => ?_, fun hroom => ?_⟩
  · rcases hcode with h | h | h | h <;> cases hq : s.pxI2C_RQ <;>
      cases hw : i.responseWoke <;> cases hn : i.newRequestWoke <;>
    simp +decide [vI2C_ISR, switch_status, case_0x00, case_0x20, case_0x30, case_0x48,
      terminal_handling, isr_epilogue, xQueueReceiveFromISR, I2CState.emit, I2CState.store,
      terminalStep, hp, hsi, h, hq, hw, hn, I2C_STOP, I2C_ERROR_STOP]
  · have h : ¬ s0.pxI2C_RQ.length < s0.uxQueueLength := Nat.not_lt.mpr hfull
    simp [transact, prvI2C_Transaction, prvI2C_Transaction_submit, prvI2C_Transaction_send,
      I2CState.store, I2CState.emit, h]
  · cases hb : s0.ucI2C_busy <;>
    simp [transact, prvI2C_Transaction, prvI2C_Transaction_submit, prvI2C_Transaction_send,
      prvI2C_Transaction_critical, prvI2C_Transaction_wait, runISR, I2CState.store,
      I2CState.emit, hroom, hb]

/-- Claim C14 amended, at a data NAK with descriptor 5 active, at the full one-slot
queue and at a timeout on the initialised driver. -/
theorem C14_one_status_per_failure_class_witness :
    (∃ s', vI2C_ISR { idle with pxI2C := some 5 } (irq 0x30 0) = .ok s'
        ∧ terminalStep (irq 0x30 0) s' = true ∧ (s'.mem 5).status = 0xF0)
    ∧ (∃ r, transact { idle with pxI2C_RQ := [9] } 5 ⟨[], true, []⟩ = .ok r ∧ r.2 = 0xFF)
    ∧ (∃ r, transact idle 5 ⟨[], false, []⟩ = .ok r ∧ r.2 = 0xFF) :=
  ⟨(C14_one_status_per_failure_class { idle with pxI2C := some 5 } (irq 0x30 0) 5 idle 5
      ⟨[], true, []⟩).1 rfl (by decide) (by decide),
   (C14_one_status_per_failure_class idle (irq 0x30 0) 5 { idle with pxI2C_RQ := [9] } 5
      ⟨[], true, []⟩).2.1 (by decide),
   (C14_one_status_per_failure_class idle (irq 0x30 0) 5 idle 5 ⟨[], true, []⟩).2.2
      (by decide)⟩

/-- Claim C15, as stated, fails.  A `quick` on the initialised driver whose
completion wait times out with no interrupt serviced, and whose transaction
(0x08, 0x18) is carried out while the caller is in the recovery delay: the
first six events of the call are the submission, the timed-out wait and the
delay, the completion signal comes after them, and the call returns 0
although its wait timed out. -/
theorem C15_timeout_then_success_in_delay :
    ∃ r, ucI2C_Quick idle 5 0x01 0xEE ⟨[], false, [irq 0x08 0, irq 0x18 0]⟩ = .ok r
      ∧ r.2 = 0
      ∧ (newEvents idle r.1).take 6 =
          [.xQueueSend 5 true, .portENTER_CRITICAL, .write .I2C0CONSET 0x20,
           .portEXIT_CRITICAL, .xQueueReceive 7 35 false, .vTaskDelay 35]
      ∧ completionSignals ((newEvents idle r.1).drop 6) = [(5, 7)] :=
  ⟨okOr (idle, 1) (ucI2C_Quick idle 5 0x01 0xEE ⟨[], false, [irq 0x08 0, irq 0x18 0]⟩),
    rfl, rfl, by decide, by decide⟩

/-- Claim C15, amended.  Whatever the descriptor held before the call: when the
completion wait times out and the interrupt routine does not end a
transaction of the descriptor in success-stop during the wait or the recovery
delay, a transaction operation (the shared tail `transact`) that returns
returns a nonzero status; and when no interrupt at all is serviced during the
call it does return, with the sentinel 0xFF. -/
theorem C15_timeout_without_success_stop (s : I2CState) (p : Nat) (w d : List IsrIn)
    (r : I2CState × Nat) :
    (transact s p ⟨w, false, d⟩ = .ok r → successStopDuring p s ⟨w, false, d⟩ = false →
      r.2 ≠ 0)
    ∧ ∃ r0, transact s p ⟨[], false, []⟩ = .ok r0 ∧ r0.2 = 0xFF := by
  refine ⟨fun h hn h0 => ?_, ?_⟩
  · rw [transact_zero s p _ r h h0] at hn
    cases hn
  · by_cases hroom : s.pxI2C_RQ.length < s.uxQueueLength <;> cases hb : s.ucI2C_busy <;>
    simp [transact, prvI2C_Transaction, prvI2C_Transaction_submit, prvI2C_Transaction_send,
      prvI2C_Transaction_critical, prvI2C_Transaction_wait, runISR, I2CState.store,
      I2CState.emit, hroom, hb]

/-- Claim C15 amended, at a `quick` on the initialised driver whose wait times out
and whose transaction is ended by an address NAK during the recovery delay:
the call returns 0xF0. -/
theorem C15_timeout_without_success_stop_witness :
    (okOr (idle, 0) (ucI2C_Quick idle 5 0x01 0xEE ⟨[], false, [irq 0x08 0, irq 0x20 0]⟩)).2 ≠ 0
    ∧ ∃ r0, transact
          (idle.store 5 { idle.mem 5 with opcode := I2C_Quick, addr := 0x01, data0 := 0xEE }) 5
          ⟨[], false, []⟩ = .ok r0 ∧ r0.2 = 0xFF :=
  ⟨(C15_timeout_without_success_stop
      (idle.store 5 { idle.mem 5 with opcode := I2C_Quick, addr := 0x01, data0 := 0xEE }) 5
      [] [irq 0x08 0, irq 0x20 0]
      (okOr (idle, 0) (ucI2C_Quick idle 5 0x01 0xEE ⟨[], false, [irq 0x08 0, irq 0x20 0]⟩))).1
      rfl (by decide),
   (C15_timeout_without_success_stop
      (idle.store 5 { idle.mem 5 with opcode := I2C_Quick, addr := 0x01, data0 := 0xEE }) 5
      [] [irq 0x08 0, irq 0x20 0]
      (okOr (idle, 0) (ucI2C_Quick idle 5 0x01 0xEE
        ⟨[], false, [irq 0x08 0, irq 0x20 0]⟩))).2⟩

/-- Claim C16: the task events of a call of submit-and-wait that returns.  When
the enqueue fails, the failed `xQueueSend` is all it does.  When it succeeds,
the task events are, in order: the send, the critical section (with the start
command iff the busy flag was clear), one `xQueueReceive` on the completion
queue with a timeout of 35 ticks, and then `vTaskDelay(35)` exactly once if
the wait timed out or the status of the descriptor is nonzero, and nothing
if the signal was received and the status is 0.  So the descriptor is
enqueued at most once and at most one start command is issued by the call. -/
theorem C16_wait_and_recovery_delay (s s' : I2CState) (p : Nat) (env : WaitEnv)
    (h : prvI2C_Transaction s p env = .ok s') :
    ((prvI2C_Transaction_send s p).2 = false →
        newEvents s s' = [.xQueueSend p false])
    ∧ ((prvI2C_Transaction_send s p).2 = true →
        ∃ s1, runISR (prvI2C_Transaction_submit s p).1 env.duringWait = .ok s1
          ∧ taskEvents false (newEvents s s') =
              [.xQueueSend p true, .portENTER_CRITICAL]
                ++ (if s.ucI2C_busy = false then [Event.write .I2C0CONSET 0x20] else [])
                ++ [.portEXIT_CRITICAL, .xQueueReceive (s.mem p).pxHandle 35 env.received]
                ++ (if env.received = true ∧ (s1.mem p).status = 0 then []
                    else [Event.vTaskDelay 35])
          ∧ (taskEvents false (newEvents s s')).count (.vTaskDelay 35)
              = (if env.received = false ∨ (s1.mem p).status ≠ 0 then 1 else 0)
          ∧ (taskEvents false (newEvents s s')).count (.xQueueSend p true) = 1
          ∧ startCount (taskEvents false (newEvents s s')) ≤ 1) := by
  unfold prvI2C_Transaction at h
  by_cases hroom : s.pxI2C_RQ.length < s.uxQueueLength
  · obtain ⟨hsub, htr0⟩ := submit_trace s p hroom
    have hsend : (prvI2C_Transaction_send s p).2 = true := by
      simp [prvI2C_Transaction_send, I2CState.store, hroom]
    refine ⟨fun hf => (by rw [hsend] at hf; cases hf), fun _ => ?_⟩
    simp only [hsub, ↓reduceIte] at h
    unfold prvI2C_Transaction_wait at h
    have hh := (submit_sameRequest s p p).2.1
    generalize (prvI2C_Transaction_submit s p).1 = S0 at h htr0 hh ⊢
    cases hw : runISR S0 env.duringWait with
    | error f => rw [hw] at h; cases h
    | ok s1 =>
      rw [hw] at h
      simp only at h
      have hh1 : (s1.mem p).pxHandle = (s.mem p).pxHandle :=
        ((runISR_sameRequest _ _ _ hw p).2.1).trans hh
      have t1 := runISR_trace _ _ _ hw
      have k1 := fun rest => taskEvents_runISR _ _ _ rest hw
      generalize newEvents S0 s1 = W at t1 k1
      refine ⟨s1, rfl, ?_⟩
      have key : taskEvents false (newEvents s s') =
          [.xQueueSend p true, .portENTER_CRITICAL]
            ++ (if s.ucI2C_busy = false then [Event.write .I2C0CONSET 0x20] else [])
            ++ [.portEXIT_CRITICAL, .xQueueReceive (s.mem p).pxHandle 35 env.received]
            ++ (if env.received = true ∧ (s1.mem p).status = 0 then []
                else [Event.vTaskDelay 35]) := by
        by_cases hc : env.received ≠ true ∨
            ((s1.emit (.xQueueReceive (s1.mem p).pxHandle 35 env.received)).mem p).status ≠ 0
        · rw [if_pos hc] at h
          have t2 := runISR_trace _ _ _ h
          have k2 := fun rest => taskEvents_runISR _ _ _ rest h
          generalize newEvents ((s1.emit (.xQueueReceive (s1.mem p).pxHandle 35
            env.received)).emit (.vTaskDelay 35)) s' = D at t2 k2
          simp only [I2CState.emit] at t2 hc
          have hn : ¬ (env.received = true ∧ (s1.mem p).status = 0) := by
            intro ⟨a, b⟩
            rcases hc with c | c
            · exact c a
            · exact c b
          have e : s'.trace = s.trace ++ (([.xQueueSend p true, .portENTER_CRITICAL]
              ++ (if s.ucI2C_busy = false then [Event.write .I2C0CONSET 0x20] else [])
              ++ [.portEXIT_CRITICAL]) ++ (W ++ ([.xQueueReceive (s.mem p).pxHandle 35
                env.received, .vTaskDelay 35] ++ (D ++ [])))) := by
            rw [t2, t1, htr0, hh1]; simp only [List.append_assoc, List.append_nil,
              List.cons_append, List.nil_append]
          rw [newEvents_of_eq e, taskEvents_task _ _ (by split <;> simp), k1,
            taskEvents_task _ _ (by simp), k2, if_neg hn]
          simp [taskEvents]
        · rw [if_neg hc] at h
          simp only [Except.ok.injEq] at h
          simp only [I2CState.emit] at h hc
          have hy : env.received = true ∧ (s1.mem p).status = 0 := by
            simp only [not_or, not_not] at hc
            exact hc
          have e : s'.trace = s.trace ++ (([.xQueueSend p true, .portENTER_CRITICAL]
              ++ (if s.ucI2C_busy = false then [Event.write .I2C0CONSET 0x20] else [])
              ++ [.portEXIT_CRITICAL]) ++ (W ++ ([.xQueueReceive (s.mem p).pxHandle 35
                env.received] ++ []))) := by
            rw [← h]
            simp only [t1, htr0, hh1, List.append_assoc, List.append_nil, List.cons_append,
              List.nil_append]
          rw [newEvents_of_eq e, taskEvents_task _ _ (by split <;> simp), k1,
            taskEvents_task _ _ (by simp), if_pos hy]
          simp [taskEvents]
      refine ⟨key, ?_, ?_, ?_⟩
      · rw [key]
        cases hr : env.received <;> by_cases hz : (s1.mem p).status = 0 <;>
          cases hb : s.ucI2C_busy <;> simp [hz, List.count_cons]
      · rw [key]
        cases hr : env.received <;> by_cases hz : (s1.mem p).status = 0 <;>
          cases hb : s.ucI2C_busy <;> simp [hz, List.count_cons]
      · rw [key]
        cases hr : env.received <;> by_cases hz : (s1.mem p).status = 0 <;>
          cases hb : s.ucI2C_busy <;>
          simp +decide [hz, startCount, busOps, Event.busOps]
  · have hsend : (prvI2C_Transaction_send s p).2 = false := by
      simp [prvI2C_Transaction_send, I2CState.store, hroom]
    refine ⟨fun _ => ?_, fun hf => (by rw [hsend] at hf; cases hf)⟩
    simp only [prvI2C_Transaction_submit, hsend, Bool.false_eq_true, ↓reduceIte,
      Except.ok.injEq] at h
    rw [← h]
    simp [prvI2C_Transaction_send, hroom, I2CState.store, I2CState.emit, newEvents]

/-- Claim C16 at a rejected call on the full one-slot queue, and at the call
`nakReturned`, whose signal is received with status 0xF0: one wait of 35
ticks, one delay of 35 ticks, one send, one start command. -/
theorem C16_wait_and_recovery_delay_witness :
    newEvents { idle with pxI2C_RQ := [9] }
        (okOr idle (prvI2C_Transaction { idle with pxI2C_RQ := [9] } 5 ⟨[], false, []⟩))
      = [.xQueueSend 5 false]
    ∧ ∃ s1, runISR (prvI2C_Transaction_submit idle 5).1 [irq 0x08 0, irq 0x20 0] = .ok s1
        ∧ taskEvents false (newEvents idle nakReturned) =
            [.xQueueSend 5 true, .portENTER_CRITICAL]
              ++ (if idle.ucI2C_busy = false then [Event.write .I2C0CONSET 0x20] else [])
              ++ [.portEXIT_CRITICAL, .xQueueReceive (idle.mem 5).pxHandle 35 true]
              ++ (if true = true ∧ (s1.mem 5).status = 0 then [] else [Event.vTaskDelay 35])
        ∧ (taskEvents false (newEvents idle nakReturned)).count (.vTaskDelay 35)
            = (if true = false ∨ (s1.mem 5).status ≠ 0 then 1 else 0)
        ∧ (taskEvents false (newEvents idle nakReturned)).count (.xQueueSend 5 true) = 1
        ∧ startCount (taskEvents false (newEvents idle nakReturned)) ≤ 1 :=
  ⟨(C16_wait_and_recovery_delay { idle with pxI2C_RQ := [9] }
      (okOr idle (prvI2C_Transaction { idle with pxI2C_RQ := [9] } 5 ⟨[], false, []⟩)) 5
      ⟨[], false, []⟩ rfl).1 rfl,
   (C16_wait_and_recovery_delay idle nakReturned 5 ⟨[irq 0x08 0, irq 0x20 0], true, []⟩
      rfl).2 rfl⟩

/-- Claim C17: for every data argument `w`, `write_word` hands submit-and-wait a
descriptor whose payload is the little-endian split of the low 16 bits of
`w`: `payload[0] = w mod 256`, `payload[1] = (w div 256) mod 256`, and so
`payload[0] + 256 * payload[1] = w mod 65536`. -/
theorem C17_write_word_little_endian (s : I2CState) (p addr cmd w : Nat) :
    ∃ d, (∀ env, HandsOver s p env d (ucI2C_WriteWord s p addr cmd w env))
      ∧ d.data0 = w % 256 ∧ d.data1 = (w / 256) % 256
      ∧ d.data0 + 256 * d.data1 = w % 65536 := by
  refine ⟨{ s.mem p with opcode := I2C_WriteWord, addr := addr, comm := cmd,
                         data0 := (w &&& 0x00FF) % 256,
                         data1 := ((w &&& 0xFF00) >>> 8) % 256 },
    fun _ => ⟨rfl, rfl, rfl⟩, ?_, ?_, ?_⟩
  · simp only [and_0x00FF, Nat.mod_mod]
  · exact and_0xFF00_shift w
  · simp only [and_0x00FF, and_0xFF00_shift, Nat.mod_mod]
    omega

/-- Claim C18: each of the seven transaction operations hands submit-and-wait a
descriptor with its own opcode (Quick 0, SendByte 1, ReceiveByte 2, WriteByte
3, ReadByte 4, WriteWord 5, ReadWord 6) and the address argument; the command
argument for WriteByte, ReadByte, WriteWord and ReadWord; the data argument
in `payload[0]` for Quick, SendByte and WriteByte; both payload bytes as they
were for ReceiveByte, ReadByte and ReadWord; the requester id and the
completion queue as they were; and it returns the status field of the
descriptor as it stands when `prvI2C_Transaction` returns.  Requester id and
completion queue are also unchanged when `prvI2C_Transaction` returns. -/
theorem C18_operations_fill_descriptor (s : I2CState) (p addr cmd data : Nat) :
    (∃ d, (∀ env, HandsOver s p env d (ucI2C_Quick s p addr data env))
        ∧ d.opcode = I2C_Quick ∧ d.opcode = 0 ∧ d.addr = addr ∧ d.data0 = data)
    ∧ (∃ d, (∀ env, HandsOver s p env d (ucI2C_SendByte s p addr data env))
        ∧ d.opcode = I2C_SendByte ∧ d.opcode = 1 ∧ d.addr = addr ∧ d.data0 = data)
    ∧ (∃ d, (∀ env, HandsOver s p env d (ucI2C_ReceiveByte s p addr env))
        ∧ d.opcode = I2C_ReceiveByte ∧ d.opcode = 2 ∧ d.addr = addr
        ∧ d.data0 = (s.mem p).data0 ∧ d.data1 = (s.mem p).data1)
    ∧ (∃ d, (∀ env, HandsOver s p env d (ucI2C_WriteByte s p addr cmd data env))
        ∧ d.opcode = I2C_WriteByte ∧ d.opcode = 3 ∧ d.addr = addr ∧ d.comm = cmd
        ∧ d.data0 = data)
    ∧ (∃ d, (∀ env, HandsOver s p env d (ucI2C_ReadByte s p addr cmd env))
        ∧ d.opcode = I2C_ReadByte ∧ d.opcode = 4 ∧ d.addr = addr ∧ d.comm = cmd
        ∧ d.data0 = (s.mem p).data0 ∧ d.data1 = (s.mem p).data1)
    ∧ (∃ d, (∀ env, HandsOver s p env d (ucI2C_WriteWord s p addr cmd data env))
        ∧ d.opcode = I2C_WriteWord ∧ d.opcode = 5 ∧ d.addr = addr ∧ d.comm = cmd)
    ∧ (∃ d, (∀ env, HandsOver s p env d (ucI2C_ReadWord s p addr cmd env))
        ∧ d.opcode = I2C_ReadWord ∧ d.opcode = 6 ∧ d.addr = addr ∧ d.comm = cmd
        ∧ d.data0 = (s.mem p).data0 ∧ d.data1 = (s.mem p).data1)
    ∧ (∀ d env s', d.reqID = (s.mem p).reqID → d.pxHandle = (s.mem p).pxHandle →
        prvI2C_Transaction (s.store p d) p env = .ok s' →
        (s'.mem p).reqID = (s.mem p).reqID ∧ (s'.mem p).pxHandle = (s.mem p).pxHandle) := by
  refine ⟨⟨{ s.mem p with opcode := I2C_Quick, addr := addr, data0 := data },
      fun _ => ⟨rfl, rfl, rfl⟩, rfl, rfl, rfl, rfl⟩,
    ⟨{ s.mem p with opcode := I2C_SendByte, addr := addr, data0 := data },
      fun _ => ⟨rfl, rfl, rfl⟩, rfl, rfl, rfl, rfl⟩,
    ⟨{ s.mem p with opcode := I2C_ReceiveByte, addr := addr },
      fun _ => ⟨rfl, rfl, rfl⟩, rfl, rfl, rfl, rfl, rfl⟩,
    ⟨{ s.mem p with opcode := I2C_WriteByte, addr := addr, comm := cmd, data0 := data },
      fun _ => ⟨rfl, rfl, rfl⟩, rfl, rfl, rfl, rfl, rfl⟩,
    ⟨{ s.mem p with opcode := I2C_ReadByte, addr := addr, comm := cmd },
      fun _ => ⟨rfl, rfl, rfl⟩, rfl, rfl, rfl, rfl, rfl, rfl⟩,
    ⟨{ s.mem p with opcode := I2C_WriteWord, addr := addr, comm := cmd,
                    data0 := (data &&& 0x00FF) % 256,
                    data1 := ((data &&& 0xFF00) >>> 8) % 256 },
      fun _ => ⟨rfl, rfl, rfl⟩, rfl, rfl, rfl, rfl⟩,
    ⟨{ s.mem p with opcode := I2C_ReadWord, addr := addr, comm := cmd },
      fun _ => ⟨rfl, rfl, rfl⟩, rfl, rfl, rfl, rfl, rfl, rfl⟩, ?_⟩
  intro d env s' h1 h2 h
  have hs := prvI2C_Transaction_sameRequest _ _ p env h p
  simp only [I2CState.store, Function.update_same] at hs
  exact ⟨hs.1.trans h1, hs.2.1.trans h2⟩

/-- Claim C18 at `read_byte(0x40, 0x77)` on the initialised driver with the
transaction 0x08, 0x18, 0x28, 0x10, 0x40, 0x58: requester id and completion
queue of descriptor 5 are what they were. -/
theorem C18_operations_fill_descriptor_witness :
    ((okOr idle (prvI2C_Transaction
        (idle.store 5 { idle.mem 5 with opcode := I2C_ReadByte, addr := 0x40, comm := 0x77 }) 5
        ⟨[irq 0x08 0, irq 0x18 0, irq 0x28 0, irq 0x10 0, irq 0x40 0, irq 0x58 0xA1], true,
          []⟩)).mem 5).reqID = (idle.mem 5).reqID
    ∧ ((okOr idle (prvI2C_Transaction
        (idle.store 5 { idle.mem 5 with opcode := I2C_ReadByte, addr := 0x40, comm := 0x77 }) 5
        ⟨[irq 0x08 0, irq 0x18 0, irq 0x28 0, irq 0x10 0, irq 0x40 0, irq 0x58 0xA1], true,
          []⟩)).mem 5).pxHandle = (idle.mem 5).pxHandle :=
  (C18_operations_fill_descriptor idle 5 0x40 0x77 0).2.2.2.2.2.2.2
    { idle.mem 5 with opcode := I2C_ReadByte, addr := 0x40, comm := 0x77 }
    ⟨[irq 0x08 0, irq 0x18 0, irq 0x28 0, irq 0x10 0, irq 0x40 0, irq 0x58 0xA1], true, []⟩
    _ rfl rfl rfl

/-- Claim C19: a start-condition-sent (0x08) step with a descriptor to work on
(one already active, or one it dequeues) leaves a descriptor `p` active and
writes exactly one byte to the data register: `(address << 1) mod 256`, with
bit 0 set iff the opcode of `p` is ReceiveByte; the upper seven bits are the
address, and the phase recorded is address-read iff the opcode is ReceiveByte
and address-write otherwise.  Hence for the opcodes of the six other
operations bit 0 of the byte is clear. -/
theorem C19_start_sent_address_byte (s : I2CState) (i : IsrIn) (hs : startSent i = true)
    (hact : s.pxI2C ≠ none ∨ (s.ucI2C_pending = false ∧ s.pxI2C_RQ ≠ [])) :
    ∃ s' p b, vI2C_ISR s i = .ok s' ∧ s'.pxI2C = some p
      ∧ dataWrites (newEvents s s') = [b]
      ∧ b = (if (s.mem p).opcode = I2C_ReceiveByte then ((s.mem p).addr <<< 1) % 256 ||| 0x01
              else ((s.mem p).addr <<< 1) % 256)
      ∧ b / 2 = (s.mem p).addr % 128
      ∧ (b % 2 = 1 ↔ (s.mem p).opcode = I2C_ReceiveByte)
      ∧ s'.ucI2C_cstate
          = (if (s.mem p).opcode = I2C_ReceiveByte then I2C_RD_ADDR else I2C_WR_ADDR)
      ∧ ((s.mem p).opcode ∈ [I2C_Quick, I2C_SendByte, I2C_WriteByte, I2C_ReadByte,
            I2C_WriteWord, I2C_ReadWord] → b % 2 = 0) := by
  obtain ⟨s', p, b, h1, h2, h3, h4, h5, h6, h7⟩ := start_sent_step s i hs hact
  refine ⟨s', p, b, h1, h2, h3, h4, h5, h6, h7, fun hm => ?_⟩
  have hne : (s.mem p).opcode ≠ I2C_ReceiveByte := by
    intro e
    rw [e] at hm
    revert hm
    decide
  have : ¬ b % 2 = 1 := fun h => hne (h6.mp h)
  omega

/-- Claim C19 at the start-sent step of a `receive_byte(0x40)` submitted on the
initialised driver: the byte written is 0x81 and the phase is address-read. -/
theorem C19_start_sent_address_byte_witness :
    ∃ s' p b, vI2C_ISR receiveSubmitted (irq 0x08 0) = .ok s' ∧ s'.pxI2C = some p
      ∧ dataWrites (newEvents receiveSubmitted s') = [b]
      ∧ b = (if (receiveSubmitted.mem p).opcode = I2C_ReceiveByte
              then ((receiveSubmitted.mem p).addr <<< 1) % 256 ||| 0x01
              else ((receiveSubmitted.mem p).addr <<< 1) % 256)
      ∧ b / 2 = (receiveSubmitted.mem p).addr % 128
      ∧ (b % 2 = 1 ↔ (receiveSubmitted.mem p).opcode = I2C_ReceiveByte)
      ∧ s'.ucI2C_cstate
          = (if (receiveSubmitted.mem p).opcode = I2C_ReceiveByte then I2C_RD_ADDR
              else I2C_WR_ADDR)
      ∧ ((receiveSubmitted.mem p).opcode ∈ [I2C_Quick, I2C_SendByte, I2C_WriteByte,
            I2C_ReadByte, I2C_WriteWord, I2C_ReadWord] → b % 2 = 0) :=
  C19_start_sent_address_byte receiveSubmitted (irq 0x08 0) rfl (Or.inr ⟨rfl, by decide⟩)

/-- Claim C20 on the code.  `write_word(0x20, 0x99, 0xBEEF)` has transmitted its
address, its command and `payload[0] = 0xEF` when arbitration is lost.  The
repeated-start step (0x10) re-sends the address 0x40 and the 0x18 step the
command 0x99, but the write counter still stands at 1: the first data-ACK
step (0x28) transmits `payload[1] = 0xBE`, not `payload[0]`, and the second
one is the terminal step.  After the re-sent address the data register gets
0x99, 0xBE instead of 0x99, 0xEF, 0xBE, and the status is 0 all the same; the
whole call returns 0. -/
theorem C20_restart_skips_first_payload_byte :
    dataWrites wordLostArbitration.trace = [0x40, 0x99, 0xEF]
    ∧ wordLostArbitration.ucI2C_wr_count = 1
    ∧ (wordLostArbitration.mem 5).data0 = 0xEF ∧ (wordLostArbitration.mem 5).data1 = 0xBE
    ∧ ∃ sAddr r,
        vI2C_ISR wordLostArbitration (irq 0x10 0) = .ok sAddr
        ∧ dataWrites (newEvents wordLostArbitration sAddr) = [0x40]
        ∧ sAddr.ucI2C_wr_count = 1
        ∧ runToTerminal sAddr [irq 0x18 0, irq 0x28 0, irq 0x28 0] = .ok r
        ∧ r.2 = [] ∧ terminalStep (irq 0x28 0) r.1 = true
        ∧ dataWrites (newEvents sAddr r.1) = [0x99, 0xBE]
        ∧ payloadReads (newEvents sAddr r.1) = [1]
        ∧ dataWrites (newEvents sAddr r.1) ≠ [0x99, 0xEF, 0xBE]
        ∧ (r.1.mem 5).status = 0
        ∧ ∃ res, ucI2C_WriteWord idle 5 0x20 0x99 0xBEEF
              ⟨[irq 0x08 0, irq 0x18 0, irq 0x28 0, irq 0x38 0, irq 0x10 0, irq 0x18 0,
                irq 0x28 0, irq 0x28 0], true, []⟩ = .ok res
            ∧ res.2 = 0
            ∧ dataWrites (newEvents idle res.1) = [0x40, 0x99, 0xEF, 0x40, 0x99, 0xBE] :=
  ⟨by decide, rfl, rfl, rfl,
   okOr idle (vI2C_ISR wordLostArbitration (irq 0x10 0)),
   okOr (idle, []) (runToTerminal (okOr idle (vI2C_ISR wordLostArbitration (irq 0x10 0)))
      [irq 0x18 0, irq 0x28 0, irq 0x28 0]),
   rfl, by decide, rfl, rfl, rfl, rfl, by decide, by decide, by decide, rfl,
   okOr (idle, 1) (ucI2C_WriteWord idle 5 0x20 0x99 0xBEEF
      ⟨[irq 0x08 0, irq 0x18 0, irq 0x28 0, irq 0x38 0, irq 0x10 0, irq 0x18 0,
        irq 0x28 0, irq 0x28 0], true, []⟩),
   rfl, rfl, by decide⟩

/-- Claim C21: in whatever state the routine is entered, a repeated-start (0x10)
step and an arbitration-lost (0x38) step leave the write counter and the read
counter as they were, and a start-condition-sent (0x08) step leaves both
counters 0 and the arbitration-lost flag clear.  The 0x38 step always
returns; the 0x10 step returns when there is an active descriptor or the
arbitration-lost flag is clear, the 0x08 step when there is a descriptor to
work on. -/
theorem C21_counters_reset_only_on_start (s : I2CState) (i : IsrIn)
    (hsi : i.I2C0CONSET &&& 0x08 ≠ 0) :
    (∀ s', vI2C_ISR s i = .ok s' →
        ((i.I2C0STAT % 256 = 0x10 ∨ i.I2C0STAT % 256 = 0x38) →
          s'.ucI2C_wr_count = s.ucI2C_wr_count ∧ s'.ucI2C_rd_count = s.ucI2C_rd_count)
        ∧ (i.I2C0STAT % 256 = 0x08 →
          s'.ucI2C_wr_count = 0 ∧ s'.ucI2C_rd_count = 0 ∧ s'.ucI2C_lostarb = 0))
    ∧ (i.I2C0STAT % 256 = 0x38 → ∃ s', vI2C_ISR s i = .ok s')
    ∧ (i.I2C0STAT % 256 = 0x10 → (s.pxI2C ≠ none ∨ s.ucI2C_lostarb = 0) →
        ∃ s', vI2C_ISR s i = .ok s')
    ∧ (i.I2C0STAT % 256 = 0x08 →
        (s.pxI2C ≠ none ∨ (s.ucI2C_pending = false ∧ s.pxI2C_RQ ≠ [])) →
        ∃ s', vI2C_ISR s i = .ok s') := by
  refine ⟨fun s' h => ?_, fun hc => ?_, fun hc hact => ?_, fun hc hact => ?_⟩
  · obtain ⟨s1, hsw, _, _, w, r, l, _, _⟩ := vI2C_ISR_statics s s' i hsi h
    obtain ⟨k1, k2⟩ := switch_status_counters _ _ _ hsw
    simp only [isr_latch, isr_prologue, I2CState.emit] at k1 k2
    rw [w, r, l]
    exact ⟨k1, k2⟩
  · exact vI2C_ISR_ok_of_switch s _ i hsi
      (by simp [switch_status, isr_latch, hc, case_0x38]; rfl)
      (by simp +decide [terminalPhase, I2CState.emit, I2C_LOST_ARB, I2C_STOP, I2C_ERROR_STOP])
  · cases hl : s.ucI2C_lostarb with
    | zero =>
      refine vI2C_ISR_ok_of_switch s _ i hsi
        (by simp [switch_status, isr_latch, isr_prologue, I2CState.emit, hc, case_0x10, hl]; rfl)
        (by simp +decide [terminalPhase, I2CState.emit, I2C_RD_ADDR, I2C_STOP, I2C_ERROR_STOP])
    | succ n =>
      cases hp : s.pxI2C with
      | none => simp [hp, hl] at hact
      | some p =>
        by_cases ho : (s.mem p).opcode = 2
        · refine vI2C_ISR_ok_of_switch s _ i hsi
            (by simp [switch_status, isr_latch, isr_prologue, I2CState.emit, hc, case_0x10, hl,
              hp, ho]; rfl)
            (by simp +decide [terminalPhase, I2CState.emit, I2C_RD_ADDR, I2C_STOP,
              I2C_ERROR_STOP])
        · refine vI2C_ISR_ok_of_switch s _ i hsi
            (by simp [switch_status, isr_latch, isr_prologue, I2CState.emit, hc, case_0x10, hl,
              hp, ho]; rfl)
            (by simp +decide [terminalPhase, I2CState.emit, I2C_WR_ADDR, I2C_STOP,
              I2C_ERROR_STOP])
  · obtain ⟨s', _, _, h, _⟩ := start_sent_step s i (by simp [startSent, hsi, hc]) hact
    exact ⟨s', h⟩

/-- Claim C21 at the WriteWord transaction that has transmitted `payload[0]` and
lost arbitration (write counter 1): a 0x10 step keeps the counters, and the
0x38, 0x10 steps return; and at the start-sent step of the submitted
WriteWord request, which leaves the counters 0 and the flag clear. -/
theorem C21_counters_reset_only_on_start_witness :
    ((okOr idle (vI2C_ISR wordLostArbitration (irq 0x10 0))).ucI2C_wr_count
          = wordLostArbitration.ucI2C_wr_count
        ∧ (okOr idle (vI2C_ISR wordLostArbitration (irq 0x10 0))).ucI2C_rd_count
          = wordLostArbitration.ucI2C_rd_count)
    ∧ ((okOr idle (vI2C_ISR wordSubmitted (irq 0x08 0))).ucI2C_wr_count = 0
        ∧ (okOr idle (vI2C_ISR wordSubmitted (irq 0x08 0))).ucI2C_rd_count = 0
        ∧ (okOr idle (vI2C_ISR wordSubmitted (irq 0x08 0))).ucI2C_lostarb = 0)
    ∧ (∃ s', vI2C_ISR wordLostArbitration (irq 0x38 0) = .ok s')
    ∧ (∃ s', vI2C_ISR wordLostArbitration (irq 0x10 0) = .ok s')
    ∧ (∃ s', vI2C_ISR wordSubmitted (irq 0x08 0) = .ok s') :=
  ⟨((C21_counters_reset_only_on_start wordLostArbitration (irq 0x10 0) (by decide)).1
      _ rfl).1 (Or.inl rfl),
   ((C21_counters_reset_only_on_start wordSubmitted (irq 0x08 0) (by decide)).1 _ rfl).2 rfl,
   (C21_counters_reset_only_on_start wordLostArbitration (irq 0x38 0) (by decide)).2.1 rfl,
   (C21_counters_reset_only_on_start wordLostArbitration (irq 0x10 0) (by decide)).2.2.1 rfl
      (Or.inl (by decide)),
   (C21_counters_reset_only_on_start wordSubmitted (irq 0x08 0) (by decide)).2.2.2 rfl
      (Or.inr ⟨rfl, by decide⟩)⟩

/-- Claim C22: the busy flag has one writer per direction.  No invocation of the
interrupt routine, and no run of invocations, turns the flag from false to
true.  The send of submit-and-wait leaves the flag alone and writes no
register; its critical section leaves the flag true, writes the start
command and nothing else when the flag was false, and writes no register when
it was true; so a call during which no interrupt is serviced never turns the
flag from true to false, and the flag changes in the call exactly when the
call writes the start command, which it does at most once. -/
theorem C22_busy_flag_writers (s s' : I2CState) (i : IsrIn) (is : List IsrIn) (p : Nat)
    (received : Bool) :
    (vI2C_ISR s i = .ok s' → s.ucI2C_busy = false → s'.ucI2C_busy = false)
    ∧ (runISR s is = .ok s' → s.ucI2C_busy = false → s'.ucI2C_busy = false)
    ∧ (prvI2C_Transaction_send s p).1.ucI2C_busy = s.ucI2C_busy
    ∧ regWrites (newEvents s (prvI2C_Transaction_send s p).1) = []
    ∧ (prvI2C_Transaction_critical s).ucI2C_busy = true
    ∧ (s.ucI2C_busy = true →
        regWrites (newEvents s (prvI2C_Transaction_critical s)) = [])
    ∧ (s.ucI2C_busy = false →
        newEvents s (prvI2C_Transaction_critical s)
          = [.portENTER_CRITICAL, .write .I2C0CONSET 0x20, .portEXIT_CRITICAL])
    ∧ ∃ s2, prvI2C_Transaction s p ⟨[], received, []⟩ = .ok s2
        ∧ (s.ucI2C_busy = true → s2.ucI2C_busy = true)
        ∧ (s2.ucI2C_busy ≠ s.ucI2C_busy ↔ startCount (newEvents s s2) = 1)
        ∧ startCount (newEvents s s2) ≤ 1
        ∧ regWrites (newEvents s s2)
            = (if s2.ucI2C_busy ≠ s.ucI2C_busy then [(.I2C0CONSET, 0x20)] else []) := by
  have step : ∀ (a b : I2CState) (j : IsrIn), vI2C_ISR a j = .ok b →
      a.ucI2C_busy = false → b.ucI2C_busy = false := by
    intro a b j h hb
    obtain ⟨_, ⟨_, e, _⟩ | ⟨_, _, _, ⟨_, _, _, e, _⟩ | ⟨_, _, _, e, _⟩⟩⟩ := vI2C_ISR_effect a b j h
    · rw [e, hb]
    · exact e
    · rw [e, hb]
  refine ⟨step s s' i, ?_, ?_, ?_, ?_, ?_, ?_, ?_⟩
  · intro h hb
    induction is generalizing s with
    | nil =>
      simp only [runISR, Except.ok.injEq] at h
      rw [← h]; exact hb
    | cons j is ih =>
      simp only [runISR] at h
      cases hs : vI2C_ISR s j with
      | error f => rw [hs] at h; cases h
      | ok s1 =>
        rw [hs] at h
        exact ih s1 h (step s s1 j hs hb)
  · by_cases hroom : s.pxI2C_RQ.length < s.uxQueueLength <;>
      simp [prvI2C_Transaction_send, I2CState.store, I2CState.emit, hroom]
  · by_cases hroom : s.pxI2C_RQ.length < s.uxQueueLength <;>
      simp [prvI2C_Transaction_send, I2CState.store, I2CState.emit, hroom, newEvents, regWrites]
  · cases hb : s.ucI2C_busy <;> simp [prvI2C_Transaction_critical, I2CState.emit, hb]
  · intro hb
    simp [prvI2C_Transaction_critical, I2CState.emit, hb, newEvents, regWrites]
  · intro hb
    simp [prvI2C_Transaction_critical, I2CState.emit, hb, newEvents]
  · by_cases hroom : s.pxI2C_RQ.length < s.uxQueueLength <;> cases hb : s.ucI2C_busy <;>
      cases received <;>
      simp +decide [prvI2C_Transaction, prvI2C_Transaction_submit, prvI2C_Transaction_send,
        prvI2C_Transaction_critical, prvI2C_Transaction_wait, runISR, I2CState.store,
        I2CState.emit, hroom, hb, newEvents, regWrites, startCount, busOps, Event.busOps]

/-- Claim C22 at the driver whose Quick transaction has ended (busy flag false): a
stray address-NAK step and the steps 0x38, 0x10 leave the flag false; at the
driver with that transaction in flight (flag true) the critical section
writes no register; on the idle driver it writes the start command. -/
theorem C22_busy_flag_writers_witness :
    (okOr idle (vI2C_ISR quickDone (irq 0x20 0))).ucI2C_busy = false
    ∧ (okOr idle (runISR quickDone [irq 0x38 0, irq 0x10 0])).ucI2C_busy = false
    ∧ regWrites (newEvents quickStarted (prvI2C_Transaction_critical quickStarted)) = []
    ∧ newEvents idle (prvI2C_Transaction_critical idle)
        = [.portENTER_CRITICAL, .write .I2C0CONSET 0x20, .portEXIT_CRITICAL] :=
  ⟨(C22_busy_flag_writers quickDone (okOr idle (vI2C_ISR quickDone (irq 0x20 0))) (irq 0x20 0)
      [] 5 true).1 rfl rfl,
   (C22_busy_flag_writers quickDone (okOr idle (runISR quickDone [irq 0x38 0, irq 0x10 0]))
      (irq 0x20 0) [irq 0x38 0, irq 0x10 0] 5 true).2.1 rfl rfl,
   (C22_busy_flag_writers quickStarted idle (irq 0x20 0) [] 5 true).2.2.2.2.2.1 rfl,
   (C22_busy_flag_writers idle idle (irq 0x20 0) [] 5 true).2.2.2.2.2.2.1 rfl⟩

/-- Claim C23: the deferred front-end, for every value read from `VICIRQStatus`.
When bit 9 is set its events are the semaphore give, the write of 0x200
to `VICIntEnClear`, the yield request iff the give woke a task, and the
end-of-interrupt write; when bit 9 is clear the end-of-interrupt write is its
only event.  Its register writes go to the interrupt controller only.  It
leaves every field of the driver state other than the trace
as it was: queue, busy flag, descriptors, active descriptor and protocol
statics. -/
theorem C23_deferred_front_end (s : I2CState) (i : DeferredIn) :
    (i.VICIRQStatus &&& 0x200 ≠ 0 ↔ i.VICIRQStatus.testBit 9 = true)
    ∧ (i.VICIRQStatus.testBit 9 = true →
        newEvents s (Deferred.vI2C_ISR s i).1
          = [.xSemaphoreGiveFromISR, .write .VICIntEnClear 0x200]
            ++ (if i.semaphoreWoke = true then [Event.portYIELD_FROM_ISR] else [])
            ++ [.write .VICVectAddr 0x0])
    ∧ (i.VICIRQStatus.testBit 9 = false →
        newEvents s (Deferred.vI2C_ISR s i).1 = [.write .VICVectAddr 0x0])
    ∧ (Deferred.vI2C_ISR s i).2 = (i.VICIRQStatus.testBit 9 && i.semaphoreWoke)
    ∧ (newEvents s (Deferred.vI2C_ISR s i).1).getLast? = some (.write .VICVectAddr 0x0)
    ∧ regWrites (newEvents s (Deferred.vI2C_ISR s i).1)
        = (if i.VICIRQStatus.testBit 9 = true then [(Reg.VICIntEnClear, 0x200)] else [])
          ++ [(.VICVectAddr, 0x0)]
    ∧ (Deferred.vI2C_ISR s i).1 = { s with trace := (Deferred.vI2C_ISR s i).1.trace }
    ∧ (Deferred.vI2C_ISR s i).1.pxI2C_RQ = s.pxI2C_RQ
    ∧ (Deferred.vI2C_ISR s i).1.ucI2C_busy = s.ucI2C_busy
    ∧ (Deferred.vI2C_ISR s i).1.mem = s.mem := by
  have hbit : (i.VICIRQStatus &&& 0x200 ≠ 0 ↔ i.VICIRQStatus.testBit 9 = true) := by
    have e : (0x200 : Nat) = 2 ^ 9 := rfl
    rw [e, Nat.and_two_pow]
    cases i.VICIRQStatus.testBit 9 <;> simp
  refine ⟨hbit, ?_⟩
  by_cases hb : i.VICIRQStatus &&& 0x200 ≠ 0
  · have ht := hbit.mp hb
    cases hw : i.semaphoreWoke <;>
      simp [Deferred.vI2C_ISR, I2CState.emit, hb, ht, hw, newEvents, regWrites]
  · have ht : i.VICIRQStatus.testBit 9 = false := by
      cases h : i.VICIRQStatus.testBit 9
      · rfl
      · exact absurd (hbit.mpr h) hb
    simp only [ne_eq, not_not] at hb
    simp [Deferred.vI2C_ISR, I2CState.emit, hb, ht, newEvents, regWrites]

/-- Claim C23 on the initialised driver: with `VICIRQStatus = 0x200` and a woken
task, and with `VICIRQStatus = 0x1FF`. -/
theorem C23_deferred_front_end_witness :
    newEvents idle (Deferred.vI2C_ISR idle ⟨0x200, true⟩).1
        = [.xSemaphoreGiveFromISR, .write .VICIntEnClear 0x200]
          ++ (if (⟨0x200, true⟩ : DeferredIn).semaphoreWoke = true
              then [Event.portYIELD_FROM_ISR] else [])
          ++ [.write .VICVectAddr 0x0]
    ∧ newEvents idle (Deferred.vI2C_ISR idle ⟨0x1FF, true⟩).1 = [.write .VICVectAddr 0x0] :=
  ⟨(C23_deferred_front_end idle ⟨0x200, true⟩).2.1 (by decide),
   (C23_deferred_front_end idle ⟨0x1FF, true⟩).2.2.1 (by decide)⟩

/-- Claim C24 on the code.  A `read_byte(0x40, 0x77)` has sent its address
(0x80), its command and, after the turnaround, its address with the read bit
(0x81) when arbitration is lost; the address byte kept by the routine is
0x81.  The repeated-start step (0x10) that follows takes the
arbitration-lost branch: it records the phase address-write, the original
direction of a ReadByte, but writes the address byte as it stands, 0x81,
whose bit 0 says read.  The direction bit and the recorded phase disagree. -/
theorem C24_retry_after_turnaround_sends_read_bit :
    (readByteLostArbitration.mem 5).opcode = I2C_ReadByte
    ∧ readByteLostArbitration.pxI2C = some 5
    ∧ dataWrites readByteLostArbitration.trace = [0x80, 0x77, 0x81]
    ∧ readByteLostArbitration.ucI2C_lostarb = 1
    ∧ readByteLostArbitration.ucI2C_saddr = 0x81
    ∧ ∃ s', vI2C_ISR readByteLostArbitration (irq 0x10 0) = .ok s'
        ∧ dataWrites (newEvents readByteLostArbitration s') = [0x81]
        ∧ 0x81 % 2 = 1
        ∧ s'.ucI2C_cstate = I2C_WR_ADDR ∧ s'.ucI2C_cstate ≠ I2C_RD_ADDR
        ∧ s'.ucI2C_lostarb = 0
        ∧ terminalStep (irq 0x10 0) s' = false :=
  ⟨rfl, rfl, by decide, rfl, rfl,
   okOr idle (vI2C_ISR readByteLostArbitration (irq 0x10 0)),
   rfl, by decide, by decide, rfl, by decide, rfl, rfl⟩

/-- Claim C25, as stated, fails.  A `write_byte` loses arbitration right after
its start (0x08, 0x38) and the code 0x18 is processed next, which leaves the
phase command-sent and the arbitration-lost flag set.  In the repeated-start
step (0x10) that follows, the recorded last phase is command-sent, not
arbitration-lost, and yet the step takes the arbitration-retry branch: the
phase becomes address-write, the address byte 0x10 is written without the
read bit and the flag is cleared. -/
theorem C25_retry_branch_without_lost_phase :
    writeByteLostThenAck.ucI2C_cstate = I2C_COMMAND
    ∧ writeByteLostThenAck.ucI2C_lostarb = 1
    ∧ writeByteLostThenAck.ucI2C_saddr = 0x10
    ∧ ∃ s', vI2C_ISR writeByteLostThenAck (irq 0x10 0) = .ok s'
        ∧ s'.ucI2C_lstate = I2C_COMMAND ∧ s'.ucI2C_lstate ≠ I2C_LOST_ARB
        ∧ s'.ucI2C_cstate = I2C_WR_ADDR ∧ s'.ucI2C_cstate ≠ I2C_RD_ADDR
        ∧ dataWrites (newEvents writeByteLostThenAck s') = [0x10]
        ∧ s'.ucI2C_lostarb = 0 :=
  ⟨rfl, rfl, rfl, okOr idle (vI2C_ISR writeByteLostThenAck (irq 0x10 0)),
   rfl, rfl, by decide, rfl, by decide, by decide, rfl⟩

/-- Claim C25, amended.  The last phase is recorded before dispatch: after a
step on a code other than 0x08 it is the phase held before the step.  A
repeated-start (0x10) step takes the arbitration-retry branch (phase from
the opcode, address byte as it stands) exactly when the arbitration-lost flag
is set, and the read-turnaround branch (phase address-read, read bit set in
the address byte) when it is clear.  In every state reached from the
initialised driver the flag is set whenever the phase is arbitration-lost. -/
theorem C25_last_phase_and_retry_flag (s s' : I2CState) (i : IsrIn)
    (hsi : i.I2C0CONSET &&& 0x08 ≠ 0) (h : vI2C_ISR s i = .ok s') :
    (i.I2C0STAT % 256 ≠ 0x08 → s'.ucI2C_lstate = s.ucI2C_cstate)
    ∧ (i.I2C0STAT % 256 = 0x10 →
        (s.ucI2C_lostarb ≠ 0 →
          ∃ p, s.pxI2C = some p
            ∧ s'.ucI2C_cstate = (if (s.mem p).opcode = I2C_ReceiveByte then I2C_RD_ADDR
                else I2C_WR_ADDR)
            ∧ s'.ucI2C_saddr = s.ucI2C_saddr
            ∧ dataWrites (newEvents s s') = [s.ucI2C_saddr] ∧ s'.ucI2C_lostarb = 0)
        ∧ (s.ucI2C_lostarb = 0 →
          s'.ucI2C_cstate = I2C_RD_ADDR ∧ s'.ucI2C_saddr = s.ucI2C_saddr ||| 0x01
            ∧ dataWrites (newEvents s s') = [s.ucI2C_saddr ||| 0x01] ∧ s'.ucI2C_lostarb = 0))
    ∧ (∀ mem hw n acts, run (vI2C_Init (reset mem) hw n) acts = .ok s →
        s.ucI2C_cstate = I2C_LOST_ARB → s.ucI2C_lostarb ≠ 0) := by
  refine ⟨fun h8 => ?_, fun hc => repeated_start_step s s' i hsi hc h,
    fun mem hw n acts hr => ?_⟩
  · obtain ⟨s1, hsw, _, l, _⟩ := vI2C_ISR_statics s s' i hsi h
    rw [l, switch_status_lstate _ _ _ hsw (by simpa [isr_latch] using h8)]
    simp [isr_latch, isr_prologue, I2CState.emit]
  · refine lostFlagged_run acts _ s ?_ hr
    simp +decide [LostFlagged, vI2C_Init, vI2C_ISRCreateQueue, reset, I2CState.emit,
      I2C_LOST_ARB]

/-- Claim C25 amended, at the repeated-start step of `wordLostArbitration` (flag
set, phase arbitration-lost: the retry branch) and at the state
`wordLostArbitration` itself, which is reached from the initialised driver. -/
theorem C25_last_phase_and_retry_flag_witness :
    (okOr idle (vI2C_ISR wordLostArbitration (irq 0x10 0))).ucI2C_lstate
        = wordLostArbitration.ucI2C_cstate
    ∧ (∃ p, wordLostArbitration.pxI2C = some p
        ∧ (okOr idle (vI2C_ISR wordLostArbitration (irq 0x10 0))).ucI2C_cstate
            = (if (wordLostArbitration.mem p).opcode = I2C_ReceiveByte then I2C_RD_ADDR
                else I2C_WR_ADDR)
        ∧ (okOr idle (vI2C_ISR wordLostArbitration (irq 0x10 0))).ucI2C_saddr
            = wordLostArbitration.ucI2C_saddr
        ∧ dataWrites (newEvents wordLostArbitration
              (okOr idle (vI2C_ISR wordLostArbitration (irq 0x10 0))))
            = [wordLostArbitration.ucI2C_saddr]
        ∧ (okOr idle (vI2C_ISR wordLostArbitration (irq 0x10 0))).ucI2C_lostarb = 0)
    ∧ wordLostArbitration.ucI2C_lostarb ≠ 0 :=
  have w := C25_last_phase_and_retry_flag wordLostArbitration
    (okOr idle (vI2C_ISR wordLostArbitration (irq 0x10 0))) (irq 0x10 0) (by decide) rfl
  ⟨w.1 (by decide), (w.2.1 rfl).1 (by decide),
   w.2.2 (fun _ => blank) { PINSEL0 := 0, VICIntEnable := 0, vI2C_ISR_Wrapper := 0 } 1
     [.fill 5 { blank with opcode := I2C_WriteWord, addr := 0x20, comm := 0x99,
                           data0 := 0xEF, data1 := 0xBE },
      .send 5, .kick, .isr (irq 0x08 0), .isr (irq 0x18 0), .isr (irq 0x28 0),
      .isr (irq 0x38 0)] rfl rfl⟩

set_option maxHeartbeats 4000000 in
/-- Claim C26: a step on address+write-ACK (0x18) with active descriptor `p`.
For Quick it is terminal in success-stop, status 0, with no write to the data
register.  For SendByte with the write counter at 0 it writes `payload[0]`
to the data register, leaves the write counter at 1 and is not terminal.
For WriteByte, ReadByte, WriteWord and ReadWord it writes the command byte,
reads no payload byte and is not terminal.  For ReceiveByte and for every
opcode above 6 it is terminal in error-stop, status 0xF0, with no write to
the data register. -/
theorem C26_address_write_ack (s : I2CState) (i : IsrIn) (p : Nat)
    (hp : s.pxI2C = some p) (hsi : i.I2C0CONSET &&& 0x08 ≠ 0)
    (hcode : i.I2C0STAT % 256 = 0x18) :
    ((s.mem p).opcode = I2C_Quick →
        ∃ s', vI2C_ISR s i = .ok s' ∧ terminalStep i s' = true
          ∧ s'.ucI2C_cstate = I2C_STOP ∧ (s'.mem p).status = 0
          ∧ dataWrites (newEvents s s') = [])
    ∧ ((s.mem p).opcode = I2C_SendByte → s.ucI2C_wr_count = 0 →
        ∃ s', vI2C_ISR s i = .ok s' ∧ terminalStep i s' = false
          ∧ dataWrites (newEvents s s') = [(s.mem p).data0]
          ∧ payloadReads (newEvents s s') = [0]
          ∧ s'.ucI2C_wr_count = 1)
    ∧ (((s.mem p).opcode = I2C_WriteByte ∨ (s.mem p).opcode = I2C_ReadByte
          ∨ (s.mem p).opcode = I2C_WriteWord ∨ (s.mem p).opcode = I2C_ReadWord) →
        ∃ s', vI2C_ISR s i = .ok s' ∧ terminalStep i s' = false
          ∧ dataWrites (newEvents s s') = [(s.mem p).comm]
          ∧ payloadReads (newEvents s s') = []
          ∧ s'.ucI2C_wr_count = s.ucI2C_wr_count)
    ∧ (((s.mem p).opcode = I2C_ReceiveByte ∨ 6 < (s.mem p).opcode) →
        ∃ s', vI2C_ISR s i = .ok s' ∧ terminalStep i s' = true
          ∧ s'.ucI2C_cstate = I2C_ERROR_STOP ∧ (s'.mem p).status = 0xF0
          ∧ dataWrites (newEvents s s') = []) := by
  refine ⟨fun ho => ?_, fun ho hw => ?_, fun ho => ?_, fun ho => ?_⟩
  · cases hq : s.pxI2C_RQ <;> cases hr : i.responseWoke <;> cases hn : i.newRequestWoke <;>
    simp +decide [vI2C_ISR, switch_status, case_0x18, terminal_handling, isr_epilogue,
      xQueueReceiveFromISR, I2CState.emit, I2CState.store, terminalStep, hp, hsi, hcode, hq,
      hr, hn, ho, I2C_Quick, I2C_STOP, I2C_ERROR_STOP, newEvents, dataWrites]
  · simp +decide [vI2C_ISR, switch_status, case_0x18, transmitData, xI2C_struct.getData,
      isr_epilogue, I2CState.emit, terminalStep, hp, hsi, hcode, ho, hw, I2C_SendByte,
      I2C_WR_DATA, I2C_STOP, I2C_ERROR_STOP, newEvents, dataWrites, payloadReads]
  · rcases ho with ho | ho | ho | ho <;>
    simp +decide [vI2C_ISR, switch_status, case_0x18, isr_epilogue, I2CState.emit,
      terminalStep, hp, hsi, hcode, ho, I2C_WriteByte, I2C_ReadByte, I2C_WriteWord,
      I2C_ReadWord, I2C_COMMAND, I2C_STOP, I2C_ERROR_STOP, newEvents, dataWrites, payloadReads]
  · have hx : (s.mem p).opcode = 2 ∨ 6 < (s.mem p).opcode := ho
    have h0 : (s.mem p).opcode ≠ 0 := by omega
    have h1 : (s.mem p).opcode ≠ 1 := by omega
    have h3 : (s.mem p).opcode ≠ 3 := by omega
    have h4 : (s.mem p).opcode ≠ 4 := by omega
    have h5 : (s.mem p).opcode ≠ 5 := by omega
    have h6 : (s.mem p).opcode ≠ 6 := by omega
    cases hq : s.pxI2C_RQ <;> cases hr : i.responseWoke <;> cases hn : i.newRequestWoke <;>
    simp +decide [vI2C_ISR, switch_status, case_0x18, terminal_handling, isr_epilogue,
      xQueueReceiveFromISR, I2CState.emit, I2CState.store, terminalStep, hp, hsi, hcode, hq,
      hr, hn, h0, h1, h3, h4, h5, h6, I2C_STOP, I2C_ERROR_STOP, newEvents, dataWrites]

/-- Claim C26 at the 0x18 step of a started Quick, SendByte, WriteWord and
ReceiveByte request on the initialised driver. -/
theorem C26_address_write_ack_witness :
    (∃ s', vI2C_ISR quickStarted (irq 0x18 0) = .ok s'
        ∧ terminalStep (irq 0x18 0) s' = true
        ∧ s'.ucI2C_cstate = I2C_STOP ∧ (s'.mem 5).status = 0
        ∧ dataWrites (newEvents quickStarted s') = [])
    ∧ (∃ s', vI2C_ISR sendByteStarted (irq 0x18 0) = .ok s'
        ∧ terminalStep (irq 0x18 0) s' = false
        ∧ dataWrites (newEvents sendByteStarted s') = [(sendByteStarted.mem 5).data0]
        ∧ payloadReads (newEvents sendByteStarted s') = [0]
        ∧ s'.ucI2C_wr_count = 1)
    ∧ (∃ s', vI2C_ISR wordStarted (irq 0x18 0) = .ok s'
        ∧ terminalStep (irq 0x18 0) s' = false
        ∧ dataWrites (newEvents wordStarted s') = [(wordStarted.mem 5).comm]
        ∧ payloadReads (newEvents wordStarted s') = []
        ∧ s'.ucI2C_wr_count = wordStarted.ucI2C_wr_count)
    ∧ (∃ s', vI2C_ISR receiveStarted (irq 0x18 0) = .ok s'
        ∧ terminalStep (irq 0x18 0) s' = true
        ∧ s'.ucI2C_cstate = I2C_ERROR_STOP ∧ (s'.mem 5).status = 0xF0
        ∧ dataWrites (newEvents receiveStarted s') = []) :=
  ⟨(C26_address_write_ack quickStarted (irq 0x18 0) 5 rfl (by decide) rfl).1 rfl,
   (C26_address_write_ack sendByteStarted (irq 0x18 0) 5 rfl (by decide) rfl).2.1 rfl rfl,
   (C26_address_write_ack wordStarted (irq 0x18 0) 5 rfl (by decide) rfl).2.2.1
      (Or.inr (Or.inr (Or.inl rfl))),
   (C26_address_write_ack receiveStarted (irq 0x18 0) 5 rfl (by decide) rfl).2.2.2
      (Or.inl rfl)⟩

set_option maxHeartbeats 4000000 in
/-- Claim C27: a step on address+read-ACK (0x40) with active descriptor `p`.  For
ReceiveByte and ReadByte it disables the acknowledge (`WRITE(I2C0CONCLR,
0x04)`), for ReadWord it enables it (`WRITE(I2C0CONSET, 0x04)`); in these
three cases that write, the debug pin, the interrupt-flag clear and the
end-of-interrupt write are all the step does: it is not terminal and the
descriptor memory is unchanged.  For every other opcode the step is terminal
in error-stop with status 0xF0. -/
theorem C27_address_read_ack (s : I2CState) (i : IsrIn) (p : Nat)
    (hp : s.pxI2C = some p) (hsi : i.I2C0CONSET &&& 0x08 ≠ 0)
    (hcode : i.I2C0STAT % 256 = 0x40) :
    (((s.mem p).opcode = I2C_ReceiveByte ∨ (s.mem p).opcode = I2C_ReadByte) →
        ∃ s', vI2C_ISR s i = .ok s' ∧ terminalStep i s' = false
          ∧ newEvents s s' =
              [.write .FIOSET 0x04000000, .write .I2C0CONCLR 0x04, .write .I2C0CONCLR 0x08,
               .write .VICVectAddr 0, .write .FIOCLR 0x04000000]
          ∧ s'.mem = s.mem)
    ∧ ((s.mem p).opcode = I2C_ReadWord →
        ∃ s', vI2C_ISR s i = .ok s' ∧ terminalStep i s' = false
          ∧ newEvents s s' =
              [.write .FIOSET 0x04000000, .write .I2C0CONSET 0x04, .write .I2C0CONCLR 0x08,
               .write .VICVectAddr 0, .write .FIOCLR 0x04000000]
          ∧ s'.mem = s.mem)
    ∧ (((s.mem p).opcode ≠ I2C_ReceiveByte ∧ (s.mem p).opcode ≠ I2C_ReadByte
          ∧ (s.mem p).opcode ≠ I2C_ReadWord) →
        ∃ s', vI2C_ISR s i = .ok s' ∧ terminalStep i s' = true
          ∧ s'.ucI2C_cstate = I2C_ERROR_STOP ∧ (s'.mem p).status = 0xF0
          ∧ payloadWrites (newEvents s s') = []) := by
  refine ⟨fun ho => ?_, fun ho => ?_, fun ho => ?_⟩
  · rcases ho with ho | ho <;>
    simp +decide [vI2C_ISR, switch_status, case_0x40, isr_epilogue, I2CState.emit,
      terminalStep, hp, hsi, hcode, ho, I2C_ReceiveByte, I2C_ReadByte, I2C_RD_ADDR_ACK,
      I2C_STOP, I2C_ERROR_STOP, newEvents]
  · simp +decide [vI2C_ISR, switch_status, case_0x40, isr_epilogue, I2CState.emit,
      terminalStep, hp, hsi, hcode, ho, I2C_ReadWord, I2C_RD_ADDR_ACK, I2C_STOP,
      I2C_ERROR_STOP, newEvents]
  · have h2 : (s.mem p).opcode ≠ 2 := ho.1
    have h4 : (s.mem p).opcode ≠ 4 := ho.2.1
    have h6 : (s.mem p).opcode ≠ 6 := ho.2.2
    cases hq : s.pxI2C_RQ <;> cases hr : i.responseWoke <;> cases hn : i.newRequestWoke <;>
    simp +decide [vI2C_ISR, switch_status, case_0x40, terminal_handling, isr_epilogue,
      xQueueReceiveFromISR, I2CState.emit, I2CState.store, terminalStep, hp, hsi, hcode, hq,
      hr, hn, h2, h4, h6, I2C_STOP, I2C_ERROR_STOP, newEvents, payloadWrites]

/-- Claim C27 at the 0x40 step of a started ReceiveByte request, of a ReadWord
request after its turnaround, and of a started Quick request. -/
theorem C27_address_read_ack_witness :
    (∃ s', vI2C_ISR receiveStarted (irq 0x40 0) = .ok s'
        ∧ terminalStep (irq 0x40 0) s' = false
        ∧ newEvents receiveStarted s' =
            [.write .FIOSET 0x04000000, .write .I2C0CONCLR 0x04, .write .I2C0CONCLR 0x08,
             .write .VICVectAddr 0, .write .FIOCLR 0x04000000]
        ∧ s'.mem = receiveStarted.mem)
    ∧ (∃ s', vI2C_ISR readWordTurned (irq 0x40 0) = .ok s'
        ∧ terminalStep (irq 0x40 0) s' = false
        ∧ newEvents readWordTurned s' =
            [.write .FIOSET 0x04000000, .write .I2C0CONSET 0x04, .write .I2C0CONCLR 0x08,
             .write .VICVectAddr 0, .write .FIOCLR 0x04000000]
        ∧ s'.mem = readWordTurned.mem)
    ∧ (∃ s', vI2C_ISR quickStarted (irq 0x40 0) = .ok s'
        ∧ terminalStep (irq 0x40 0) s' = true
        ∧ s'.ucI2C_cstate = I2C_ERROR_STOP ∧ (s'.mem 5).status = 0xF0
        ∧ payloadWrites (newEvents quickStarted s') = []) :=
  ⟨(C27_address_read_ack receiveStarted (irq 0x40 0) 5 rfl (by decide) rfl).1 (Or.inl rfl),
   (C27_address_read_ack readWordTurned (irq 0x40 0) 5 rfl (by decide) rfl).2.1 rfl,
   (C27_address_read_ack quickStarted (irq 0x40 0) 5 rfl (by decide) rfl).2.2
      ⟨by decide, by decide, by decide⟩⟩

set_option maxHeartbeats 4000000 in
/-- Claim C28: a step on data-received+ACK (0x50) with active descriptor `p`.  For
ReadWord, with the read counter `k` an index of the payload (0 or 1), it
disables the acknowledge for the final byte, stores the byte read from the
data register in `payload[k]`, leaving the other payload byte alone,
increments the read counter, and is not terminal.  For every other opcode
the step is terminal in error-stop with status 0xF0 and the payload is
unchanged. -/
theorem C28_data_received_ack (s : I2CState) (i : IsrIn) (p : Nat)
    (hp : s.pxI2C = some p) (hsi : i.I2C0CONSET &&& 0x08 ≠ 0)
    (hcode : i.I2C0STAT % 256 = 0x50) :
    ((s.mem p).opcode = I2C_ReadWord → s.ucI2C_rd_count < 2 →
        ∃ s', vI2C_ISR s i = .ok s' ∧ terminalStep i s' = false
          ∧ newEvents s s' =
              [.write .FIOSET 0x04000000, .write .I2C0CONCLR 0x04,
               .payloadWrite p s.ucI2C_rd_count (i.I2C0DAT % 256), .write .I2C0CONCLR 0x08,
               .write .VICVectAddr 0, .write .FIOCLR 0x04000000]
          ∧ (s'.mem p).getData s.ucI2C_rd_count = .ok (i.I2C0DAT % 256)
          ∧ (s'.mem p).getData (1 - s.ucI2C_rd_count)
              = (s.mem p).getData (1 - s.ucI2C_rd_count)
          ∧ s'.ucI2C_rd_count = s.ucI2C_rd_count + 1)
    ∧ ((s.mem p).opcode ≠ I2C_ReadWord →
        ∃ s', vI2C_ISR s i = .ok s' ∧ terminalStep i s' = true
          ∧ s'.ucI2C_cstate = I2C_ERROR_STOP ∧ (s'.mem p).status = 0xF0
          ∧ payloadWrites (newEvents s s') = []
          ∧ (s'.mem p).data0 = (s.mem p).data0 ∧ (s'.mem p).data1 = (s.mem p).data1) := by
  refine ⟨fun ho hk => ?_, fun ho => ?_⟩
  · have hk' : s.ucI2C_rd_count = 0 ∨ s.ucI2C_rd_count = 1 := by omega
    rcases hk' with hk' | hk' <;>
    simp +decide [vI2C_ISR, switch_status, case_0x50, receiveData, xI2C_struct.setData,
      xI2C_struct.getData, isr_epilogue, I2CState.emit, I2CState.store, terminalStep, hp, hsi,
      hcode, ho, hk', I2C_ReadWord, I2C_RD_DATA_NAK, I2C_STOP, I2C_ERROR_STOP, newEvents]
  · have h6 : (s.mem p).opcode ≠ 6 := ho
    cases hq : s.pxI2C_RQ <;> cases hr : i.responseWoke <;> cases hn : i.newRequestWoke <;>
    simp +decide [vI2C_ISR, switch_status, case_0x50, terminal_handling, isr_epilogue,
      xQueueReceiveFromISR, I2CState.emit, I2CState.store, terminalStep, hp, hsi, hcode, hq,
      hr, hn, h6, I2C_STOP, I2C_ERROR_STOP, newEvents, payloadWrites]

/-- Claim C28 at the 0x50 step (byte 0xA1) of a ReadWord request whose read
address has been acknowledged, and of a started Quick request. -/
theorem C28_data_received_ack_witness :
    (∃ s', vI2C_ISR readWordAcked (irq 0x50 0xA1) = .ok s'
        ∧ terminalStep (irq 0x50 0xA1) s' = false
        ∧ newEvents readWordAcked s' =
            [.write .FIOSET 0x04000000, .write .I2C0CONCLR 0x04,
             .payloadWrite 5 readWordAcked.ucI2C_rd_count ((irq 0x50 0xA1).I2C0DAT % 256),
             .write .I2C0CONCLR 0x08, .write .VICVectAddr 0, .write .FIOCLR 0x04000000]
        ∧ (s'.mem 5).getData readWordAcked.ucI2C_rd_count
            = .ok ((irq 0x50 0xA1).I2C0DAT % 256)
        ∧ (s'.mem 5).getData (1 - readWordAcked.ucI2C_rd_count)
            = (readWordAcked.mem 5).getData (1 - readWordAcked.ucI2C_rd_count)
        ∧ s'.ucI2C_rd_count = readWordAcked.ucI2C_rd_count + 1)
    ∧ (∃ s', vI2C_ISR quickStarted (irq 0x50 0xA1) = .ok s'
        ∧ terminalStep (irq 0x50 0xA1) s' = true
        ∧ s'.ucI2C_cstate = I2C_ERROR_STOP ∧ (s'.mem 5).status = 0xF0
        ∧ payloadWrites (newEvents quickStarted s') = []
        ∧ (s'.mem 5).data0 = (quickStarted.mem 5).data0
        ∧ (s'.mem 5).data1 = (quickStarted.mem 5).data1) :=
  ⟨(C28_data_received_ack readWordAcked (irq 0x50 0xA1) 5 rfl (by decide) rfl).1 rfl
      (by decide),
   (C28_data_received_ack quickStarted (irq 0x50 0xA1) 5 rfl (by decide) rfl).2 (by decide)⟩

set_option maxHeartbeats 4000000 in
/-- Claim C29: with an active descriptor `p`, a step on data NAK (0x30) or on any
code outside 0x08, 0x10, 0x18, 0x20, 0x28, 0x30, 0x38, 0x40, 0x48, 0x50,
0x58 (bus error 0x00 included) is terminal in error-stop whatever the opcode
and the protocol state: the stop command is issued, the status of `p`
becomes the nonzero 0xF0, the completion queue of `p` is signalled once,
nothing is written to the data register and the payload of `p` is
unchanged. -/
theorem C29_unexpected_code_terminal (s : I2CState) (i : IsrIn) (p : Nat)
    (hp : s.pxI2C = some p) (hsi : i.I2C0CONSET &&& 0x08 ≠ 0)
    (hcode : i.I2C0STAT % 256 = 0x30
      ∨ (i.I2C0STAT % 256 ≠ 0x08 ∧ i.I2C0STAT % 256 ≠ 0x10 ∧ i.I2C0STAT % 256 ≠ 0x18
          ∧ i.I2C0STAT % 256 ≠ 0x20 ∧ i.I2C0STAT % 256 ≠ 0x28 ∧ i.I2C0STAT % 256 ≠ 0x30
          ∧ i.I2C0STAT % 256 ≠ 0x38 ∧ i.I2C0STAT % 256 ≠ 0x40 ∧ i.I2C0STAT % 256 ≠ 0x48
          ∧ i.I2C0STAT % 256 ≠ 0x50 ∧ i.I2C0STAT % 256 ≠ 0x58)) :
    ∃ s', vI2C_ISR s i = .ok s'
      ∧ terminalStep i s' = true ∧ s'.ucI2C_cstate = I2C_ERROR_STOP
      ∧ BusOp.stop ∈ busOps (newEvents s s')
      ∧ (s'.mem p).status = 0xF0 ∧ (s'.mem p).status ≠ 0
      ∧ completionSignals (newEvents s s') = [(p, (s.mem p).pxHandle)]
      ∧ dataWrites (newEvents s s') = []
      ∧ payloadWrites (newEvents s s') = []
      ∧ (s'.mem p).data0 = (s.mem p).data0 ∧ (s'.mem p).data1 = (s.mem p).data1 := by
  rcases hcode with h | ⟨n08, n10, n18, n20, n28, n30, n38, n40, n48, n50, n58⟩
  · cases hq : s.pxI2C_RQ <;> cases hr : i.responseWoke <;> cases hn : i.newRequestWoke <;>
    simp +decide [vI2C_ISR, switch_status, case_0x30, terminal_handling, isr_epilogue,
      xQueueReceiveFromISR, I2CState.emit, I2CState.store, terminalStep, hp, hsi, h, hq, hr,
      hn, I2C_STOP, I2C_ERROR_STOP, newEvents, busOps, Event.busOps, dataWrites,
      payloadWrites, completionSignals]
  · by_cases h0 : i.I2C0STAT % 256 = 0x00
    · cases hq : s.pxI2C_RQ <;> cases hr : i.responseWoke <;> cases hn : i.newRequestWoke <;>
      simp +decide [vI2C_ISR, switch_status, case_0x00, terminal_handling, isr_epilogue,
        xQueueReceiveFromISR, I2CState.emit, I2CState.store, terminalStep, hp, hsi, h0, hq, hr,
        hn, I2C_STOP, I2C_ERROR_STOP, newEvents, busOps, Event.busOps, dataWrites,
        payloadWrites, completionSignals]
    · cases hq : s.pxI2C_RQ <;> cases hr : i.responseWoke <;> cases hn : i.newRequestWoke <;>
      simp +decide [vI2C_ISR, switch_status, case_default, terminal_handling, isr_epilogue,
        xQueueReceiveFromISR, I2CState.emit, I2CState.store, terminalStep, hp, hsi, h0, n08,
        n10, n18, n20, n28, n30, n38, n40, n48, n50, n58, hq, hr, hn, I2C_STOP,
        I2C_ERROR_STOP, newEvents, busOps, Event.busOps, dataWrites, payloadWrites,
        completionSignals]

/-- Claim C29 at a started Quick request on the initialised driver, with the bus
error code 0x00. -/
theorem C29_unexpected_code_terminal_witness :
    ∃ s', vI2C_ISR quickStarted (irq 0x00 0) = .ok s'
      ∧ terminalStep (irq 0x00 0) s' = true ∧ s'.ucI2C_cstate = I2C_ERROR_STOP
      ∧ BusOp.stop ∈ busOps (newEvents quickStarted s')
      ∧ (s'.mem 5).status = 0xF0 ∧ (s'.mem 5).status ≠ 0
      ∧ completionSignals (newEvents quickStarted s') = [(5, (quickStarted.mem 5).pxHandle)]
      ∧ dataWrites (newEvents quickStarted s') = []
      ∧ payloadWrites (newEvents quickStarted s') = []
      ∧ (s'.mem 5).data0 = (quickStarted.mem 5).data0
      ∧ (s'.mem 5).data1 = (quickStarted.mem 5).data1 :=
  C29_unexpected_code_terminal quickStarted (irq 0x00 0) 5 rfl (by decide)
    (Or.inr (by decide))

/-- Claim C30: for a step with the interrupt flag asserted that returns, the stop
command is written iff the phase reached in the step is success-stop or
error-stop, that is, iff the step is terminal.  In a terminal step the status
of the active descriptor is written (with the phase reached) and its
completion queue is signalled once; in any other step no status changes and
no completion is signalled.  Whether the step is terminal is the function
`terminalCode` of the phase-status code, the opcode of the active descriptor
and the write counter: the phases recorded by earlier steps do not enter. -/
theorem C30_terminal_steps (s s' : I2CState) (i : IsrIn) (hsi : i.I2C0CONSET &&& 0x08 ≠ 0)
    (h : vI2C_ISR s i = .ok s') :
    (BusOp.stop ∈ busOps (newEvents s s')
        ↔ (s'.ucI2C_cstate = I2C_STOP ∨ s'.ucI2C_cstate = I2C_ERROR_STOP))
    ∧ (terminalStep i s' = true
        ↔ (s'.ucI2C_cstate = I2C_STOP ∨ s'.ucI2C_cstate = I2C_ERROR_STOP))
    ∧ (terminalStep i s' = true →
        ∃ p, s.pxI2C = some p ∧ (s'.mem p).status = s'.ucI2C_cstate
          ∧ completionSignals (newEvents s s') = [(p, (s.mem p).pxHandle)])
    ∧ (terminalStep i s' = false →
        completionSignals (newEvents s s') = []
          ∧ ∀ x, (s'.mem x).status = (s.mem x).status)
    ∧ terminalStep i s'
        = terminalCode (i.I2C0STAT % 256) (activeOpcode s) s.ucI2C_wr_count := by
  have hts : terminalStep i s' = true
      ↔ (s'.ucI2C_cstate = I2C_STOP ∨ s'.ucI2C_cstate = I2C_ERROR_STOP) := by
    simp [terminalStep, hsi]
  obtain ⟨g1, g2⟩ := vI2C_ISR_signals s s' i hsi h
  obtain ⟨_, _, m3, m4⟩ := vI2C_ISR_mem s s' i h
  refine ⟨?_, hts, fun ht => ?_, fun hf => ⟨(g2 hf).1, m3 hf⟩, ?_⟩
  · rw [← hts]
    cases ht : terminalStep i s' with
    | true =>
      obtain ⟨_, _, _, b⟩ := g1 ht
      simp [b]
    | false => simp [(g2 ht).2]
  · obtain ⟨p, hp, g, _⟩ := g1 ht
    obtain ⟨q, hq, hs⟩ := m4 ht
    rw [hp] at hq
    cases hq
    exact ⟨p, hp, hs, g⟩
  · obtain ⟨s1, hsw, c, _⟩ := vI2C_ISR_statics s s' i hsi h
    have k := switch_status_terminal _ _ _ hsw
    have e : activeOpcode (isr_latch (isr_prologue s) i) = activeOpcode s := rfl
    rw [e] at k
    simp only [isr_latch, isr_prologue, I2CState.emit] at k
    cases hc : terminalCode (i.I2C0STAT % 256) (activeOpcode s) s.ucI2C_wr_count with
    | true =>
      rw [hts, c]
      exact k.mpr hc
    | false =>
      cases ht : terminalStep i s' with
      | false => rfl
      | true =>
        rw [hts, c] at ht
        rw [k.mp ht] at hc
        cases hc

/-- Claim C30 at the terminal step (code 0x18) of the Quick transaction of
descriptor 5 on the initialised driver, and at its start-sent step. -/
theorem C30_terminal_steps_witness :
    (BusOp.stop ∈ busOps (newEvents quickStarted quickDone)
        ↔ (quickDone.ucI2C_cstate = I2C_STOP ∨ quickDone.ucI2C_cstate = I2C_ERROR_STOP))
    ∧ (∃ p, quickStarted.pxI2C = some p ∧ (quickDone.mem p).status = quickDone.ucI2C_cstate
        ∧ completionSignals (newEvents quickStarted quickDone)
            = [(p, (quickStarted.mem p).pxHandle)])
    ∧ (completionSignals (newEvents (prvI2C_Transaction_submit idle 5).1 quickStarted) = []
        ∧ ∀ x, (quickStarted.mem x).status
            = ((prvI2C_Transaction_submit idle 5).1.mem x).status)
    ∧ terminalStep (irq 0x18 0) quickDone
        = terminalCode ((irq 0x18 0).I2C0STAT % 256) (activeOpcode quickStarted)
            quickStarted.ucI2C_wr_count :=
  ⟨(C30_terminal_steps quickStarted quickDone (irq 0x18 0) (by decide) rfl).1,
   (C30_terminal_steps quickStarted quickDone (irq 0x18 0) (by decide) rfl).2.2.1 rfl,
   (C30_terminal_steps (prvI2C_Transaction_submit idle 5).1 quickStarted (irq 0x08 0)
      (by decide) rfl).2.2.2.1 rfl,
   (C30_terminal_steps quickStarted quickDone (irq 0x18 0) (by decide) rfl).2.2.2.2⟩


/-- Claim C31 on the code.  The payload index is the write counter or the read
counter, and nothing keeps either below 2 on the SendByte path of case 0x18
and on the stores of cases 0x50 and 0x58.

A `send_byte` transmits `payload[0]` (0x08, 0x18), loses arbitration and is
restarted (0x38, 0x10): the next 0x18 step reads `payload[1]`, and after a
second loss and restart the 0x18 step reads `payload[2]`, outside the array.
The same happens without any arbitration loss when the code 0x18 is seen three
times.  A `read_word` stores its first byte (0x50), loses arbitration and is
restarted (0x38, 0x10, 0x40): the next 0x50 step stores into `payload[1]` and
the 0x58 step into `payload[2]`, outside the array; so do three 0x50 steps in
a row. -/
theorem C31_payload_index_leaves_array :
    (∃ s, runISR sendByteStarted [irq 0x18 0, irq 0x38 0, irq 0x10 0, irq 0x18 0, irq 0x38 0,
          irq 0x10 0] = .ok s
        ∧ payloadReads (newEvents sendByteStarted s) = [0, 1] ∧ s.ucI2C_wr_count = 2
        ∧ s.pxI2C = some 5 ∧ (s.mem 5).opcode = I2C_SendByte
        ∧ vI2C_ISR s (irq 0x18 0) = .error (.payloadIndex 2))
    ∧ runISR sendByteStarted [irq 0x18 0, irq 0x18 0, irq 0x18 0] = .error (.payloadIndex 2)
    ∧ (∃ s, runISR readWordAcked [irq 0x50 0xA1, irq 0x38 0, irq 0x10 0, irq 0x40 0,
          irq 0x50 0xB2] = .ok s
        ∧ payloadWrites (newEvents readWordAcked s) = [(5, 0, 0xA1), (5, 1, 0xB2)]
        ∧ s.ucI2C_rd_count = 2 ∧ s.pxI2C = some 5 ∧ (s.mem 5).opcode = I2C_ReadWord
        ∧ vI2C_ISR s (irq 0x58 0xC3) = .error (.payloadIndex 2))
    ∧ runISR readWordAcked [irq 0x50 0xA1, irq 0x50 0xB2, irq 0x50 0xC3]
        = .error (.payloadIndex 2) :=
  ⟨⟨okOr idle (runISR sendByteStarted [irq 0x18 0, irq 0x38 0, irq 0x10 0, irq 0x18 0,
      irq 0x38 0, irq 0x10 0]), rfl, by decide, rfl, rfl, rfl, rfl⟩,
   rfl,
   ⟨okOr idle (runISR readWordAcked [irq 0x50 0xA1, irq 0x38 0, irq 0x10 0, irq 0x40 0,
      irq 0x50 0xB2]), rfl, by decide, rfl, rfl, rfl, rfl⟩,
   rfl⟩

/-- Claim C32: an invocation of the interrupt routine that returns leaves the
requester id, the completion queue, the opcode, the address, the command and
the read length of every descriptor unchanged, and leaves every descriptor
other than the active one unchanged altogether.  A status field changes only
in a terminal step, for the active descriptor, and is then the terminal
phase.  A payload byte is stored, and a payload byte changes, only for the
active descriptor in a step with the interrupt flag asserted on the code 0x58
or on the code 0x50 with opcode ReadWord. -/
theorem C32_descriptor_frame (s s' : I2CState) (i : IsrIn) (h : vI2C_ISR s i = .ok s') :
    (∀ x, (s'.mem x).reqID = (s.mem x).reqID ∧ (s'.mem x).pxHandle = (s.mem x).pxHandle
        ∧ (s'.mem x).opcode = (s.mem x).opcode ∧ (s'.mem x).addr = (s.mem x).addr
        ∧ (s'.mem x).comm = (s.mem x).comm ∧ (s'.mem x).rd_len = (s.mem x).rd_len)
    ∧ (∀ x, s.pxI2C ≠ some x → s'.mem x = s.mem x)
    ∧ (∀ x, (s'.mem x).status ≠ (s.mem x).status →
        terminalStep i s' = true ∧ s.pxI2C = some x ∧ (s'.mem x).status = s'.ucI2C_cstate)
    ∧ (∀ x, (s'.mem x).data0 ≠ (s.mem x).data0 ∨ (s'.mem x).data1 ≠ (s.mem x).data1 →
        s.pxI2C = some x ∧ i.I2C0CONSET &&& 0x08 ≠ 0
          ∧ (i.I2C0STAT % 256 = 0x58
            ∨ (i.I2C0STAT % 256 = 0x50 ∧ (s.mem x).opcode = I2C_ReadWord)))
    ∧ (∀ x k v, Event.payloadWrite x k v ∈ newEvents s s' →
        s.pxI2C = some x ∧ i.I2C0CONSET &&& 0x08 ≠ 0
          ∧ (i.I2C0STAT % 256 = 0x58
            ∨ (i.I2C0STAT % 256 = 0x50 ∧ (s.mem x).opcode = I2C_ReadWord))) := by
  obtain ⟨m1, m2, m3, m4⟩ := vI2C_ISR_mem s s' i h
  obtain ⟨_, pw, pm⟩ := vI2C_ISR_payload s s' i h
  refine ⟨m1, m2, fun x hx => ?_, pm, fun x k v hm => ?_⟩
  · cases ht : terminalStep i s' with
    | false => exact absurd (m3 ht x) hx
    | true =>
      obtain ⟨p, hp, hs⟩ := m4 ht
      have e : x = p := by
        by_contra hne
        have hm := m2 x (fun hh => hne (by rw [hp] at hh; exact (Option.some.inj hh).symm))
        rw [hm] at hx
        exact hx rfl
      subst e
      exact ⟨rfl, hp, hs⟩
  · obtain ⟨a, _, _, c, d⟩ := pw x k v hm
    exact ⟨a, c, d⟩

/-- Claim C32 at two steps on the initialised driver: the terminal step of the
Quick transaction of `quickStarted` (the status of descriptor 5 changes, its
request fields do not), and the first data byte of the ReadWord transaction of
`readWordAcked` (`payload[0]` of descriptor 5 changes on the code 0x50). -/
theorem C32_descriptor_frame_witness :
    ((quickDone.mem 5).opcode = (quickStarted.mem 5).opcode
      ∧ (quickDone.mem 5).addr = (quickStarted.mem 5).addr)
    ∧ (terminalStep (irq 0x18 0) quickDone = true ∧ quickStarted.pxI2C = some 5
      ∧ (quickDone.mem 5).status = quickDone.ucI2C_cstate)
    ∧ (readWordAcked.pxI2C = some 5 ∧ (irq 0x50 0xA1).I2C0CONSET &&& 0x08 ≠ 0
      ∧ ((irq 0x50 0xA1).I2C0STAT % 256 = 0x58
        ∨ ((irq 0x50 0xA1).I2C0STAT % 256 = 0x50
          ∧ (readWordAcked.mem 5).opcode = I2C_ReadWord))) :=
  ⟨⟨((C32_descriptor_frame quickStarted quickDone (irq 0x18 0) rfl).1 5).2.2.1,
    ((C32_descriptor_frame quickStarted quickDone (irq 0x18 0) rfl).1 5).2.2.2.1⟩,
   (C32_descriptor_frame quickStarted quickDone (irq 0x18 0) rfl).2.2.1 5 (by decide),
   (C32_descriptor_frame readWordAcked (okOr idle (vI2C_ISR readWordAcked (irq 0x50 0xA1)))
     (irq 0x50 0xA1) rfl).2.2.2.1 5 (Or.inl (by decide))⟩

/-- Claim C33: the data argument of `ucI2C_Quick` does not reach the bus.  For
every state, descriptor, address, pair of data values and environment (the
interrupts serviced during the call, with their phase-status codes, and the
result of the completion wait), the two calls end in the same fault or both
return, with the same trace, hence the same sequence of register writes, and
the same status.  A call that returns has read no payload byte of its
descriptor for transmission, and leaves the opcode Quick and the address in
the descriptor.  The address byte that a start-condition-sent step composes
for a Quick descriptor is `(address << 1) mod 256`, with the direction bit
clear (write), whatever `payload[0]` holds. -/
theorem C33_quick_data_not_on_bus (s : I2CState) (p addr d1 d2 : Nat) (env : WaitEnv) :
    (match ucI2C_Quick s p addr d1 env, ucI2C_Quick s p addr d2 env with
      | .ok r1, .ok r2 =>
        r2.1.trace = r1.1.trace
          ∧ regWrites (newEvents s r2.1) = regWrites (newEvents s r1.1)
          ∧ r2.2 = r1.2
      | .error f1, .error f2 => f2 = f1
      | _, _ => False)
    ∧ (∀ r, ucI2C_Quick s p addr d1 env = .ok r →
        r.1.trace = s.trace ++ newEvents s r.1
          ∧ (∀ k, Event.payloadRead p k ∉ newEvents s r.1)
          ∧ (r.1.mem p).opcode = I2C_Quick ∧ (r.1.mem p).addr = addr)
    ∧ (∀ (s0 s' : I2CState) (i : IsrIn), (s0.mem p).opcode = I2C_Quick → startSent i = true →
        vI2C_ISR s0 i = .ok s' → s'.pxI2C = some p →
        dataWrites (newEvents s0 s') = [((s0.mem p).addr <<< 1) % 256]
          ∧ ((s0.mem p).addr <<< 1) % 256 % 2 = 0) := by
  refine ⟨?_, fun r hr => ?_, fun s0 s' i hq hs h hp => ?_⟩
  · have hfill : s.store p { s.mem p with opcode := I2C_Quick, addr := addr, data0 := d2 }
        = (s.store p { s.mem p with opcode := I2C_Quick, addr := addr, data0 := d1 }).withData0
            p d2 := by
      simp [I2CState.withData0, I2CState.store]
    obtain ⟨v', hb⟩ := prvI2C_Transaction_blind
      (s.store p { s.mem p with opcode := I2C_Quick, addr := addr, data0 := d1 }) p d2 env
      (by simp [I2CState.store, I2C_Quick])
    unfold ucI2C_Quick transact
    simp only
    rw [hfill]
    cases hA : prvI2C_Transaction
        (s.store p { s.mem p with opcode := I2C_Quick, addr := addr, data0 := d1 }) p env with
    | error f =>
      rw [hA] at hb
      simp only [BlindTo] at hb
      rw [hb]
    | ok s1 =>
      rw [hA] at hb
      simp only [BlindTo] at hb
      rw [hb]
      simp [I2CState.withData0, I2CState.store, newEvents]
  · unfold ucI2C_Quick transact at hr
    simp only at hr
    cases hA : prvI2C_Transaction
        (s.store p { s.mem p with opcode := I2C_Quick, addr := addr, data0 := d1 }) p env with
    | error f => rw [hA] at hr; cases hr
    | ok s1 =>
      rw [hA] at hr
      simp only [Except.ok.injEq] at hr
      subst hr
      obtain ⟨N, t, n⟩ := prvI2C_Transaction_noPayloadRead _ _ p env hA
        (by simp [I2CState.store, I2C_Quick])
      have t' : s1.trace = s.trace ++ N := t
      have hsame := prvI2C_Transaction_sameRequest _ _ p env hA p
      simp only [sameRequest, I2CState.store, Function.update_same] at hsame
      rw [newEvents_of_eq t']
      exact ⟨t', n, hsame.2.2.1, hsame.2.2.2.1⟩
  · have hact : s0.pxI2C ≠ none ∨ (s0.ucI2C_pending = false ∧ s0.pxI2C_RQ ≠ []) := by
      by_cases hn : s0.pxI2C = none
      · right
        obtain ⟨_, hE⟩ := vI2C_ISR_effect s0 s' i h
        rcases hE with ⟨_, _, _, ⟨_, e, _⟩ | ⟨_, _, _, _, e, _⟩ | ⟨_, hpd, q, hq', _⟩⟩
          | ⟨_, q, hq', _⟩
        · rw [e, hn] at hp; cases hp
        · rw [e, hn] at hp; cases hp
        · exact ⟨hpd, by rw [hq']; simp⟩
        · rw [hn] at hq'; cases hq'
      · exact Or.inl hn
    obtain ⟨s'', q, b, h1, h2, h3, h4, h5, h6, _⟩ := start_sent_step s0 i hs hact
    rw [h] at h1
    simp only [Except.ok.injEq] at h1
    subst h1
    rw [hp] at h2
    simp only [Option.some.injEq] at h2
    subst h2
    have hne : ¬ (s0.mem p).opcode = I2C_ReceiveByte := by
      rw [hq]; decide
    rw [if_neg hne] at h4
    have hb2 : ¬ b % 2 = 1 := fun hh => hne (h6.mp hh)
    rw [h3, ← h4]
    exact ⟨rfl, by omega⟩

/-- Claim C33 at `quick(0x40, 0xAA)` and `quick(0x40, 0x55)` on descriptor 5 of
the initialised driver, with the codes 0x08 and 0x18 processed during the
completion wait: the call reads no payload byte, and the start-condition-sent
step of the submitted request writes the address byte with the direction bit
clear. -/
theorem C33_quick_data_not_on_bus_witness :
    ((okOr (idle, 0) (ucI2C_Quick idle 5 0x40 0xAA ⟨[irq 0x08 0, irq 0x18 0], true, []⟩)).1.trace
        = idle.trace ++ newEvents idle
            (okOr (idle, 0)
              (ucI2C_Quick idle 5 0x40 0xAA ⟨[irq 0x08 0, irq 0x18 0], true, []⟩)).1
      ∧ (∀ k, Event.payloadRead 5 k ∉ newEvents idle
            (okOr (idle, 0)
              (ucI2C_Quick idle 5 0x40 0xAA ⟨[irq 0x08 0, irq 0x18 0], true, []⟩)).1)
      ∧ ((okOr (idle, 0)
            (ucI2C_Quick idle 5 0x40 0xAA ⟨[irq 0x08 0, irq 0x18 0], true, []⟩)).1.mem 5).opcode
          = I2C_Quick
      ∧ ((okOr (idle, 0)
            (ucI2C_Quick idle 5 0x40 0xAA ⟨[irq 0x08 0, irq 0x18 0], true, []⟩)).1.mem 5).addr
          = 0x40)
    ∧ (dataWrites (newEvents
          (prvI2C_Transaction_submit (idle.store 5 { blank with addr := 0x40, data0 := 0xAA }) 5).1
          (okOr idle (vI2C_ISR
            (prvI2C_Transaction_submit
              (idle.store 5 { blank with addr := 0x40, data0 := 0xAA }) 5).1 (irq 0x08 0))))
        = [((((prvI2C_Transaction_submit
              (idle.store 5 { blank with addr := 0x40, data0 := 0xAA }) 5).1).mem 5).addr <<< 1)
            % 256]
      ∧ ((((prvI2C_Transaction_submit
              (idle.store 5 { blank with addr := 0x40, data0 := 0xAA }) 5).1).mem 5).addr <<< 1)
          % 256 % 2 = 0) :=
  ⟨(C33_quick_data_not_on_bus idle 5 0x40 0xAA 0x55 ⟨[irq 0x08 0, irq 0x18 0], true, []⟩).2.1
      (okOr (idle, 0) (ucI2C_Quick idle 5 0x40 0xAA ⟨[irq 0x08 0, irq 0x18 0], true, []⟩)) rfl,
   (C33_quick_data_not_on_bus idle 5 0x40 0xAA 0x55 ⟨[irq 0x08 0, irq 0x18 0], true, []⟩).2.2
      (prvI2C_Transaction_submit (idle.store 5 { blank with addr := 0x40, data0 := 0xAA }) 5).1
      (okOr idle (vI2C_ISR
        (prvI2C_Transaction_submit
          (idle.store 5 { blank with addr := 0x40, data0 := 0xAA }) 5).1 (irq 0x08 0)))
      (irq 0x08 0) rfl rfl rfl rfl⟩

/-- Claim C34, as stated, fails.  On the initialised driver with a Quick
transaction in flight, an invocation without the interrupt flag writes three
registers, not one: it sets the debug pin (`FIOSET`), performs the
end-of-interrupt write (`VICVectAddr`) and clears the debug pin (`FIOCLR`). -/
theorem C34_spurious_interrupt_toggles_pin :
    spurious.I2C0CONSET &&& 0x08 = 0
    ∧ ∃ s', vI2C_ISR quickStarted spurious = .ok s'
      ∧ newEvents quickStarted s'
          = [.write .FIOSET 0x04000000, .write .VICVectAddr 0x0, .write .FIOCLR 0x04000000]
      ∧ newEvents quickStarted s' ≠ [.write .VICVectAddr 0x0]
      ∧ regWrites (newEvents quickStarted s')
          = [(.FIOSET, 0x04000000), (.VICVectAddr, 0x0), (.FIOCLR, 0x04000000)] :=
  ⟨by decide, okOr idle (vI2C_ISR quickStarted spurious), rfl, by decide, by decide, by decide⟩

/-- Claim C34, amended.  An invocation while the interrupt flag is not asserted
returns; it leaves the current and the last phase, the two byte counters, the
arbitration-lost flag, the pending flag, the active descriptor, the latched
status and the address byte, every descriptor, the request queue and the busy
flag unchanged; it writes no bus-controller register, signals no completion
and requests no yield.  Apart from setting the debug pin at its entry and
clearing it at its exit it only performs the end-of-interrupt write. -/
theorem C34_spurious_interrupt_frame (s : I2CState) (i : IsrIn)
    (hsi : i.I2C0CONSET &&& 0x08 = 0) :
    ∃ s', vI2C_ISR s i = .ok s'
      ∧ s'.ucI2C_cstate = s.ucI2C_cstate ∧ s'.ucI2C_lstate = s.ucI2C_lstate
      ∧ s'.ucI2C_wr_count = s.ucI2C_wr_count ∧ s'.ucI2C_rd_count = s.ucI2C_rd_count
      ∧ s'.ucI2C_lostarb = s.ucI2C_lostarb ∧ s'.ucI2C_pending = s.ucI2C_pending
      ∧ s'.pxI2C = s.pxI2C ∧ s'.ucI2C_status = s.ucI2C_status
      ∧ s'.ucI2C_saddr = s.ucI2C_saddr
      ∧ s'.mem = s.mem
      ∧ s'.pxI2C_RQ = s.pxI2C_RQ ∧ s'.uxQueueLength = s.uxQueueLength
      ∧ s'.ucI2C_busy = s.ucI2C_busy
      ∧ newEvents s s'
          = [.write .FIOSET 0x04000000, .write .VICVectAddr 0x0, .write .FIOCLR 0x04000000]
      ∧ s'.trace = s.trace ++ newEvents s s'
      ∧ (∀ r v, Event.write r v ∈ newEvents s s' →
          r ≠ .I2C0CONSET ∧ r ≠ .I2C0CONCLR ∧ r ≠ .I2C0DAT ∧ r ≠ .I2C0SCLH ∧ r ≠ .I2C0SCLL)
      ∧ busOps (newEvents s s') = []
      ∧ completionSignals (newEvents s s') = []
      ∧ qEvents (newEvents s s') = []
      ∧ Event.portYIELD_FROM_ISR ∉ newEvents s s' := by
  have e : vI2C_ISR s i = .ok (isr_epilogue (isr_prologue s)) := by
    rw [vI2C_ISR_unfold, if_neg (not_not.mpr hsi)]
  refine ⟨_, e, ?_⟩
  have ht : (isr_epilogue (isr_prologue s)).trace = s.trace
      ++ [.write .FIOSET 0x04000000, .write .VICVectAddr 0x0, .write .FIOCLR 0x04000000] := by
    rw [isr_epilogue_eq]
    simp [isr_prologue, epilogueEvents, I2CState.emit]
  rw [newEvents_of_eq ht]
  refine ⟨?_, ?_, ?_, ?_, ?_, ?_, ?_, ?_, ?_, ?_, ?_, ?_, ?_, rfl, ht, ?_, by decide, by decide,
    by decide, by decide⟩
  all_goals first
    | (rw [isr_epilogue_eq]; rfl)
    | (intro r v hm
       simp only [List.mem_cons, Event.write.injEq, List.mem_singleton, List.not_mem_nil,
         or_false] at hm
       rcases hm with ⟨rfl, _⟩ | ⟨rfl, _⟩ | ⟨rfl, _⟩ <;> decide)

/-- Claim C34 amended, at a spurious interrupt during the Quick transaction of
`quickStarted`. -/
theorem C34_spurious_interrupt_frame_witness :
    spurious.I2C0CONSET &&& 0x08 = 0
    ∧ ∃ s', vI2C_ISR quickStarted spurious = .ok s'
      ∧ s'.ucI2C_cstate = quickStarted.ucI2C_cstate
      ∧ s'.pxI2C = quickStarted.pxI2C
      ∧ s'.ucI2C_busy = quickStarted.ucI2C_busy
      ∧ newEvents quickStarted s'
          = [.write .FIOSET 0x04000000, .write .VICVectAddr 0x0, .write .FIOCLR 0x04000000] := by
  obtain ⟨s', h, c, _, _, _, _, _, p, _, _, _, _, _, b, n, _⟩ :=
    C34_spurious_interrupt_frame quickStarted spurious (by decide)
  exact ⟨by decide, s', h, c, p, b, n⟩

end I2C
